import Mathlib

/-!
# Precomputed atmosphere transmittance texture

A shallow embedding of the transmittance pipeline of the repository
(`vec.h`, `atmosphereParameters/definitions.h`, `functions/util.h`,
`functions/functions.h`, `Transmittance.cpp`) and theorems about it.

Modelling conventions.

* `double` (and the many unit aliases `Length`, `Number`, `Area`, ...) is a linearly
  ordered field `α`; the theorems instantiate it with `ℝ`.  Rounding, overflow and
  underflow of IEEE arithmetic are not modelled, and the `float` parameters of `clamp`
  are the same scalars.  The unit constants `m`, `m2` are `1`.
* `std::sqrt` and `std::exp` are not code of the repository: every function that calls
  them takes them as the parameters `sqrt` and `exp`; the theorems pass `Real.sqrt`
  and `Real.exp`.
* `assert(c)` aborts the program when `c` is false: a function with an assertion
  returns an `Option`, `none` standing for the abort.
* `TRANSMITTANCE_TEXTURE_WIDTH` and `TRANSMITTANCE_TEXTURE_HEIGHT` come from
  `atmosphereParameters/constants.h`, which is not among the sources: they are
  parameters of type `ℤ` (the C++ type is `int`).
-/

namespace PrecomputedAtmosphere

/-! ## vec.h -/

/-- The struct `Vec2<Type>`. -/
structure Vec2 (α : Type) where
  x : α
  y : α

/-- The struct `Vec3<Type>`. -/
structure Vec3 (α : Type) where
  x : α
  y : α
  z : α

section Scalar

variable {α : Type} [LinearOrderedField α]

/-- The componentwise quotient `Vec2::operator/(Vec2 b)`. -/
def Vec2.div (a b : Vec2 α) : Vec2 α :=
  ⟨a.x / b.x, a.y / b.y⟩

/-- The operator `Vec2::operator+=(const Vec2 &b)`: `x += b.x; y += b.y`. -/
def Vec2.addAssign (a b : Vec2 α) : Vec2 α :=
  ⟨a.x + b.x, a.y + b.y⟩

/-- The operator `Vec2::operator+(const Vec2 &b)`: a copy of `*this`, then `+=`. -/
def Vec2.add (a b : Vec2 α) : Vec2 α :=
  let ret := a
  ret.addAssign b

/-- The operator `Vec2::operator-=(const Vec2 &b)`: `x -= b.x; y -= b.x`. -/
def Vec2.subAssign (a b : Vec2 α) : Vec2 α :=
  ⟨a.x - b.x, a.y - b.x⟩

/-- The operator `Vec2::operator-(const Vec2 &b)`: a copy of `*this`, then `-=`. -/
def Vec2.sub (a b : Vec2 α) : Vec2 α :=
  let ret := a
  ret.subAssign b

/-- The unary minus `Vec2::operator-()`. -/
def Vec2.neg (a : Vec2 α) : Vec2 α :=
  ⟨-a.x, -a.y⟩

/-- The sum `Vec3::operator+(const Vec3 &b)`. -/
def Vec3.add (a b : Vec3 α) : Vec3 α :=
  ⟨a.x + b.x, a.y + b.y, a.z + b.z⟩

/-- The unary minus `Vec3::operator-()`. -/
def Vec3.neg (a : Vec3 α) : Vec3 α :=
  ⟨-a.x, -a.y, -a.z⟩

/-- The product with a scalar, `Vec3::operator*(double b)`. -/
def Vec3.mul (a : Vec3 α) (b : α) : Vec3 α :=
  ⟨a.x * b, a.y * b, a.z * b⟩

/-- The function `exp(const Vec3<Type> &vec)`: `std::exp` on each component. -/
def Vec3.exp (exp : α → α) (vec : Vec3 α) : Vec3 α :=
  ⟨exp vec.x, exp vec.y, exp vec.z⟩

/-! ## atmosphereParameters/definitions.h -/

/-- The struct `DensityProfileLayer`. -/
structure DensityProfileLayer (α : Type) where
  width : α
  exp_term : α
  exp_scale : α
  linear_term : α
  constant_term : α

/-- The struct `DensityProfile`: the array `layers[2]`. -/
structure DensityProfile (α : Type) where
  layers : Fin 2 → DensityProfileLayer α

/-- The struct `AtmosphereParameters`. -/
structure AtmosphereParameters (α : Type) where
  solar_irradiance : Vec3 α
  sun_angular_radius : α
  bottom_radius : α
  top_radius : α
  rayleigh_density : DensityProfile α
  rayleigh_scattering : Vec3 α
  mie_density : DensityProfile α
  mie_scattering : Vec3 α
  mie_extinction : Vec3 α
  mie_phase_function_g : α
  absorption_density : DensityProfile α
  absorption_extinction : Vec3 α
  ground_albedo : Vec3 α
  mu_s_min : α

/-! ## functions/util.h -/

/-- The statement `assert(c)`: the run goes on when `c` holds and aborts otherwise. -/
def cassert (c : Prop) [Decidable c] : Option Unit :=
  if c then some () else none

/-- The function `clamp(num, min, max)`. -/
def clamp (num min max : α) : Option α := do
  cassert (min ≤ max)
  pure (if num < min then min else if num > max then max else num)

/-- The function `ClampCosine(mu)`. -/
def ClampCosine (mu : α) : Option α :=
  clamp mu (-1) 1

/-- The function `ClampDistance(d)`: `std::max(d, 0)`. -/
def ClampDistance (d : α) : α :=
  Max.max d 0

/-- The function `ClampRadius(atmosphere, r)`. -/
def ClampRadius (atmosphere : AtmosphereParameters α) (r : α) : Option α :=
  clamp r atmosphere.bottom_radius atmosphere.top_radius

/-- The function `SafeSqrt(a)`: `sqrt(std::max(a, 0))`. -/
def SafeSqrt (sqrt : α → α) (a : α) : α :=
  sqrt (Max.max a 0)

/-! ## functions/functions.h -/

/-- The function `DistanceToTopAtmosphereBoundary(atmosphere, r, mu)`. -/
def DistanceToTopAtmosphereBoundary (sqrt : α → α)
    (atmosphere : AtmosphereParameters α) (r mu : α) : Option α := do
  cassert (r ≤ atmosphere.top_radius)
  cassert (mu ≥ -1 ∧ mu ≤ 1)
  let discriminant := r * r * (mu * mu - 1) + atmosphere.top_radius * atmosphere.top_radius
  pure (ClampDistance (-r * mu + SafeSqrt sqrt discriminant))

/-- The function `DistanceToBottomAtmosphereBoundary(atmosphere, r, mu)`. -/
def DistanceToBottomAtmosphereBoundary (sqrt : α → α)
    (atmosphere : AtmosphereParameters α) (r mu : α) : Option α := do
  cassert (r ≥ atmosphere.bottom_radius)
  cassert (mu ≥ -1 ∧ mu ≤ 1)
  let discriminant :=
    r * r * (mu * mu - 1) + atmosphere.bottom_radius * atmosphere.bottom_radius
  pure (ClampDistance (-r * mu - SafeSqrt sqrt discriminant))

/-- The function `RayIntersectsGround(atmosphere, r, mu)`. -/
def RayIntersectsGround (atmosphere : AtmosphereParameters α) (r mu : α) : Option Bool := do
  cassert (r ≥ atmosphere.bottom_radius)
  cassert (mu ≥ -1 ∧ mu ≤ 1)
  pure (decide (mu < 0) &&
    decide (r * r * (mu * mu - 1) + atmosphere.bottom_radius * atmosphere.bottom_radius ≥ 0))

/-- The function `GetLayerDensity(layer, altitude)`. -/
def GetLayerDensity (exp : α → α) (layer : DensityProfileLayer α) (altitude : α) :
    Option α :=
  let density := layer.exp_term * exp (layer.exp_scale * altitude)
    + layer.linear_term * altitude + layer.constant_term
  clamp density 0 1

/-- The function `GetProfileDensity(profile, altitude)`. -/
def GetProfileDensity (exp : α → α) (profile : DensityProfile α) (altitude : α) :
    Option α :=
  if altitude < (profile.layers 0).width then
    GetLayerDensity exp (profile.layers 0) altitude
  else
    GetLayerDensity exp (profile.layers 1) altitude

/-- The constant `SAMPLE_COUNT` of `ComputeOpticalLengthToTopAtmosphereBoundary`. -/
def SAMPLE_COUNT : ℕ := 500

/-- The body of the `for` loop of `ComputeOpticalLengthToTopAtmosphereBoundary` at index
`i`, from the accumulator `result` to its next value. -/
def opticalLengthStep (sqrt exp : α → α) (atmosphere : AtmosphereParameters α)
    (profile : DensityProfile α) (r mu dx : α) (result : α) (i : ℕ) : Option α := do
  let d_i := (i : α) * dx
  let r_i := sqrt (d_i * d_i + 2 * r * mu * d_i + r * r)
  let y_i ← GetProfileDensity exp profile (r_i - atmosphere.bottom_radius)
  let weight_i : α := if i = 0 ∨ i = SAMPLE_COUNT then 0.5 else 1
  pure (result + y_i * weight_i * dx)

/-- The function `ComputeOpticalLengthToTopAtmosphereBoundary(atmosphere, profile, r, mu)`:
the loop runs `i = 0, ..., SAMPLE_COUNT`. -/
def ComputeOpticalLengthToTopAtmosphereBoundary (sqrt exp : α → α)
    (atmosphere : AtmosphereParameters α) (profile : DensityProfile α) (r mu : α) :
    Option α := do
  cassert (r ≥ atmosphere.bottom_radius ∧ r ≤ atmosphere.top_radius)
  cassert (mu ≥ -1 ∧ mu ≤ 1)
  let d ← DistanceToTopAtmosphereBoundary sqrt atmosphere r mu
  let dx := d / (SAMPLE_COUNT : α)
  (List.range (SAMPLE_COUNT + 1)).foldlM
    (opticalLengthStep sqrt exp atmosphere profile r mu dx) 0

/-- The function `ComputeTransmittanceToTopAtmosphereBoundary(atmosphere, r, mu)`. -/
def ComputeTransmittanceToTopAtmosphereBoundary (sqrt exp : α → α)
    (atmosphere : AtmosphereParameters α) (r mu : α) : Option (Vec3 α) := do
  cassert (r ≥ atmosphere.bottom_radius ∧ r ≤ atmosphere.top_radius)
  cassert (mu ≥ -1 ∧ mu ≤ 1)
  let rayleighTerm := atmosphere.rayleigh_scattering.mul
    (← ComputeOpticalLengthToTopAtmosphereBoundary sqrt exp atmosphere
      atmosphere.rayleigh_density r mu)
  let mieTerm := atmosphere.mie_extinction.mul
    (← ComputeOpticalLengthToTopAtmosphereBoundary sqrt exp atmosphere
      atmosphere.mie_density r mu)
  let ozoneTerm := atmosphere.absorption_extinction.mul
    (← ComputeOpticalLengthToTopAtmosphereBoundary sqrt exp atmosphere
      atmosphere.absorption_density r mu)
  pure (Vec3.exp exp ((rayleighTerm.add mieTerm).add ozoneTerm).neg)

/-- The function `GetUnitRangeFromTextureCoord(u, texture_size)`. -/
def GetUnitRangeFromTextureCoord (u : α) (texture_size : ℤ) : α :=
  (u - 0.5 / (texture_size : α)) / (1 - 1 / (texture_size : α))

/-- The function `GetRMuFromTransmittanceTextureUv(atmosphere, uv, r, mu)`; the two
output parameters are returned as the pair `(r, mu)`. -/
def GetRMuFromTransmittanceTextureUv (sqrt : α → α)
    (TRANSMITTANCE_TEXTURE_WIDTH TRANSMITTANCE_TEXTURE_HEIGHT : ℤ)
    (atmosphere : AtmosphereParameters α) (uv : Vec2 α) : Option (α × α) := do
  cassert (uv.x ≥ 0 ∧ uv.x ≤ 1)
  cassert (uv.y ≥ 0 ∧ uv.y ≤ 1)
  let x_mu := GetUnitRangeFromTextureCoord uv.x TRANSMITTANCE_TEXTURE_WIDTH
  let x_r := GetUnitRangeFromTextureCoord uv.y TRANSMITTANCE_TEXTURE_HEIGHT
  let H := sqrt (atmosphere.top_radius * atmosphere.top_radius
    - atmosphere.bottom_radius * atmosphere.bottom_radius)
  let rho := H * x_r
  let r := sqrt (rho * rho + atmosphere.bottom_radius * atmosphere.bottom_radius)
  let d_min := atmosphere.top_radius - r
  let d_max := rho + H
  let d := d_min + x_mu * (d_max - d_min)
  let mu := if d = 0 then 1 else (H * H - rho * rho - d * d) / (2 * r * d)
  let mu ← ClampCosine mu
  pure (r, mu)

/-- The function `ComputeTransmittanceToTopAtmosphereBoundaryTexture(atmosphere,
frag_coord)`. -/
def ComputeTransmittanceToTopAtmosphereBoundaryTexture (sqrt exp : α → α)
    (TRANSMITTANCE_TEXTURE_WIDTH TRANSMITTANCE_TEXTURE_HEIGHT : ℤ)
    (atmosphere : AtmosphereParameters α) (frag_coord : Vec2 α) : Option (Vec3 α) := do
  let TRANSMITTANCE_TEXTURE_SIZE : Vec2 α :=
    ⟨(TRANSMITTANCE_TEXTURE_WIDTH : α), (TRANSMITTANCE_TEXTURE_HEIGHT : α)⟩
  let (r, mu) ← GetRMuFromTransmittanceTextureUv sqrt TRANSMITTANCE_TEXTURE_WIDTH
    TRANSMITTANCE_TEXTURE_HEIGHT atmosphere (frag_coord.div TRANSMITTANCE_TEXTURE_SIZE)
  ComputeTransmittanceToTopAtmosphereBoundary sqrt exp atmosphere r mu

/-! ## Transmittance.cpp: the texel loop of `main` -/

/-- The local `pixelIndex` of `main` for row `i` and column `j`:
`i * TRANSMITTANCE_TEXTURE_WIDTH + j`. -/
def pixelIndex (TRANSMITTANCE_TEXTURE_WIDTH i j : ℕ) : ℕ :=
  i * TRANSMITTANCE_TEXTURE_WIDTH + j

/-- The index of `data` that `main` writes for row `i`, column `j` and channel `c`:
`pixelIndex * 3 + c`. -/
def dataIndex (TRANSMITTANCE_TEXTURE_WIDTH i j c : ℕ) : ℕ :=
  pixelIndex TRANSMITTANCE_TEXTURE_WIDTH i j * 3 + c

/-- The indices of `data` that the two nested loops of `main` write, in the order of the
writes. -/
def writtenSlots (TRANSMITTANCE_TEXTURE_WIDTH TRANSMITTANCE_TEXTURE_HEIGHT : ℕ) : List ℕ :=
  (List.range TRANSMITTANCE_TEXTURE_HEIGHT).flatMap fun i =>
    (List.range TRANSMITTANCE_TEXTURE_WIDTH).flatMap fun j =>
      [dataIndex TRANSMITTANCE_TEXTURE_WIDTH i j 0,
        dataIndex TRANSMITTANCE_TEXTURE_WIDTH i j 1,
        dataIndex TRANSMITTANCE_TEXTURE_WIDTH i j 2]

/-! ## atmosphereParameters/model.cpp

A `std::vector` is a `List`; reading it out of bounds (undefined behaviour in C++) is
`none`.  The text that `std::to_string` produces is not modelled: a lambda that formats
numbers returns the numbers it formats, in order. -/

/-- The loop of `Interpolate` over the indices `i` it still has to visit; the empty list is
the exit of the loop, which returns the last sample. -/
def Interpolate.loop (wavelengths wavelength_function : List α) (wavelength : α) :
    List ℕ → Option α
  | [] => wavelength_function[wavelength_function.length - 1]?
  | i :: rest => do
    let w1 ← wavelengths[i + 1]?
    if wavelength < w1 then
      let w0 ← wavelengths[i]?
      let u := (wavelength - w0) / (w1 - w0)
      let f0 ← wavelength_function[i]?
      let f1 ← wavelength_function[i + 1]?
      pure (f0 * (1 - u) + f1 * u)
    else
      Interpolate.loop wavelengths wavelength_function wavelength rest

/-- The function `Interpolate(wavelengths, wavelength_function, wavelength)`; the loop
visits `i = 0, ..., wavelengths.size() - 2`. -/
def Interpolate (wavelengths wavelength_function : List α) (wavelength : α) : Option α := do
  cassert (wavelength_function.length = wavelengths.length)
  let w0 ← wavelengths[0]?
  if wavelength < w0 then
    wavelength_function[0]?
  else
    Interpolate.loop wavelengths wavelength_function wavelength
      (List.range (wavelengths.length - 1))

/-- The value `DensityProfileLayer()`: every field is zero. -/
def DensityProfileLayer.zero : DensityProfileLayer α :=
  ⟨0, 0, 0, 0, 0⟩

/-- The constant `kLayerCount` of the lambda `density_profile`. -/
def kLayerCount : ℕ := 2

/-- The `while` loop of the lambda `density_profile`: a zero layer is inserted at the
beginning as long as there are fewer than `kLayerCount` layers. -/
def padLayers (layers : List (DensityProfileLayer α)) : List (DensityProfileLayer α) :=
  if layers.length < kLayerCount then
    padLayers (DensityProfileLayer.zero :: layers)
  else
    layers
termination_by kLayerCount - layers.length
decreasing_by
  simp only [List.length_cons, kLayerCount] at *
  omega

/-- The lambda `density_layer`: the five numbers it formats, in order. -/
def density_layer (length_unit_in_meters : α) (layer : DensityProfileLayer α) : List α :=
  [layer.width / length_unit_in_meters, layer.exp_term,
    layer.exp_scale * length_unit_in_meters, layer.linear_term * length_unit_in_meters,
    layer.constant_term]

/-- The lambda `density_profile`: the layers are padded, then `density_layer` formats
`layers[i]` for `i = 0, ..., kLayerCount - 1`. -/
def density_profile (length_unit_in_meters : α) (layers : List (DensityProfileLayer α)) :
    Option (List (List α)) :=
  let layers := padLayers layers
  (List.range kLayerCount).mapM fun i => do
    let layer ← layers[i]?
    pure (density_layer length_unit_in_meters layer)

end Scalar

/-! ## Values computed when the assertions hold

Closed forms of the results of the functions above, used to state and prove the
theorems.  Each is tied to the embedded function by a lemma `..._eq`. -/

section Values

variable {α : Type} [LinearOrderedField α]

/-- The value `clamp` returns when its assertion holds. -/
def clampValue (num lo hi : α) : α :=
  if num < lo then lo else if num > hi then hi else num

/-- The value of `GetLayerDensity`. -/
def layerDensityValue (exp : α → α) (layer : DensityProfileLayer α) (altitude : α) : α :=
  clampValue (layer.exp_term * exp (layer.exp_scale * altitude)
    + layer.linear_term * altitude + layer.constant_term) 0 1

/-- The value of `GetProfileDensity`. -/
def profileDensityValue (exp : α → α) (profile : DensityProfile α) (altitude : α) : α :=
  if altitude < (profile.layers 0).width then
    layerDensityValue exp (profile.layers 0) altitude
  else
    layerDensityValue exp (profile.layers 1) altitude

/-- The value of `DistanceToTopAtmosphereBoundary` when its assertions hold. -/
def distanceToTopValue (sqrt : α → α) (atmosphere : AtmosphereParameters α) (r mu : α) : α :=
  ClampDistance (-r * mu + SafeSqrt sqrt
    (r * r * (mu * mu - 1) + atmosphere.top_radius * atmosphere.top_radius))

/-- The trapezoid weight of sample `i`: one half at the two end points, one between. -/
def trapezoidWeight (i : ℕ) : α :=
  if i = 0 ∨ i = 500 then 0.5 else 1

/-- The composite trapezoid sum over the 501 samples `i = 0, ..., 500` of the densities
`y i` with step `dx`, as the specification words it. -/
def trapezoidSum (y : ℕ → α) (dx : α) : α :=
  ∑ i in Finset.range 501, trapezoidWeight i * y i * dx

/-- The radius of the point at distance `d_i` along the ray from `(r, mu)`. -/
def sampleRadius (sqrt : α → α) (r mu d_i : α) : α :=
  sqrt (d_i * d_i + 2 * r * mu * d_i + r * r)

/-- The value of `ComputeOpticalLengthToTopAtmosphereBoundary` when its assertions hold. -/
def opticalLengthValue (sqrt exp : α → α) (atmosphere : AtmosphereParameters α)
    (profile : DensityProfile α) (r mu : α) : α :=
  trapezoidSum (fun i => profileDensityValue exp profile
      (sampleRadius sqrt r mu ((i : α) * (distanceToTopValue sqrt atmosphere r mu / 500))
        - atmosphere.bottom_radius))
    (distanceToTopValue sqrt atmosphere r mu / 500)

/-- The three components of a vector are not negative. -/
def Vec3.Nonneg (v : Vec3 α) : Prop :=
  0 ≤ v.x ∧ 0 ≤ v.y ∧ 0 ≤ v.z

/-- The local `H` of `GetRMuFromTransmittanceTextureUv`: the distance from the ground to the
top boundary along a ray grazing the horizon. -/
def textureH (sqrt : α → α) (atmosphere : AtmosphereParameters α) : α :=
  sqrt (atmosphere.top_radius * atmosphere.top_radius
    - atmosphere.bottom_radius * atmosphere.bottom_radius)

/-- The local `rho` of `GetRMuFromTransmittanceTextureUv`. -/
def textureRho (sqrt : α → α) (height : ℤ) (atmosphere : AtmosphereParameters α)
    (uv : Vec2 α) : α :=
  textureH sqrt atmosphere * GetUnitRangeFromTextureCoord uv.y height

/-- The output `r` of `GetRMuFromTransmittanceTextureUv`. -/
def textureR (sqrt : α → α) (height : ℤ) (atmosphere : AtmosphereParameters α)
    (uv : Vec2 α) : α :=
  sqrt (textureRho sqrt height atmosphere uv * textureRho sqrt height atmosphere uv
    + atmosphere.bottom_radius * atmosphere.bottom_radius)

/-- The local `d` of `GetRMuFromTransmittanceTextureUv`: `d_min + x_mu * (d_max - d_min)`. -/
def textureD (sqrt : α → α) (width height : ℤ) (atmosphere : AtmosphereParameters α)
    (uv : Vec2 α) : α :=
  (atmosphere.top_radius - textureR sqrt height atmosphere uv)
    + GetUnitRangeFromTextureCoord uv.x width
      * ((textureRho sqrt height atmosphere uv + textureH sqrt atmosphere)
        - (atmosphere.top_radius - textureR sqrt height atmosphere uv))

/-- The local `mu` of `GetRMuFromTransmittanceTextureUv` before `ClampCosine`. -/
def textureMu (sqrt : α → α) (width height : ℤ) (atmosphere : AtmosphereParameters α)
    (uv : Vec2 α) : α :=
  if textureD sqrt width height atmosphere uv = 0 then 1
  else (textureH sqrt atmosphere * textureH sqrt atmosphere
      - textureRho sqrt height atmosphere uv * textureRho sqrt height atmosphere uv
      - textureD sqrt width height atmosphere uv * textureD sqrt width height atmosphere uv)
    / (2 * textureR sqrt height atmosphere uv * textureD sqrt width height atmosphere uv)

/-- The value `Interpolate` returns inside the segment from sample `i` to sample `i + 1`:
the linear interpolation `f[i] * (1 - u) + f[i + 1] * u`. -/
def segmentValue (wavelengths wavelength_function : List α) (wavelength : α) (i : ℕ) : α :=
  wavelength_function.getD i 0
      * (1 - (wavelength - wavelengths.getD i 0)
          / (wavelengths.getD (i + 1) 0 - wavelengths.getD i 0))
    + wavelength_function.getD (i + 1) 0
      * ((wavelength - wavelengths.getD i 0)
          / (wavelengths.getD (i + 1) 0 - wavelengths.getD i 0))

/-- A species attenuates light at an altitude: its coefficient is positive in some channel and
`GetProfileDensity` returns a positive density at that altitude. -/
def AttenuatesAt (exp : α → α) (coefficient : Vec3 α) (profile : DensityProfile α)
    (altitude : α) : Prop :=
  (0 < coefficient.x ∨ 0 < coefficient.y ∨ 0 < coefficient.z)
    ∧ ∃ y : α, GetProfileDensity exp profile altitude = some y ∧ 0 < y

/-- The density of a profile does not increase with the altitude, from the ground up. -/
def NonincreasingAboveGround (exp : α → α) (profile : DensityProfile α) : Prop :=
  ∀ h₁ h₂ y₁ y₂ : α, 0 ≤ h₁ → h₁ ≤ h₂ →
    GetProfileDensity exp profile h₁ = some y₁ →
    GetProfileDensity exp profile h₂ = some y₂ → y₂ ≤ y₁

/-! ## Transmittance.cpp -/

/-- The constant `ATMOSPHERE` of `main`. -/
def ATMOSPHERE : AtmosphereParameters α where
  solar_irradiance := ⟨1.500000, 1.500000, 1.500000⟩
  sun_angular_radius := 0.004675
  bottom_radius := 6360.000000
  top_radius := 6420.000000
  rayleigh_density := ⟨![⟨0.000000, 0.000000, 0.000000, 0.000000, 0.000000⟩,
    ⟨0.000000, 1.000000, -0.125000, 0.000000, 0.000000⟩]⟩
  rayleigh_scattering := ⟨0.005802, 0.013558, 0.033100⟩
  mie_density := ⟨![⟨0.000000, 0.000000, 0.000000, 0.000000, 0.000000⟩,
    ⟨0.000000, 1.000000, -0.833333, 0.000000, 0.000000⟩]⟩
  mie_scattering := ⟨0.003996, 0.003996, 0.003996⟩
  mie_extinction := ⟨0.004440, 0.004440, 0.004440⟩
  mie_phase_function_g := 0.800000
  absorption_density := ⟨![⟨25.000000, 0.000000, 0.000000, 0.066667, -0.666667⟩,
    ⟨0.000000, 0.000000, 0.000000, -0.066667, 2.666667⟩]⟩
  absorption_extinction := ⟨0.000650, 0.001881, 0.000085⟩
  ground_albedo := ⟨0.100000, 0.100000, 0.100000⟩
  mu_s_min := -0.207912

/-- The vector `ozone_density` of `InitModel`: two layers, in metres. -/
def ozone_density : List (DensityProfileLayer α) :=
  [⟨25000.0, 0.0, 0.0, 1.0 / 15000.0, -2.0 / 3.0⟩,
    ⟨0.0, 0.0, 0.0, -1.0 / 15000.0, 8.0 / 3.0⟩]

/-- The density profile whose `layers[0]` and `layers[1]` are the two layers of
`ozone_density`. -/
def ozoneProfile : DensityProfile α :=
  ⟨![⟨25000.0, 0.0, 0.0, 1.0 / 15000.0, -2.0 / 3.0⟩,
    ⟨0.0, 0.0, 0.0, -1.0 / 15000.0, 8.0 / 3.0⟩]⟩

/-- An atmosphere with ground radius 3 and top radius 5 whose only attenuating species has
density 0 below altitude 1 and density 1 from altitude 1 up. -/
def stepAtmosphere : AtmosphereParameters α where
  solar_irradiance := ⟨1, 1, 1⟩
  sun_angular_radius := 0
  bottom_radius := 3
  top_radius := 5
  rayleigh_density := ⟨![⟨1, 0, 0, 0, 0⟩, ⟨0, 0, 0, 0, 1⟩]⟩
  rayleigh_scattering := ⟨1, 1, 1⟩
  mie_density := ⟨![⟨0, 0, 0, 0, 0⟩, ⟨0, 0, 0, 0, 0⟩]⟩
  mie_scattering := ⟨0, 0, 0⟩
  mie_extinction := ⟨0, 0, 0⟩
  mie_phase_function_g := 0
  absorption_density := ⟨![⟨0, 0, 0, 0, 0⟩, ⟨0, 0, 0, 0, 0⟩]⟩
  absorption_extinction := ⟨0, 0, 0⟩
  ground_albedo := ⟨0, 0, 0⟩
  mu_s_min := 0

end Values

section BasicLemmas

variable {α : Type} [LinearOrderedField α]

theorem cassert_pos {c : Prop} [Decidable c] (h : c) : cassert c = some () :=
  if_pos h

theorem cassert_neg {c : Prop} [Decidable c] (h : ¬ c) : cassert c = none :=
  if_neg h

theorem clamp_eq (num : α) {lo hi : α} (h : lo ≤ hi) :
    clamp num lo hi = some (clampValue num lo hi) := by
  simp [clamp, clampValue, cassert_pos h]

theorem clampValue_bounds (num : α) {lo hi : α} (h : lo ≤ hi) :
    lo ≤ clampValue num lo hi ∧ clampValue num lo hi ≤ hi := by
  unfold clampValue
  split_ifs with h1 h2
  · exact ⟨le_refl _, h⟩
  · exact ⟨h, le_refl _⟩
  · exact ⟨not_lt.mp h1, not_lt.mp h2⟩

theorem clampValue_of_mem {num lo hi : α} (h1 : lo ≤ num) (h2 : num ≤ hi) :
    clampValue num lo hi = num := by
  unfold clampValue
  rw [if_neg (not_lt.mpr h1), if_neg (not_lt.mpr h2)]

theorem ClampCosine_eq (mu : α) : ClampCosine mu = some (clampValue mu (-1) 1) :=
  clamp_eq mu (by norm_num)

theorem GetLayerDensity_eq (exp : α → α) (layer : DensityProfileLayer α) (altitude : α) :
    GetLayerDensity exp layer altitude = some (layerDensityValue exp layer altitude) := by
  unfold GetLayerDensity layerDensityValue
  exact clamp_eq _ zero_le_one

theorem GetProfileDensity_eq (exp : α → α) (profile : DensityProfile α) (altitude : α) :
    GetProfileDensity exp profile altitude
      = some (profileDensityValue exp profile altitude) := by
  unfold GetProfileDensity profileDensityValue
  split_ifs <;> exact GetLayerDensity_eq _ _ _

theorem layerDensityValue_bounds (exp : α → α) (layer : DensityProfileLayer α) (h : α) :
    0 ≤ layerDensityValue exp layer h ∧ layerDensityValue exp layer h ≤ 1 :=
  clampValue_bounds _ zero_le_one

theorem profileDensityValue_bounds (exp : α → α) (profile : DensityProfile α) (h : α) :
    0 ≤ profileDensityValue exp profile h ∧ profileDensityValue exp profile h ≤ 1 := by
  unfold profileDensityValue
  split_ifs <;> exact layerDensityValue_bounds _ _ _

theorem DistanceToTopAtmosphereBoundary_eq (sqrt : α → α)
    (atmosphere : AtmosphereParameters α) {r mu : α}
    (hr : r ≤ atmosphere.top_radius) (h1 : -1 ≤ mu) (h2 : mu ≤ 1) :
    DistanceToTopAtmosphereBoundary sqrt atmosphere r mu
      = some (distanceToTopValue sqrt atmosphere r mu) := by
  have hm : mu ≥ -1 ∧ mu ≤ 1 := ⟨h1, h2⟩
  simp [DistanceToTopAtmosphereBoundary, distanceToTopValue, cassert_pos hr, cassert_pos hm]

theorem distanceToTopValue_nonneg (sqrt : α → α) (atmosphere : AtmosphereParameters α)
    (r mu : α) : 0 ≤ distanceToTopValue sqrt atmosphere r mu :=
  le_max_right _ _

theorem trapezoidWeight_pos (i : ℕ) : (0 : α) < trapezoidWeight i := by
  unfold trapezoidWeight
  split_ifs <;> norm_num

/-- The loop of `ComputeOpticalLengthToTopAtmosphereBoundary` over the first `n` indices
adds the first `n` trapezoid terms to the accumulator. -/
theorem foldlM_opticalLengthStep (sqrt exp : α → α) (atmosphere : AtmosphereParameters α)
    (profile : DensityProfile α) (r mu dx : α) (n : ℕ) (a : α) :
    (List.range n).foldlM (opticalLengthStep sqrt exp atmosphere profile r mu dx) a
      = some (a + ∑ i in Finset.range n,
          profileDensityValue exp profile
            (sampleRadius sqrt r mu ((i : α) * dx) - atmosphere.bottom_radius)
          * (if i = 0 ∨ i = SAMPLE_COUNT then 0.5 else 1) * dx) := by
  induction n with
  | zero => simp
  | succ n ih =>
    rw [List.range_succ, List.foldlM_append, ih, Finset.sum_range_succ]
    simp [opticalLengthStep, GetProfileDensity_eq, sampleRadius, add_assoc]

theorem ComputeOpticalLengthToTopAtmosphereBoundary_eq (sqrt exp : α → α)
    (atmosphere : AtmosphereParameters α) (profile : DensityProfile α) {r mu : α}
    (hr1 : atmosphere.bottom_radius ≤ r) (hr2 : r ≤ atmosphere.top_radius)
    (h1 : -1 ≤ mu) (h2 : mu ≤ 1) :
    ComputeOpticalLengthToTopAtmosphereBoundary sqrt exp atmosphere profile r mu
      = some (opticalLengthValue sqrt exp atmosphere profile r mu) := by
  have hr : r ≥ atmosphere.bottom_radius ∧ r ≤ atmosphere.top_radius := ⟨hr1, hr2⟩
  have hm : mu ≥ -1 ∧ mu ≤ 1 := ⟨h1, h2⟩
  unfold ComputeOpticalLengthToTopAtmosphereBoundary
  rw [cassert_pos hr, cassert_pos hm, DistanceToTopAtmosphereBoundary_eq sqrt atmosphere hr2 h1 h2]
  simp only [Option.some_bind, Option.bind_eq_bind]
  rw [foldlM_opticalLengthStep, zero_add]
  unfold opticalLengthValue trapezoidSum trapezoidWeight SAMPLE_COUNT
  refine congrArg some (Finset.sum_congr rfl ?_)
  intro i _
  simp only [Nat.cast_ofNat]
  ring

theorem opticalLengthValue_nonneg (sqrt exp : α → α) (atmosphere : AtmosphereParameters α)
    (profile : DensityProfile α) (r mu : α) :
    0 ≤ opticalLengthValue sqrt exp atmosphere profile r mu := by
  unfold opticalLengthValue trapezoidSum
  apply Finset.sum_nonneg
  intro i _
  have hw : (0 : α) < trapezoidWeight i := trapezoidWeight_pos i
  have hd := distanceToTopValue_nonneg sqrt atmosphere r mu
  have hy := (profileDensityValue_bounds exp profile
    (sampleRadius sqrt r mu ((i : α) * (distanceToTopValue sqrt atmosphere r mu / 500))
        - atmosphere.bottom_radius)).1
  positivity

theorem ComputeTransmittanceToTopAtmosphereBoundary_eq (sqrt exp : α → α)
    (atmosphere : AtmosphereParameters α) {r mu : α}
    (hr1 : atmosphere.bottom_radius ≤ r) (hr2 : r ≤ atmosphere.top_radius)
    (h1 : -1 ≤ mu) (h2 : mu ≤ 1) :
    ComputeTransmittanceToTopAtmosphereBoundary sqrt exp atmosphere r mu
      = some (Vec3.exp exp
          (((atmosphere.rayleigh_scattering.mul
              (opticalLengthValue sqrt exp atmosphere atmosphere.rayleigh_density r mu)).add
            (atmosphere.mie_extinction.mul
              (opticalLengthValue sqrt exp atmosphere atmosphere.mie_density r mu))).add
            (atmosphere.absorption_extinction.mul
              (opticalLengthValue sqrt exp atmosphere atmosphere.absorption_density r mu))).neg)
      := by
  have hr : r ≥ atmosphere.bottom_radius ∧ r ≤ atmosphere.top_radius := ⟨hr1, hr2⟩
  have hm : mu ≥ -1 ∧ mu ≤ 1 := ⟨h1, h2⟩
  unfold ComputeTransmittanceToTopAtmosphereBoundary
  rw [cassert_pos hr, cassert_pos hm]
  simp only [ComputeOpticalLengthToTopAtmosphereBoundary_eq sqrt exp atmosphere _ hr1 hr2 h1 h2,
    Option.some_bind, Option.bind_eq_bind, Option.pure_def]

end BasicLemmas


/-! ## Geometry of the ray and the outer sphere (over the reals) -/

section Geometry

theorem discriminant_eq (top r mu : ℝ) :
    r * r * (mu * mu - 1) + top * top = (r * mu) ^ 2 + (top ^ 2 - r ^ 2) := by
  ring

theorem discriminant_nonneg {top r mu : ℝ} (hr0 : 0 ≤ r) (hr : r ≤ top) :
    0 ≤ r * r * (mu * mu - 1) + top * top := by
  rw [discriminant_eq]
  have : 0 ≤ top ^ 2 - r ^ 2 := by nlinarith
  positivity

theorem le_sqrt_sq_add (a : ℝ) {c : ℝ} (hc : 0 ≤ c) : a ≤ Real.sqrt (a ^ 2 + c) := by
  apply Real.le_sqrt_of_sq_le
  linarith

/-- The map `a ↦ -a + sqrt (a ^ 2 + c)` does not increase. -/
theorem neg_add_sqrt_antitone {a₁ a₂ c : ℝ} (hc : 0 ≤ c) (h : a₁ ≤ a₂) :
    -a₂ + Real.sqrt (a₂ ^ 2 + c) ≤ -a₁ + Real.sqrt (a₁ ^ 2 + c) := by
  have e1 : Real.sqrt (a₁ ^ 2 + c) ^ 2 = a₁ ^ 2 + c := Real.sq_sqrt (by positivity)
  have e2 : Real.sqrt (a₂ ^ 2 + c) ^ 2 = a₂ ^ 2 + c := Real.sq_sqrt (by positivity)
  have p1 : 0 ≤ Real.sqrt (a₁ ^ 2 + c) := Real.sqrt_nonneg _
  have p2 : 0 ≤ Real.sqrt (a₂ ^ 2 + c) := Real.sqrt_nonneg _
  have l1 := le_sqrt_sq_add a₁ hc
  have l2 := le_sqrt_sq_add a₂ hc
  by_contra hcon
  push_neg at hcon
  nlinarith

/-- The value of `DistanceToTopAtmosphereBoundary` inside the atmosphere: neither clamp
acts. -/
theorem distanceToTopValue_eq (atmosphere : AtmosphereParameters ℝ) {r : ℝ} (mu : ℝ)
    (hr0 : 0 ≤ r) (hr : r ≤ atmosphere.top_radius) :
    distanceToTopValue Real.sqrt atmosphere r mu
      = -(r * mu) + Real.sqrt ((r * mu) ^ 2 + (atmosphere.top_radius ^ 2 - r ^ 2)) := by
  have hc : 0 ≤ atmosphere.top_radius ^ 2 - r ^ 2 := by nlinarith
  unfold distanceToTopValue ClampDistance SafeSqrt
  rw [max_eq_left (discriminant_nonneg hr0 hr), discriminant_eq, max_eq_left]
  · ring
  · have := le_sqrt_sq_add (r * mu) hc
    linarith

theorem distanceToTopValue_sq (atmosphere : AtmosphereParameters ℝ) {r : ℝ} (mu : ℝ)
    (hr0 : 0 ≤ r) (hr : r ≤ atmosphere.top_radius) :
    distanceToTopValue Real.sqrt atmosphere r mu ^ 2
      + 2 * r * mu * distanceToTopValue Real.sqrt atmosphere r mu + r ^ 2
      = atmosphere.top_radius ^ 2 := by
  have hc : 0 ≤ atmosphere.top_radius ^ 2 - r ^ 2 := by nlinarith
  have e : Real.sqrt ((r * mu) ^ 2 + (atmosphere.top_radius ^ 2 - r ^ 2)) ^ 2
      = (r * mu) ^ 2 + (atmosphere.top_radius ^ 2 - r ^ 2) := Real.sq_sqrt (by positivity)
  rw [distanceToTopValue_eq atmosphere mu hr0 hr]
  linear_combination e

theorem distanceToTopValue_antitone (atmosphere : AtmosphereParameters ℝ) {r mu₁ mu₂ : ℝ}
    (hr0 : 0 ≤ r) (hr : r ≤ atmosphere.top_radius) (h : mu₁ ≤ mu₂) :
    distanceToTopValue Real.sqrt atmosphere r mu₂ ≤ distanceToTopValue Real.sqrt atmosphere r mu₁
    := by
  have hc : 0 ≤ atmosphere.top_radius ^ 2 - r ^ 2 := by nlinarith
  rw [distanceToTopValue_eq atmosphere mu₁ hr0 hr, distanceToTopValue_eq atmosphere mu₂ hr0 hr]
  exact neg_add_sqrt_antitone hc (mul_le_mul_of_nonneg_left h hr0)

/-- A non-negative root `d` of the intersection equation on the far side of the foot of
the perpendicular is the value of `DistanceToTopAtmosphereBoundary`. -/
theorem distanceToTopValue_of_root (atmosphere : AtmosphereParameters ℝ) {r mu d : ℝ}
    (hr0 : 0 ≤ r) (hr : r ≤ atmosphere.top_radius)
    (hroot : d ^ 2 + 2 * r * mu * d + r ^ 2 = atmosphere.top_radius ^ 2)
    (hpos : 0 ≤ r * mu + d) :
    distanceToTopValue Real.sqrt atmosphere r mu = d := by
  have e : (r * mu) ^ 2 + (atmosphere.top_radius ^ 2 - r ^ 2) = (r * mu + d) ^ 2 := by
    linear_combination (-1 : ℝ) * hroot
  rw [distanceToTopValue_eq atmosphere mu hr0 hr, e, Real.sqrt_sq hpos]
  ring

end Geometry

/-! ## The texture parameterization -/

section Parameterization

theorem GetRMuFromTransmittanceTextureUv_eq {α : Type} [LinearOrderedField α] (sqrt : α → α)
    (width height : ℤ) (atmosphere : AtmosphereParameters α) {uv : Vec2 α}
    (hx1 : 0 ≤ uv.x) (hx2 : uv.x ≤ 1) (hy1 : 0 ≤ uv.y) (hy2 : uv.y ≤ 1) :
    GetRMuFromTransmittanceTextureUv sqrt width height atmosphere uv
      = some (textureR sqrt height atmosphere uv,
          clampValue (textureMu sqrt width height atmosphere uv) (-1) 1) := by
  have hx : uv.x ≥ 0 ∧ uv.x ≤ 1 := ⟨hx1, hx2⟩
  have hy : uv.y ≥ 0 ∧ uv.y ≤ 1 := ⟨hy1, hy2⟩
  unfold GetRMuFromTransmittanceTextureUv
  rw [cassert_pos hx, cassert_pos hy]
  simp only [ClampCosine_eq, Option.some_bind, Option.bind_eq_bind, Option.pure_def]
  rfl

theorem unitRange_denominator_pos {n : ℤ} (hn : 2 ≤ n) : (0 : ℝ) < 1 - 1 / (n : ℝ) := by
  have h2 : (2 : ℝ) ≤ (n : ℝ) := by exact_mod_cast hn
  have h0 : (0 : ℝ) < (n : ℝ) := by linarith
  rw [sub_pos, div_lt_one h0]
  linarith

theorem unitRange_nonneg_iff {n : ℤ} (hn : 2 ≤ n) (u : ℝ) :
    0 ≤ GetUnitRangeFromTextureCoord u n ↔ 0.5 / (n : ℝ) ≤ u := by
  unfold GetUnitRangeFromTextureCoord
  rw [le_div_iff₀ (unitRange_denominator_pos hn), zero_mul, sub_nonneg]

theorem unitRange_le_one_iff {n : ℤ} (hn : 2 ≤ n) (u : ℝ) :
    GetUnitRangeFromTextureCoord u n ≤ 1 ↔ u ≤ 1 - 0.5 / (n : ℝ) := by
  have h2 : (2 : ℝ) ≤ (n : ℝ) := by exact_mod_cast hn
  have h0 : (0 : ℝ) < (n : ℝ) := by linarith
  have e : (1 : ℝ) / n = 0.5 / n + 0.5 / n := by
    field_simp
    norm_num
  unfold GetUnitRangeFromTextureCoord
  rw [div_le_iff₀ (unitRange_denominator_pos hn), one_mul, e]
  constructor <;> intro h <;> linarith

theorem unitRange_neg_one_le {n : ℤ} (hn : 2 ≤ n) {u : ℝ} (hu : 0 ≤ u) :
    -1 ≤ GetUnitRangeFromTextureCoord u n := by
  have h2 : (2 : ℝ) ≤ (n : ℝ) := by exact_mod_cast hn
  have h0 : (0 : ℝ) < (n : ℝ) := by linarith
  have e : (1 : ℝ) / n = 0.5 / n + 0.5 / n := by
    field_simp
    norm_num
  have h5 : (0.5 : ℝ) / n ≤ 0.25 := by
    rw [div_le_iff₀ h0]
    linarith
  unfold GetUnitRangeFromTextureCoord
  rw [le_div_iff₀ (unitRange_denominator_pos hn), e]
  linarith

variable (atmosphere : AtmosphereParameters ℝ)

theorem textureH_sq (hbt : atmosphere.bottom_radius < atmosphere.top_radius)
    (hb : 0 < atmosphere.bottom_radius) :
    textureH Real.sqrt atmosphere ^ 2
      = atmosphere.top_radius ^ 2 - atmosphere.bottom_radius ^ 2 := by
  unfold textureH
  rw [Real.sq_sqrt]
  · ring
  · nlinarith

theorem textureH_pos (hbt : atmosphere.bottom_radius < atmosphere.top_radius)
    (hb : 0 < atmosphere.bottom_radius) : 0 < textureH Real.sqrt atmosphere := by
  unfold textureH
  apply Real.sqrt_pos.mpr
  nlinarith [hb]

theorem textureR_sq (height : ℤ) (uv : Vec2 ℝ) :
    textureR Real.sqrt height atmosphere uv ^ 2
      = textureRho Real.sqrt height atmosphere uv ^ 2 + atmosphere.bottom_radius ^ 2 := by
  unfold textureR
  rw [Real.sq_sqrt]
  · ring
  · exact add_nonneg (mul_self_nonneg _) (mul_self_nonneg _)

theorem textureR_nonneg (height : ℤ) (uv : Vec2 ℝ) :
    0 ≤ textureR Real.sqrt height atmosphere uv :=
  Real.sqrt_nonneg _

theorem bottom_le_textureR (height : ℤ) (uv : Vec2 ℝ) :
    atmosphere.bottom_radius ≤ textureR Real.sqrt height atmosphere uv := by
  unfold textureR
  apply Real.le_sqrt_of_sq_le
  nlinarith [sq_nonneg (textureRho Real.sqrt height atmosphere uv)]

theorem textureR_le_top_iff (hbt : atmosphere.bottom_radius < atmosphere.top_radius)
    (hb : 0 < atmosphere.bottom_radius) (height : ℤ) (uv : Vec2 ℝ) :
    textureR Real.sqrt height atmosphere uv ≤ atmosphere.top_radius
      ↔ GetUnitRangeFromTextureCoord uv.y height ^ 2 ≤ 1 := by
  have hH := textureH_sq atmosphere hbt hb
  have hHp := textureH_pos atmosphere hbt hb
  have hHp2 : 0 < textureH Real.sqrt atmosphere ^ 2 := by positivity
  have ht : 0 ≤ atmosphere.top_radius := by linarith
  have e : textureRho Real.sqrt height atmosphere uv ^ 2
      = textureH Real.sqrt atmosphere ^ 2 * GetUnitRangeFromTextureCoord uv.y height ^ 2 := by
    unfold textureRho
    ring
  constructor
  · intro h
    have h2 : textureR Real.sqrt height atmosphere uv ^ 2 ≤ atmosphere.top_radius ^ 2 :=
      pow_le_pow_left₀ (textureR_nonneg atmosphere height uv) h 2
    rw [textureR_sq, e] at h2
    by_contra hcon
    push_neg at hcon
    nlinarith
  · intro h
    have h2 : textureR Real.sqrt height atmosphere uv ^ 2 ≤ atmosphere.top_radius ^ 2 := by
      rw [textureR_sq, e]
      nlinarith
    by_contra hcon
    push_neg at hcon
    nlinarith [textureR_nonneg atmosphere height uv]

/-- The output `r` stays below the top of the atmosphere exactly up to the centre of the
last texel row. -/
theorem textureR_le_top_iff_uv (hbt : atmosphere.bottom_radius < atmosphere.top_radius)
    (hb : 0 < atmosphere.bottom_radius) {height : ℤ} (hH : 2 ≤ height) {uv : Vec2 ℝ}
    (hy : 0 ≤ uv.y) :
    textureR Real.sqrt height atmosphere uv ≤ atmosphere.top_radius
      ↔ uv.y ≤ 1 - 0.5 / (height : ℝ) := by
  rw [textureR_le_top_iff atmosphere hbt hb, ← unitRange_le_one_iff hH,
    sq_le_one_iff_abs_le_one, abs_le]
  exact ⟨fun h => h.2, fun h => ⟨unitRange_neg_one_le hH hy, h⟩⟩

theorem textureRho_le_textureR (height : ℤ) (uv : Vec2 ℝ) :
    textureRho Real.sqrt height atmosphere uv ≤ textureR Real.sqrt height atmosphere uv := by
  unfold textureR
  apply Real.le_sqrt_of_sq_le
  nlinarith [sq_nonneg atmosphere.bottom_radius]

theorem textureH_le_top (hbt : atmosphere.bottom_radius < atmosphere.top_radius)
    (hb : 0 < atmosphere.bottom_radius) :
    textureH Real.sqrt atmosphere ≤ atmosphere.top_radius := by
  unfold textureH
  apply Real.sqrt_le_iff.mpr
  constructor
  · linarith
  · nlinarith [sq_nonneg atmosphere.bottom_radius]

theorem top_le_textureH_add_textureR (hbt : atmosphere.bottom_radius < atmosphere.top_radius)
    (hb : 0 < atmosphere.bottom_radius) (height : ℤ) (uv : Vec2 ℝ) :
    atmosphere.top_radius
      ≤ textureH Real.sqrt atmosphere + textureR Real.sqrt height atmosphere uv := by
  have hHs := textureH_sq atmosphere hbt hb
  have hHp := textureH_pos atmosphere hbt hb
  have hrs := textureR_sq atmosphere height uv
  have hr0 := textureR_nonneg atmosphere height uv
  by_contra hcon
  push_neg at hcon
  nlinarith [mul_pos (sub_pos.mpr hcon) (by linarith : 0 < atmosphere.top_radius
      + (textureH Real.sqrt atmosphere + textureR Real.sqrt height atmosphere uv)),
    mul_nonneg hHp.le hr0, sq_nonneg (textureRho Real.sqrt height atmosphere uv)]

/-- The cosine bounds and the intersection equation for a distance `d > 0` between
`top - r` and `r + top`, with `m = (top ^ 2 - r ^ 2 - d ^ 2) / (2 * r * d)`. -/
theorem cosine_of_distance {top r d : ℝ} (hr0 : 0 < r) (hrt : r ≤ top) (hd : 0 < d)
    (hlo : top - r ≤ d) (hhi : d ≤ r + top) :
    -1 ≤ (top ^ 2 - r ^ 2 - d ^ 2) / (2 * r * d)
      ∧ (top ^ 2 - r ^ 2 - d ^ 2) / (2 * r * d) ≤ 1
      ∧ d ^ 2 + 2 * r * ((top ^ 2 - r ^ 2 - d ^ 2) / (2 * r * d)) * d + r ^ 2 = top ^ 2
      ∧ 0 ≤ r * ((top ^ 2 - r ^ 2 - d ^ 2) / (2 * r * d)) + d := by
  have hden : 0 < 2 * r * d := by positivity
  refine ⟨?_, ?_, ?_, ?_⟩
  · rw [le_div_iff₀ hden]
    nlinarith [mul_nonneg (by linarith : 0 ≤ top - (d - r)) (by linarith : 0 ≤ top + (d - r))]
  · rw [div_le_iff₀ hden]
    nlinarith [mul_nonneg (by linarith : 0 ≤ r + d - top) (by linarith : 0 ≤ r + d + top)]
  · field_simp
    ring
  · have e : r * ((top ^ 2 - r ^ 2 - d ^ 2) / (2 * r * d)) + d
        = (top ^ 2 - r ^ 2 + d ^ 2) / (2 * d) := by
      field_simp
      ring
    rw [e]
    apply div_nonneg _ (by positivity)
    nlinarith [mul_nonneg (by linarith : 0 ≤ top - r) (by linarith : 0 ≤ top + r)]

end Parameterization

/-! ## Paths of zero length -/

section ZeroPath

theorem distanceToTopValue_top (atmosphere : AtmosphereParameters ℝ) {mu : ℝ}
    (ht : 0 ≤ atmosphere.top_radius) (hmu : 0 ≤ mu) :
    distanceToTopValue Real.sqrt atmosphere atmosphere.top_radius mu = 0 := by
  rw [distanceToTopValue_eq atmosphere mu ht le_rfl, sub_self, add_zero,
    Real.sqrt_sq (mul_nonneg ht hmu)]
  ring

theorem eq_top_of_distanceToTopValue_eq_zero (atmosphere : AtmosphereParameters ℝ) {r mu : ℝ}
    (hr0 : 0 < r) (hr : r ≤ atmosphere.top_radius)
    (hd : distanceToTopValue Real.sqrt atmosphere r mu = 0) :
    r = atmosphere.top_radius ∧ 0 ≤ mu := by
  have hc : 0 ≤ atmosphere.top_radius ^ 2 - r ^ 2 := by nlinarith
  rw [distanceToTopValue_eq atmosphere mu hr0.le hr] at hd
  have hs : Real.sqrt ((r * mu) ^ 2 + (atmosphere.top_radius ^ 2 - r ^ 2)) = r * mu := by
    linarith
  have ha : 0 ≤ r * mu := by
    rw [← hs]
    exact Real.sqrt_nonneg _
  have hsq : (r * mu) ^ 2 + (atmosphere.top_radius ^ 2 - r ^ 2) = (r * mu) ^ 2 := by
    have := Real.sq_sqrt (by positivity : 0 ≤ (r * mu) ^ 2 + (atmosphere.top_radius ^ 2 - r ^ 2))
    rw [hs] at this
    linarith
  constructor
  · nlinarith
  · exact nonneg_of_mul_nonneg_right ha hr0

theorem opticalLengthValue_of_distance_zero (exp : ℝ → ℝ) (atmosphere : AtmosphereParameters ℝ)
    (profile : DensityProfile ℝ) {r mu : ℝ}
    (hd : distanceToTopValue Real.sqrt atmosphere r mu = 0) :
    opticalLengthValue Real.sqrt exp atmosphere profile r mu = 0 := by
  unfold opticalLengthValue trapezoidSum
  rw [hd]
  simp

/-- The first sample of the ray is its origin. -/
theorem sampleRadius_zero {r : ℝ} (hr0 : 0 ≤ r) (mu : ℝ) :
    sampleRadius Real.sqrt r mu 0 = r := by
  unfold sampleRadius
  rw [mul_zero, mul_zero, zero_add, zero_add]
  exact Real.sqrt_mul_self hr0

/-- A profile whose density is positive at the altitude of the origin of the ray has optical
length zero only on a path of length zero: the first trapezoid term is positive otherwise. -/
theorem distance_zero_of_opticalLengthValue_zero (exp : ℝ → ℝ)
    (atmosphere : AtmosphereParameters ℝ) (profile : DensityProfile ℝ) {r mu : ℝ}
    (hr0 : 0 ≤ r)
    (hpos : 0 < profileDensityValue exp profile (r - atmosphere.bottom_radius))
    (hL : opticalLengthValue Real.sqrt exp atmosphere profile r mu = 0) :
    distanceToTopValue Real.sqrt atmosphere r mu = 0 := by
  by_contra hne
  have hd : 0 < distanceToTopValue Real.sqrt atmosphere r mu :=
    lt_of_le_of_ne (distanceToTopValue_nonneg _ _ _ _) (Ne.symm hne)
  have hdx : 0 < distanceToTopValue Real.sqrt atmosphere r mu / 500 :=
    div_pos hd (by norm_num)
  have : 0 < opticalLengthValue Real.sqrt exp atmosphere profile r mu := by
    unfold opticalLengthValue trapezoidSum
    apply Finset.sum_pos'
    · intro i _
      exact mul_nonneg (mul_nonneg (trapezoidWeight_pos i).le
        (profileDensityValue_bounds _ _ _).1) hdx.le
    · refine ⟨0, Finset.mem_range.mpr (by norm_num), ?_⟩
      have hs : sampleRadius Real.sqrt r mu
          (((0 : ℕ) : ℝ) * (distanceToTopValue Real.sqrt atmosphere r mu / 500)) = r := by
        rw [Nat.cast_zero, zero_mul]
        exact sampleRadius_zero hr0 mu
      beta_reduce
      rw [hs]
      exact mul_pos (mul_pos (trapezoidWeight_pos 0) hpos) hdx
  linarith

theorem AttenuatesAt.density_pos {exp : ℝ → ℝ} {coefficient : Vec3 ℝ}
    {profile : DensityProfile ℝ} {altitude : ℝ}
    (h : AttenuatesAt exp coefficient profile altitude) :
    0 < profileDensityValue exp profile altitude := by
  obtain ⟨y, hy, hpos⟩ := h.2
  rw [GetProfileDensity_eq exp profile altitude] at hy
  rw [Option.some.inj hy]
  exact hpos

/-- A species that attenuates and contributes nothing to any channel has optical length 0. -/
theorem AttenuatesAt.length_zero {exp : ℝ → ℝ} {coefficient : Vec3 ℝ}
    {profile : DensityProfile ℝ} {altitude : ℝ}
    (h : AttenuatesAt exp coefficient profile altitude) {L : ℝ}
    (hx : coefficient.x * L = 0) (hy : coefficient.y * L = 0) (hz : coefficient.z * L = 0) :
    L = 0 := by
  rcases h.1 with hc | hc | hc
  · exact (mul_eq_zero.mp hx).resolve_left hc.ne'
  · exact (mul_eq_zero.mp hy).resolve_left hc.ne'
  · exact (mul_eq_zero.mp hz).resolve_left hc.ne'

/-- The Rayleigh density of the driver's atmosphere from the ground up. -/
theorem ATMOSPHERE_rayleigh_density {h : ℝ} (hh : 0 ≤ h) :
    profileDensityValue Real.exp (ATMOSPHERE : AtmosphereParameters ℝ).rayleigh_density h
      = Real.exp (-0.125 * h) := by
  have hw : ¬ (h < 0) := not_lt.mpr hh
  have hpos : 0 < Real.exp (-0.125 * h) := Real.exp_pos _
  have hle : Real.exp (-0.125 * h) ≤ 1 := by
    rw [Real.exp_le_one_iff]
    linarith
  have w0 : ((ATMOSPHERE : AtmosphereParameters ℝ).rayleigh_density.layers 0).width = 0 := by
    norm_num [ATMOSPHERE]
  have a1 : ((ATMOSPHERE : AtmosphereParameters ℝ).rayleigh_density.layers 1).exp_term = 1 := by
    norm_num [ATMOSPHERE]
  have s1 : ((ATMOSPHERE : AtmosphereParameters ℝ).rayleigh_density.layers 1).exp_scale
      = -0.125 := by
    norm_num [ATMOSPHERE]
  have l1 : ((ATMOSPHERE : AtmosphereParameters ℝ).rayleigh_density.layers 1).linear_term
      = 0 := by
    norm_num [ATMOSPHERE]
  have c1 : ((ATMOSPHERE : AtmosphereParameters ℝ).rayleigh_density.layers 1).constant_term
      = 0 := by
    norm_num [ATMOSPHERE]
  unfold profileDensityValue layerDensityValue
  rw [w0, if_neg hw, a1, s1, l1, c1, one_mul, zero_mul, add_zero, add_zero,
    clampValue_of_mem hpos.le hle]

/-- The Rayleigh species of the driver's atmosphere attenuates at every altitude from the
ground up. -/
theorem ATMOSPHERE_rayleigh_attenuates {h : ℝ} (hh : 0 ≤ h) :
    AttenuatesAt Real.exp (ATMOSPHERE : AtmosphereParameters ℝ).rayleigh_scattering
      (ATMOSPHERE : AtmosphereParameters ℝ).rayleigh_density h := by
  refine ⟨Or.inl (by norm_num [ATMOSPHERE]), _, GetProfileDensity_eq Real.exp _ h, ?_⟩
  rw [ATMOSPHERE_rayleigh_density hh]
  exact Real.exp_pos _

/-- Three non-negative terms that sum to zero are zero. -/
theorem terms_zero_of_sum_zero {a b c : ℝ} (ha : 0 ≤ a) (hb : 0 ≤ b) (hc : 0 ≤ c)
    (h : a + b + c = 0) : a = 0 ∧ b = 0 ∧ c = 0 :=
  ⟨by linarith, by linarith, by linarith⟩

end ZeroPath

/-! ## Monotonicity along the view cosine -/

section Monotone

theorem RayIntersectsGround_false {atmosphere : AtmosphereParameters ℝ} {r mu : ℝ}
    (hg : RayIntersectsGround atmosphere r mu = some false) :
    0 ≤ mu ∨ r * r * (mu * mu - 1)
      + atmosphere.bottom_radius * atmosphere.bottom_radius < 0 := by
  unfold RayIntersectsGround at hg
  by_cases h1 : r ≥ atmosphere.bottom_radius
  · by_cases h2 : mu ≥ -1 ∧ mu ≤ 1
    · rw [cassert_pos h1, cassert_pos h2] at hg
      simp only [Option.some_bind, Option.bind_eq_bind, Option.pure_def, Option.some.injEq,
        Bool.and_eq_false_imp, decide_eq_true_eq, decide_eq_false_iff_not, not_le] at hg
      by_cases hm : mu < 0
      · exact Or.inr (hg hm)
      · exact Or.inl (not_lt.mp hm)
    · rw [cassert_pos h1, cassert_neg h2] at hg
      simp at hg
  · rw [cassert_neg h1] at hg
    simp at hg

/-- A ray that misses the ground stays at radius at least `bottom_radius`. -/
theorem bottom_sq_le_ray_radius_sq {atmosphere : AtmosphereParameters ℝ} {r mu : ℝ}
    (hb : 0 ≤ atmosphere.bottom_radius) (hr1 : atmosphere.bottom_radius ≤ r)
    (hg : RayIntersectsGround atmosphere r mu = some false) {s : ℝ} (hs : 0 ≤ s) :
    atmosphere.bottom_radius ^ 2 ≤ s * s + 2 * r * mu * s + r * r := by
  rcases RayIntersectsGround_false hg with h | h
  · have h3 : 0 ≤ r * mu * s := mul_nonneg (mul_nonneg (le_trans hb hr1) h) hs
    nlinarith
  · nlinarith [sq_nonneg (s + r * mu)]

/-- The sample at a fixed fraction of the path is not farther from the centre on the ray
with the smaller cosine. -/
theorem sampleRadius_mono (atmosphere : AtmosphereParameters ℝ) {r mu₁ mu₂ : ℝ}
    (hr0 : 0 ≤ r) (hr : r ≤ atmosphere.top_radius) (h : mu₁ ≤ mu₂) {i : ℕ} (hi : i ≤ 500) :
    sampleRadius Real.sqrt r mu₁
        ((i : ℝ) * (distanceToTopValue Real.sqrt atmosphere r mu₁ / 500))
      ≤ sampleRadius Real.sqrt r mu₂
        ((i : ℝ) * (distanceToTopValue Real.sqrt atmosphere r mu₂ / 500)) := by
  have E₁ := distanceToTopValue_sq atmosphere mu₁ hr0 hr
  have E₂ := distanceToTopValue_sq atmosphere mu₂ hr0 hr
  have hd := distanceToTopValue_antitone atmosphere hr0 hr h
  have hd2 := distanceToTopValue_nonneg Real.sqrt atmosphere r mu₂
  have hi' : (i : ℝ) ≤ 500 := by exact_mod_cast hi
  have ht0 : (0 : ℝ) ≤ (i : ℝ) / 500 := by positivity
  have ht1 : (i : ℝ) / 500 ≤ 1 := by
    rw [div_le_one (by norm_num)]
    exact hi'
  have hsq : distanceToTopValue Real.sqrt atmosphere r mu₂ ^ 2
      ≤ distanceToTopValue Real.sqrt atmosphere r mu₁ ^ 2 := pow_le_pow_left₀ hd2 hd 2
  unfold sampleRadius
  apply Real.sqrt_le_sqrt
  have key : ((i : ℝ) * (distanceToTopValue Real.sqrt atmosphere r mu₂ / 500)
        * ((i : ℝ) * (distanceToTopValue Real.sqrt atmosphere r mu₂ / 500))
        + 2 * r * mu₂ * ((i : ℝ) * (distanceToTopValue Real.sqrt atmosphere r mu₂ / 500))
        + r * r)
      - ((i : ℝ) * (distanceToTopValue Real.sqrt atmosphere r mu₁ / 500)
        * ((i : ℝ) * (distanceToTopValue Real.sqrt atmosphere r mu₁ / 500))
        + 2 * r * mu₁ * ((i : ℝ) * (distanceToTopValue Real.sqrt atmosphere r mu₁ / 500))
        + r * r)
      = (i : ℝ) / 500 * (1 - (i : ℝ) / 500)
        * (distanceToTopValue Real.sqrt atmosphere r mu₁ ^ 2
          - distanceToTopValue Real.sqrt atmosphere r mu₂ ^ 2) := by
    linear_combination ((i : ℝ) / 500) * E₂ - ((i : ℝ) / 500) * E₁
  have hnn : 0 ≤ (i : ℝ) / 500 * (1 - (i : ℝ) / 500)
        * (distanceToTopValue Real.sqrt atmosphere r mu₁ ^ 2
          - distanceToTopValue Real.sqrt atmosphere r mu₂ ^ 2) :=
    mul_nonneg (mul_nonneg ht0 (sub_nonneg.mpr ht1)) (sub_nonneg.mpr hsq)
  linarith

/-- The optical length does not decrease when the cosine decreases, for a profile whose
density does not increase with the altitude and a ray that misses the ground. -/
theorem opticalLengthValue_antitone (atmosphere : AtmosphereParameters ℝ)
    (profile : DensityProfile ℝ) {r mu₁ mu₂ : ℝ} (hb : 0 ≤ atmosphere.bottom_radius)
    (hr1 : atmosphere.bottom_radius ≤ r) (hr2 : r ≤ atmosphere.top_radius) (h : mu₁ ≤ mu₂)
    (hg : RayIntersectsGround atmosphere r mu₁ = some false)
    (hp : NonincreasingAboveGround Real.exp profile) :
    opticalLengthValue Real.sqrt Real.exp atmosphere profile r mu₂
      ≤ opticalLengthValue Real.sqrt Real.exp atmosphere profile r mu₁ := by
  have hr0 : 0 ≤ r := le_trans hb hr1
  have hd := distanceToTopValue_antitone atmosphere hr0 hr2 h
  have hd1 := distanceToTopValue_nonneg Real.sqrt atmosphere r mu₁
  have hd2 := distanceToTopValue_nonneg Real.sqrt atmosphere r mu₂
  unfold opticalLengthValue trapezoidSum
  apply Finset.sum_le_sum
  intro i hi
  have hi' : i ≤ 500 := Nat.lt_succ_iff.mp (Finset.mem_range.mp hi)
  have hw : (0 : ℝ) < trapezoidWeight i := trapezoidWeight_pos i
  have hs := sampleRadius_mono atmosphere hr0 hr2 h hi'
  have hlow : atmosphere.bottom_radius ≤ sampleRadius Real.sqrt r mu₁
      ((i : ℝ) * (distanceToTopValue Real.sqrt atmosphere r mu₁ / 500)) := by
    unfold sampleRadius
    apply Real.le_sqrt_of_sq_le
    exact bottom_sq_le_ray_radius_sq hb hr1 hg (by positivity)
  have hy := hp _ _ _ _ (sub_nonneg.mpr hlow) (sub_le_sub_right hs atmosphere.bottom_radius)
    (GetProfileDensity_eq Real.exp profile _) (GetProfileDensity_eq Real.exp profile _)
  have hy2 := (profileDensityValue_bounds Real.exp profile
    (sampleRadius Real.sqrt r mu₂
      ((i : ℝ) * (distanceToTopValue Real.sqrt atmosphere r mu₂ / 500))
        - atmosphere.bottom_radius)).1
  have hdx : distanceToTopValue Real.sqrt atmosphere r mu₂ / 500
      ≤ distanceToTopValue Real.sqrt atmosphere r mu₁ / 500 :=
    div_le_div_of_nonneg_right hd (by norm_num)
  exact mul_le_mul (mul_le_mul_of_nonneg_left hy hw.le) hdx (by positivity)
    (mul_nonneg hw.le (le_trans hy2 hy))

theorem RayIntersectsGround_eq {α : Type} [LinearOrderedField α]
    (atmosphere : AtmosphereParameters α) {r mu : α} (hr1 : atmosphere.bottom_radius ≤ r)
    (h1 : -1 ≤ mu) (h2 : mu ≤ 1) :
    RayIntersectsGround atmosphere r mu
      = some (decide (mu < 0) && decide (r * r * (mu * mu - 1)
          + atmosphere.bottom_radius * atmosphere.bottom_radius ≥ 0)) := by
  have hr : r ≥ atmosphere.bottom_radius := hr1
  have hm : mu ≥ -1 ∧ mu ≤ 1 := ⟨h1, h2⟩
  unfold RayIntersectsGround
  rw [cassert_pos hr, cassert_pos hm]
  rfl

theorem RayIntersectsGround_of_nonneg {α : Type} [LinearOrderedField α]
    (atmosphere : AtmosphereParameters α) {r mu : α} (hr1 : atmosphere.bottom_radius ≤ r)
    (h0 : 0 ≤ mu) (h2 : mu ≤ 1) :
    RayIntersectsGround atmosphere r mu = some false := by
  rw [RayIntersectsGround_eq atmosphere hr1 (le_trans (by norm_num) h0) h2,
    decide_eq_false (not_lt.mpr h0)]
  rfl

theorem clampValue_mono {α : Type} [LinearOrderedField α] {x y lo hi : α} (h : x ≤ y)
    (hlh : lo ≤ hi) : clampValue x lo hi ≤ clampValue y lo hi := by
  unfold clampValue
  split_ifs <;> linarith

/-- A profile whose lower layer lies below the ground and whose upper layer has
`exp_term ≥ 0`, `exp_scale ≤ 0` and `linear_term ≤ 0` does not increase with the altitude:
the exponential profiles of the driver are of this shape. -/
theorem nonincreasingAboveGround_of_decaying (profile : DensityProfile ℝ)
    (hw : (profile.layers 0).width ≤ 0) (ha : 0 ≤ (profile.layers 1).exp_term)
    (hs : (profile.layers 1).exp_scale ≤ 0) (hl : (profile.layers 1).linear_term ≤ 0) :
    NonincreasingAboveGround Real.exp profile := by
  intro h₁ h₂ y₁ y₂ h0 h12 e₁ e₂
  rw [GetProfileDensity_eq, Option.some.injEq] at e₁ e₂
  subst e₁ e₂
  unfold profileDensityValue
  rw [if_neg (not_lt.mpr (le_trans hw h0)), if_neg (not_lt.mpr (le_trans hw (le_trans h0 h12)))]
  unfold layerDensityValue
  apply clampValue_mono _ zero_le_one
  have he : Real.exp ((profile.layers 1).exp_scale * h₂)
      ≤ Real.exp ((profile.layers 1).exp_scale * h₁) :=
    Real.exp_le_exp.mpr (mul_le_mul_of_nonpos_left h12 hs)
  have := mul_le_mul_of_nonneg_left he ha
  have := mul_le_mul_of_nonpos_left h12 hl
  linarith

end Monotone

/-! ## Evaluation of the trapezoid sum -/

section Evaluation

theorem trapezoidWeight_sum : ∑ i in Finset.range 501, (trapezoidWeight i : ℝ) = 500 := by
  have mid : ∑ i in Finset.range 499, (trapezoidWeight (i + 1) : ℝ) = 499 := by
    have : ∀ i ∈ Finset.range 499, (trapezoidWeight (i + 1) : ℝ) = 1 := by
      intro i hi
      have hi' := Finset.mem_range.mp hi
      unfold trapezoidWeight
      rw [if_neg]
      omega
    rw [Finset.sum_congr rfl this]
    simp
  rw [Finset.sum_range_succ _ 500, Finset.sum_range_succ' _ 499, mid]
  norm_num [trapezoidWeight]

theorem trapezoidWeight_le_one (i : ℕ) : (trapezoidWeight i : ℝ) ≤ 1 := by
  unfold trapezoidWeight
  split_ifs <;> norm_num

/-- A sum of 501 terms, each at most `c`, of which those of index `1, ..., 319` are zero. -/
theorem sum_le_of_zero_block (f : ℕ → ℝ) (c : ℝ)
    (hzero : ∀ i, 1 ≤ i → i ≤ 319 → f i = 0) (hle : ∀ i, f i ≤ c) :
    ∑ i in Finset.range 501, f i ≤ 182 * c := by
  have h1 : ∑ i in Finset.range 319, f (i + 1) = 0 :=
    Finset.sum_eq_zero fun i hi =>
      hzero (i + 1) (by omega) (by have := Finset.mem_range.mp hi; omega)
  have h2 : ∑ j in Finset.range 181, f (320 + j) ≤ 181 * c := by
    calc ∑ j in Finset.range 181, f (320 + j)
        ≤ ∑ _j in Finset.range 181, c := Finset.sum_le_sum fun j _ => hle _
      _ = 181 * c := by simp
  have h3 := hle 0
  rw [show Finset.range 501 = Finset.range (320 + 181) from rfl, Finset.sum_range_add,
    Finset.sum_range_succ' _ 319, h1]
  linarith

theorem stepAtmosphere_density (h : ℝ) :
    profileDensityValue Real.exp (stepAtmosphere : AtmosphereParameters ℝ).rayleigh_density h
      = if h < 1 then 0 else 1 := by
  have h10 : ¬ ((1 : ℝ) < 0) := by norm_num
  simp [profileDensityValue, layerDensityValue, clampValue, stepAtmosphere, h10]

theorem stepAtmosphere_distance_horizontal :
    distanceToTopValue Real.sqrt (stepAtmosphere : AtmosphereParameters ℝ) 4 0 = 3 :=
  distanceToTopValue_of_root stepAtmosphere (by norm_num) (by norm_num [stepAtmosphere])
    (by norm_num [stepAtmosphere]) (by norm_num)

theorem stepAtmosphere_distance_downward :
    distanceToTopValue Real.sqrt (stepAtmosphere : AtmosphereParameters ℝ) 4 (-2 / 5) = 5 :=
  distanceToTopValue_of_root stepAtmosphere (by norm_num) (by norm_num [stepAtmosphere])
    (by norm_num [stepAtmosphere]) (by norm_num)

/-- The horizontal ray from radius 4 only meets density 1: its optical length is its
length. -/
theorem stepAtmosphere_length_horizontal :
    opticalLengthValue Real.sqrt Real.exp (stepAtmosphere : AtmosphereParameters ℝ)
      (stepAtmosphere : AtmosphereParameters ℝ).rayleigh_density 4 0 = 3 := by
  unfold opticalLengthValue trapezoidSum
  rw [stepAtmosphere_distance_horizontal]
  have hy : ∀ i ∈ Finset.range 501,
      (trapezoidWeight i : ℝ) * profileDensityValue Real.exp
          (stepAtmosphere : AtmosphereParameters ℝ).rayleigh_density
          (sampleRadius Real.sqrt 4 0 ((i : ℝ) * (3 / 500))
            - (stepAtmosphere : AtmosphereParameters ℝ).bottom_radius) * (3 / 500)
        = trapezoidWeight i * (3 / 500) := by
    intro i _
    have h4 : (4 : ℝ) ≤ sampleRadius Real.sqrt 4 0 ((i : ℝ) * (3 / 500)) := by
      unfold sampleRadius
      apply Real.le_sqrt_of_sq_le
      nlinarith [mul_self_nonneg ((i : ℝ) * (3 / 500))]
    have hb : (stepAtmosphere : AtmosphereParameters ℝ).bottom_radius = 3 := rfl
    rw [stepAtmosphere_density, if_neg (by rw [hb]; linarith)]
    ring
  rw [Finset.sum_congr rfl hy, ← Finset.sum_mul, trapezoidWeight_sum]
  norm_num

/-- The ray from radius 4 with cosine `-2 / 5` dips below altitude 1, where the density is
0, on the samples `1, ..., 319`. -/
theorem stepAtmosphere_length_downward :
    opticalLengthValue Real.sqrt Real.exp (stepAtmosphere : AtmosphereParameters ℝ)
      (stepAtmosphere : AtmosphereParameters ℝ).rayleigh_density 4 (-2 / 5) ≤ 182 / 100 := by
  unfold opticalLengthValue trapezoidSum
  rw [stepAtmosphere_distance_downward]
  have hb : (stepAtmosphere : AtmosphereParameters ℝ).bottom_radius = 3 := rfl
  have key := sum_le_of_zero_block
    (fun i => (trapezoidWeight i : ℝ) * profileDensityValue Real.exp
          (stepAtmosphere : AtmosphereParameters ℝ).rayleigh_density
          (sampleRadius Real.sqrt 4 (-2 / 5) ((i : ℝ) * (5 / 500))
            - (stepAtmosphere : AtmosphereParameters ℝ).bottom_radius) * (5 / 500))
    (1 / 100) ?_ ?_
  · linarith
  · intro i h1 h319
    have h1' : (1 : ℝ) ≤ (i : ℝ) := by exact_mod_cast h1
    have h319' : (i : ℝ) ≤ 319 := by exact_mod_cast h319
    have hlt : sampleRadius Real.sqrt 4 (-2 / 5) ((i : ℝ) * (5 / 500)) < 4 := by
      unfold sampleRadius
      rw [Real.sqrt_lt' (by norm_num)]
      nlinarith
    simp only []
    rw [stepAtmosphere_density, if_pos (by rw [hb]; linarith)]
    ring
  · intro i
    have hw0 : (0 : ℝ) < trapezoidWeight i := trapezoidWeight_pos i
    have hw1 := trapezoidWeight_le_one i
    have hy := profileDensityValue_bounds Real.exp
      (stepAtmosphere : AtmosphereParameters ℝ).rayleigh_density
      (sampleRadius Real.sqrt 4 (-2 / 5) ((i : ℝ) * (5 / 500))
        - (stepAtmosphere : AtmosphereParameters ℝ).bottom_radius)
    simp only []
    nlinarith [mul_le_mul hw1 hy.2 hy.1 (by norm_num : (0 : ℝ) ≤ 1)]

end Evaluation

/-! ## The transmittance evaluator -/

/-- C1 (as amended): for every atmosphere, every `r` in `[bottom_radius, top_radius]`
and every `mu` in `[-1, 1]`, the three optical lengths `L_R`, `L_M`, `L_O` of the Rayleigh,
Mie and absorption profiles are computed and `ComputeTransmittanceToTopAtmosphereBoundary`
returns, channel by channel, `exp (-(rayleigh_scattering * L_R + mie_extinction * L_M +
absorption_extinction * L_O))`. -/
theorem transmittance_formula (atmosphere : AtmosphereParameters ℝ) (r mu : ℝ)
    (hr1 : atmosphere.bottom_radius ≤ r) (hr2 : r ≤ atmosphere.top_radius)
    (h1 : -1 ≤ mu) (h2 : mu ≤ 1) :
    ∃ L_R L_M L_O : ℝ,
      ComputeOpticalLengthToTopAtmosphereBoundary Real.sqrt Real.exp atmosphere
        atmosphere.rayleigh_density r mu = some L_R ∧
      ComputeOpticalLengthToTopAtmosphereBoundary Real.sqrt Real.exp atmosphere
        atmosphere.mie_density r mu = some L_M ∧
      ComputeOpticalLengthToTopAtmosphereBoundary Real.sqrt Real.exp atmosphere
        atmosphere.absorption_density r mu = some L_O ∧
      ComputeTransmittanceToTopAtmosphereBoundary Real.sqrt Real.exp atmosphere r mu
        = some
          ⟨Real.exp (-(atmosphere.rayleigh_scattering.x * L_R
              + atmosphere.mie_extinction.x * L_M + atmosphere.absorption_extinction.x * L_O)),
            Real.exp (-(atmosphere.rayleigh_scattering.y * L_R
              + atmosphere.mie_extinction.y * L_M + atmosphere.absorption_extinction.y * L_O)),
            Real.exp (-(atmosphere.rayleigh_scattering.z * L_R
              + atmosphere.mie_extinction.z * L_M + atmosphere.absorption_extinction.z * L_O))⟩
    := by
  refine ⟨_, _, _,
    ComputeOpticalLengthToTopAtmosphereBoundary_eq Real.sqrt Real.exp atmosphere _ hr1 hr2 h1 h2,
    ComputeOpticalLengthToTopAtmosphereBoundary_eq Real.sqrt Real.exp atmosphere _ hr1 hr2 h1 h2,
    ComputeOpticalLengthToTopAtmosphereBoundary_eq Real.sqrt Real.exp atmosphere _ hr1 hr2 h1 h2,
    ?_⟩
  rw [ComputeTransmittanceToTopAtmosphereBoundary_eq Real.sqrt Real.exp atmosphere hr1 hr2 h1 h2]
  rfl

/-- C1, witness: the driver's atmosphere at the ground, looking straight up. -/
theorem transmittance_formula_witness :
    ∃ L_R L_M L_O : ℝ,
      ComputeOpticalLengthToTopAtmosphereBoundary Real.sqrt Real.exp ATMOSPHERE
        (ATMOSPHERE : AtmosphereParameters ℝ).rayleigh_density 6360 1 = some L_R ∧
      ComputeOpticalLengthToTopAtmosphereBoundary Real.sqrt Real.exp ATMOSPHERE
        (ATMOSPHERE : AtmosphereParameters ℝ).mie_density 6360 1 = some L_M ∧
      ComputeOpticalLengthToTopAtmosphereBoundary Real.sqrt Real.exp ATMOSPHERE
        (ATMOSPHERE : AtmosphereParameters ℝ).absorption_density 6360 1 = some L_O ∧
      ComputeTransmittanceToTopAtmosphereBoundary Real.sqrt Real.exp ATMOSPHERE 6360 1
        = some
          ⟨Real.exp (-(0.005802 * L_R + 0.004440 * L_M + 0.000650 * L_O)),
            Real.exp (-(0.013558 * L_R + 0.004440 * L_M + 0.001881 * L_O)),
            Real.exp (-(0.033100 * L_R + 0.004440 * L_M + 0.000085 * L_O))⟩ :=
  transmittance_formula ATMOSPHERE 6360 1 (by norm_num [ATMOSPHERE]) (by norm_num [ATMOSPHERE])
    (by norm_num) (by norm_num)

/-- C1, counterexample: above the top of the atmosphere (`r = 7000 > 6420 = top_radius`)
the assertion on `r` fails and no transmittance is returned. -/
theorem transmittance_formula_fails_outside :
    ComputeTransmittanceToTopAtmosphereBoundary Real.sqrt Real.exp
      (ATMOSPHERE : AtmosphereParameters ℝ) 7000 1 = none := by
  have h : ¬ ((7000 : ℝ) ≥ (ATMOSPHERE : AtmosphereParameters ℝ).bottom_radius
      ∧ (7000 : ℝ) ≤ (ATMOSPHERE : AtmosphereParameters ℝ).top_radius) := by
    norm_num [ATMOSPHERE]
  unfold ComputeTransmittanceToTopAtmosphereBoundary
  rw [cassert_neg h]
  rfl

/-! ## The optical depth integrator -/

/-- C2 (as amended): for every atmosphere and density profile, every `r` in
`[bottom_radius, top_radius]` and every `mu` in `[-1, 1]`,
`ComputeOpticalLengthToTopAtmosphereBoundary` returns the 501-sample composite trapezoid
sum: with `d = DistanceToTopAtmosphereBoundary atmosphere r mu`, `dx = d / 500` and
`d_i = i * dx`, the sum over `i = 0, ..., 500` of
`w_i * GetProfileDensity profile (sqrt (d_i ^ 2 + 2 * r * mu * d_i + r ^ 2) - bottom_radius)
* dx` with `w_0 = w_500 = 0.5` and `w_i = 1` between. -/
theorem optical_length_is_trapezoid_sum (atmosphere : AtmosphereParameters ℝ)
    (profile : DensityProfile ℝ) (r mu : ℝ)
    (hr1 : atmosphere.bottom_radius ≤ r) (hr2 : r ≤ atmosphere.top_radius)
    (h1 : -1 ≤ mu) (h2 : mu ≤ 1) :
    ∃ d : ℝ, DistanceToTopAtmosphereBoundary Real.sqrt atmosphere r mu = some d ∧
      ∃ y : ℕ → ℝ,
        (∀ i : ℕ, GetProfileDensity Real.exp profile
          (Real.sqrt (((i : ℝ) * (d / 500)) ^ 2 + 2 * r * mu * ((i : ℝ) * (d / 500)) + r ^ 2)
            - atmosphere.bottom_radius) = some (y i)) ∧
        ComputeOpticalLengthToTopAtmosphereBoundary Real.sqrt Real.exp atmosphere profile r mu
          = some (∑ i in Finset.range 501,
              (if i = 0 ∨ i = 500 then (0.5 : ℝ) else 1) * y i * (d / 500)) := by
  refine ⟨_, DistanceToTopAtmosphereBoundary_eq Real.sqrt atmosphere hr2 h1 h2,
    fun i => profileDensityValue Real.exp profile
      (sampleRadius Real.sqrt r mu
          ((i : ℝ) * (distanceToTopValue Real.sqrt atmosphere r mu / 500))
        - atmosphere.bottom_radius), ?_, ?_⟩
  · intro i
    rw [GetProfileDensity_eq]
    unfold sampleRadius
    congr 4
    ring
  · rw [ComputeOpticalLengthToTopAtmosphereBoundary_eq Real.sqrt Real.exp atmosphere profile
      hr1 hr2 h1 h2]
    rfl

/-- C2, witness: the Rayleigh profile of the driver's atmosphere at the ground, looking
straight up. -/
theorem optical_length_is_trapezoid_sum_witness :
    ∃ d : ℝ, DistanceToTopAtmosphereBoundary Real.sqrt ATMOSPHERE 6360 1 = some d ∧
      ∃ y : ℕ → ℝ,
        (∀ i : ℕ, GetProfileDensity Real.exp (ATMOSPHERE : AtmosphereParameters ℝ).rayleigh_density
          (Real.sqrt (((i : ℝ) * (d / 500)) ^ 2 + 2 * 6360 * 1 * ((i : ℝ) * (d / 500))
            + 6360 ^ 2) - (ATMOSPHERE : AtmosphereParameters ℝ).bottom_radius) = some (y i)) ∧
        ComputeOpticalLengthToTopAtmosphereBoundary Real.sqrt Real.exp ATMOSPHERE
          (ATMOSPHERE : AtmosphereParameters ℝ).rayleigh_density 6360 1
          = some (∑ i in Finset.range 501,
              (if i = 0 ∨ i = 500 then (0.5 : ℝ) else 1) * y i * (d / 500)) :=
  optical_length_is_trapezoid_sum ATMOSPHERE _ 6360 1 (by norm_num [ATMOSPHERE])
    (by norm_num [ATMOSPHERE]) (by norm_num) (by norm_num)

/-- C2, counterexample: below the ground (`r = 6000 < 6360 = bottom_radius`) the assertion
on `r` fails and no optical length is returned. -/
theorem optical_length_fails_outside :
    ComputeOpticalLengthToTopAtmosphereBoundary Real.sqrt Real.exp
      (ATMOSPHERE : AtmosphereParameters ℝ)
      (ATMOSPHERE : AtmosphereParameters ℝ).rayleigh_density 6000 1 = none := by
  have h : ¬ ((6000 : ℝ) ≥ (ATMOSPHERE : AtmosphereParameters ℝ).bottom_radius
      ∧ (6000 : ℝ) ≤ (ATMOSPHERE : AtmosphereParameters ℝ).top_radius) := by
    norm_num [ATMOSPHERE]
  unfold ComputeOpticalLengthToTopAtmosphereBoundary
  rw [cassert_neg h]
  rfl

/-- C3: for every atmosphere with `0 < bottom_radius < top_radius` and `rayleigh_scattering`,
`mie_extinction`, `absorption_extinction` componentwise `≥ 0`, every `r` in
`[bottom_radius, top_radius]` and `mu` in `[-1, 1]`, each of the three channels returned by
`ComputeTransmittanceToTopAtmosphereBoundary` is `> 0` and `≤ 1`. -/
theorem transmittance_in_unit_interval (atmosphere : AtmosphereParameters ℝ) (r mu : ℝ)
    (_hb : 0 < atmosphere.bottom_radius)
    (_hbt : atmosphere.bottom_radius < atmosphere.top_radius)
    (hR : atmosphere.rayleigh_scattering.Nonneg) (hM : atmosphere.mie_extinction.Nonneg)
    (hA : atmosphere.absorption_extinction.Nonneg)
    (hr1 : atmosphere.bottom_radius ≤ r) (hr2 : r ≤ atmosphere.top_radius)
    (h1 : -1 ≤ mu) (h2 : mu ≤ 1) :
    ∃ t : Vec3 ℝ,
      ComputeTransmittanceToTopAtmosphereBoundary Real.sqrt Real.exp atmosphere r mu = some t ∧
      (0 < t.x ∧ t.x ≤ 1) ∧ (0 < t.y ∧ t.y ≤ 1) ∧ (0 < t.z ∧ t.z ≤ 1) := by
  have hLR := opticalLengthValue_nonneg Real.sqrt Real.exp atmosphere
    atmosphere.rayleigh_density r mu
  have hLM := opticalLengthValue_nonneg Real.sqrt Real.exp atmosphere
    atmosphere.mie_density r mu
  have hLO := opticalLengthValue_nonneg Real.sqrt Real.exp atmosphere
    atmosphere.absorption_density r mu
  obtain ⟨hRx, hRy, hRz⟩ := hR
  obtain ⟨hMx, hMy, hMz⟩ := hM
  obtain ⟨hAx, hAy, hAz⟩ := hA
  refine ⟨_, ComputeTransmittanceToTopAtmosphereBoundary_eq Real.sqrt Real.exp atmosphere
    hr1 hr2 h1 h2, ⟨Real.exp_pos _, ?_⟩, ⟨Real.exp_pos _, ?_⟩, ⟨Real.exp_pos _, ?_⟩⟩
  all_goals
    simp only [Vec3.exp, Vec3.neg, Vec3.add, Vec3.mul]
    rw [Real.exp_le_one_iff]
    have := mul_nonneg hRx hLR
    have := mul_nonneg hRy hLR
    have := mul_nonneg hRz hLR
    have := mul_nonneg hMx hLM
    have := mul_nonneg hMy hLM
    have := mul_nonneg hMz hLM
    have := mul_nonneg hAx hLO
    have := mul_nonneg hAy hLO
    have := mul_nonneg hAz hLO
    linarith

/-- C3, witness: the driver's atmosphere at the ground, looking straight up. -/
theorem transmittance_in_unit_interval_witness :
    ∃ t : Vec3 ℝ,
      ComputeTransmittanceToTopAtmosphereBoundary Real.sqrt Real.exp ATMOSPHERE 6360 1 = some t ∧
      (0 < t.x ∧ t.x ≤ 1) ∧ (0 < t.y ∧ t.y ≤ 1) ∧ (0 < t.z ∧ t.z ≤ 1) :=
  transmittance_in_unit_interval ATMOSPHERE 6360 1 (by norm_num [ATMOSPHERE])
    (by norm_num [ATMOSPHERE]) (by norm_num [ATMOSPHERE, Vec3.Nonneg])
    (by norm_num [ATMOSPHERE, Vec3.Nonneg]) (by norm_num [ATMOSPHERE, Vec3.Nonneg])
    (by norm_num [ATMOSPHERE]) (by norm_num [ATMOSPHERE]) (by norm_num) (by norm_num)

/-! ## Transmittance equal to one -/

/-- A path of length zero has transmittance `(1, 1, 1)`: at `r = top_radius` every `mu ≥ 0`
gives the distance zero, whatever the species are. -/
theorem transmittance_one_of_zero_path (atmosphere : AtmosphereParameters ℝ) (mu : ℝ)
    (hbt : atmosphere.bottom_radius ≤ atmosphere.top_radius)
    (ht : 0 ≤ atmosphere.top_radius) (h0 : 0 ≤ mu) (h2 : mu ≤ 1) :
    ComputeTransmittanceToTopAtmosphereBoundary Real.sqrt Real.exp atmosphere
      atmosphere.top_radius mu = some ⟨1, 1, 1⟩ := by
  have hd : distanceToTopValue Real.sqrt atmosphere atmosphere.top_radius mu = 0 :=
    distanceToTopValue_top atmosphere ht h0
  rw [ComputeTransmittanceToTopAtmosphereBoundary_eq Real.sqrt Real.exp atmosphere
    hbt le_rfl (by linarith) h2]
  simp [Vec3.exp, Vec3.neg, Vec3.add, Vec3.mul,
    opticalLengthValue_of_distance_zero Real.exp atmosphere _ hd]

/-- C4 (as amended): for every atmosphere with `0 < bottom_radius < top_radius` and all
coefficients `≥ 0`, every `r` in `[bottom_radius, top_radius]` and `mu` in `[-1, 1]` such that
at least one species attenuates at the origin of the ray (a positive coefficient in some
channel and a positive density at the altitude `r - bottom_radius`):
`ComputeTransmittanceToTopAtmosphereBoundary` returns a vector, and it is `(1, 1, 1)` exactly
when `r = top_radius` and `mu ≥ 0` (a path of length zero, not only `mu = 1`). -/
theorem transmittance_eq_one (atmosphere : AtmosphereParameters ℝ) (r mu : ℝ)
    (hb : 0 < atmosphere.bottom_radius)
    (_hbt : atmosphere.bottom_radius < atmosphere.top_radius)
    (hR : atmosphere.rayleigh_scattering.Nonneg) (hM : atmosphere.mie_extinction.Nonneg)
    (hA : atmosphere.absorption_extinction.Nonneg)
    (hr1 : atmosphere.bottom_radius ≤ r) (hr2 : r ≤ atmosphere.top_radius)
    (h1 : -1 ≤ mu) (h2 : mu ≤ 1)
    (hatt : AttenuatesAt Real.exp atmosphere.rayleigh_scattering atmosphere.rayleigh_density
          (r - atmosphere.bottom_radius)
        ∨ AttenuatesAt Real.exp atmosphere.mie_extinction atmosphere.mie_density
          (r - atmosphere.bottom_radius)
        ∨ AttenuatesAt Real.exp atmosphere.absorption_extinction
          atmosphere.absorption_density (r - atmosphere.bottom_radius)) :
    ∃ t : Vec3 ℝ,
      ComputeTransmittanceToTopAtmosphereBoundary Real.sqrt Real.exp atmosphere r mu = some t ∧
      (t = ⟨1, 1, 1⟩ ↔ r = atmosphere.top_radius ∧ 0 ≤ mu) := by
  have hr0 : 0 < r := lt_of_lt_of_le hb hr1
  have hT := ComputeTransmittanceToTopAtmosphereBoundary_eq Real.sqrt Real.exp atmosphere
    hr1 hr2 h1 h2
  refine ⟨_, hT, ?_, ?_⟩
  · intro hone
    simp only [Vec3.exp, Vec3.neg, Vec3.add, Vec3.mul, Vec3.mk.injEq,
      Real.exp_eq_one_iff, neg_eq_zero] at hone
    obtain ⟨hx, hy, hz⟩ := hone
    have hLR := opticalLengthValue_nonneg Real.sqrt Real.exp atmosphere
      atmosphere.rayleigh_density r mu
    have hLM := opticalLengthValue_nonneg Real.sqrt Real.exp atmosphere
      atmosphere.mie_density r mu
    have hLO := opticalLengthValue_nonneg Real.sqrt Real.exp atmosphere
      atmosphere.absorption_density r mu
    obtain ⟨x1, x2, x3⟩ := terms_zero_of_sum_zero (mul_nonneg hR.1 hLR) (mul_nonneg hM.1 hLM)
      (mul_nonneg hA.1 hLO) hx
    obtain ⟨y1, y2, y3⟩ := terms_zero_of_sum_zero (mul_nonneg hR.2.1 hLR)
      (mul_nonneg hM.2.1 hLM) (mul_nonneg hA.2.1 hLO) hy
    obtain ⟨z1, z2, z3⟩ := terms_zero_of_sum_zero (mul_nonneg hR.2.2 hLR)
      (mul_nonneg hM.2.2 hLM) (mul_nonneg hA.2.2 hLO) hz
    apply eq_top_of_distanceToTopValue_eq_zero atmosphere hr0 hr2
    rcases hatt with h | h | h
    · exact distance_zero_of_opticalLengthValue_zero Real.exp atmosphere _ hr0.le
        h.density_pos (h.length_zero x1 y1 z1)
    · exact distance_zero_of_opticalLengthValue_zero Real.exp atmosphere _ hr0.le
        h.density_pos (h.length_zero x2 y2 z2)
    · exact distance_zero_of_opticalLengthValue_zero Real.exp atmosphere _ hr0.le
        h.density_pos (h.length_zero x3 y3 z3)
  · rintro ⟨hrt, hmu⟩
    have hone := transmittance_one_of_zero_path atmosphere mu (hrt ▸ hr1)
      (le_trans hr0.le hr2) hmu h2
    rw [← hrt, hT] at hone
    exact Option.some.inj hone

/-- C4, counterexample: at the top of the driver's atmosphere the horizontal ray (`mu = 0`)
has transmittance `(1, 1, 1)`, although `mu ≠ 1`. -/
theorem transmittance_eq_one_at_horizontal_ray :
    (ATMOSPHERE : AtmosphereParameters ℝ).bottom_radius
        < (ATMOSPHERE : AtmosphereParameters ℝ).top_radius ∧
      (ATMOSPHERE : AtmosphereParameters ℝ).rayleigh_scattering.Nonneg ∧
      (ATMOSPHERE : AtmosphereParameters ℝ).mie_extinction.Nonneg ∧
      (ATMOSPHERE : AtmosphereParameters ℝ).absorption_extinction.Nonneg ∧
      ComputeTransmittanceToTopAtmosphereBoundary Real.sqrt Real.exp
        (ATMOSPHERE : AtmosphereParameters ℝ) 6420 0 = some ⟨1, 1, 1⟩ ∧
      ¬ ((6420 : ℝ) = (ATMOSPHERE : AtmosphereParameters ℝ).top_radius ∧ (0 : ℝ) = 1) := by
  have e : (6420 : ℝ) = (ATMOSPHERE : AtmosphereParameters ℝ).top_radius := by
    norm_num [ATMOSPHERE]
  have hd : distanceToTopValue Real.sqrt (ATMOSPHERE : AtmosphereParameters ℝ) 6420 0 = 0 := by
    rw [e]
    exact distanceToTopValue_top ATMOSPHERE (by norm_num [ATMOSPHERE]) le_rfl
  refine ⟨by norm_num [ATMOSPHERE], by norm_num [ATMOSPHERE, Vec3.Nonneg],
    by norm_num [ATMOSPHERE, Vec3.Nonneg], by norm_num [ATMOSPHERE, Vec3.Nonneg], ?_,
    by norm_num⟩
  rw [ComputeTransmittanceToTopAtmosphereBoundary_eq Real.sqrt Real.exp ATMOSPHERE
    (by norm_num [ATMOSPHERE]) (by norm_num [ATMOSPHERE]) (by norm_num) (by norm_num)]
  simp [Vec3.exp, Vec3.neg, Vec3.add, Vec3.mul,
    opticalLengthValue_of_distance_zero Real.exp ATMOSPHERE _ hd]

/-- C4, witness: the driver's atmosphere, whose Rayleigh species attenuates from the ground
up.  At the ground, looking straight up, the transmittance is not `(1, 1, 1)`; at the top
boundary, looking along the horizon, it is. -/
theorem transmittance_eq_one_witness :
    (∃ t : Vec3 ℝ,
      ComputeTransmittanceToTopAtmosphereBoundary Real.sqrt Real.exp
        (ATMOSPHERE : AtmosphereParameters ℝ) 6360 1 = some t ∧
      (t = ⟨1, 1, 1⟩ ↔
        (6360 : ℝ) = (ATMOSPHERE : AtmosphereParameters ℝ).top_radius ∧ (0 : ℝ) ≤ 1)) ∧
    (∃ t : Vec3 ℝ,
      ComputeTransmittanceToTopAtmosphereBoundary Real.sqrt Real.exp
        (ATMOSPHERE : AtmosphereParameters ℝ) 6420 0 = some t ∧
      (t = ⟨1, 1, 1⟩ ↔
        (6420 : ℝ) = (ATMOSPHERE : AtmosphereParameters ℝ).top_radius ∧ (0 : ℝ) ≤ 0)) :=
  ⟨transmittance_eq_one ATMOSPHERE 6360 1 (by norm_num [ATMOSPHERE])
      (by norm_num [ATMOSPHERE]) (by norm_num [ATMOSPHERE, Vec3.Nonneg])
      (by norm_num [ATMOSPHERE, Vec3.Nonneg]) (by norm_num [ATMOSPHERE, Vec3.Nonneg])
      (by norm_num [ATMOSPHERE]) (by norm_num [ATMOSPHERE]) (by norm_num) (by norm_num)
      (Or.inl (ATMOSPHERE_rayleigh_attenuates (by norm_num [ATMOSPHERE]))),
    transmittance_eq_one ATMOSPHERE 6420 0 (by norm_num [ATMOSPHERE])
      (by norm_num [ATMOSPHERE]) (by norm_num [ATMOSPHERE, Vec3.Nonneg])
      (by norm_num [ATMOSPHERE, Vec3.Nonneg]) (by norm_num [ATMOSPHERE, Vec3.Nonneg])
      (by norm_num [ATMOSPHERE]) (by norm_num [ATMOSPHERE]) (by norm_num) (by norm_num)
      (Or.inl (ATMOSPHERE_rayleigh_attenuates (by norm_num [ATMOSPHERE])))⟩

/-! ## Monotonicity of the transmittance in the view cosine -/

/-- C5 (as amended): for every atmosphere with `0 < bottom_radius < top_radius` and all
coefficients `≥ 0` whose three density profiles do not increase with the altitude from the
ground up, every `r` in `[bottom_radius, top_radius]` and every `mu₁ ≤ mu₂` in `[-1, 1]` such
that `RayIntersectsGround` is false for both `(r, mu₁)` and `(r, mu₂)`, each channel of
`ComputeTransmittanceToTopAtmosphereBoundary atmosphere r mu₁` is `≤` the same channel at
`(r, mu₂)`. -/
theorem transmittance_monotone_in_mu (atmosphere : AtmosphereParameters ℝ) (r mu₁ mu₂ : ℝ)
    (hb : 0 < atmosphere.bottom_radius)
    (_hbt : atmosphere.bottom_radius < atmosphere.top_radius)
    (hR : atmosphere.rayleigh_scattering.Nonneg) (hM : atmosphere.mie_extinction.Nonneg)
    (hA : atmosphere.absorption_extinction.Nonneg)
    (hpR : NonincreasingAboveGround Real.exp atmosphere.rayleigh_density)
    (hpM : NonincreasingAboveGround Real.exp atmosphere.mie_density)
    (hpA : NonincreasingAboveGround Real.exp atmosphere.absorption_density)
    (hr1 : atmosphere.bottom_radius ≤ r) (hr2 : r ≤ atmosphere.top_radius)
    (h1 : -1 ≤ mu₁) (h12 : mu₁ ≤ mu₂) (h2 : mu₂ ≤ 1)
    (hg1 : RayIntersectsGround atmosphere r mu₁ = some false)
    (_hg2 : RayIntersectsGround atmosphere r mu₂ = some false) :
    ∃ t₁ t₂ : Vec3 ℝ,
      ComputeTransmittanceToTopAtmosphereBoundary Real.sqrt Real.exp atmosphere r mu₁
        = some t₁ ∧
      ComputeTransmittanceToTopAtmosphereBoundary Real.sqrt Real.exp atmosphere r mu₂
        = some t₂ ∧
      t₁.x ≤ t₂.x ∧ t₁.y ≤ t₂.y ∧ t₁.z ≤ t₂.z := by
  have hLR := opticalLengthValue_antitone atmosphere atmosphere.rayleigh_density hb.le hr1 hr2
    h12 hg1 hpR
  have hLM := opticalLengthValue_antitone atmosphere atmosphere.mie_density hb.le hr1 hr2
    h12 hg1 hpM
  have hLO := opticalLengthValue_antitone atmosphere atmosphere.absorption_density hb.le hr1
    hr2 h12 hg1 hpA
  obtain ⟨hRx, hRy, hRz⟩ := hR
  obtain ⟨hMx, hMy, hMz⟩ := hM
  obtain ⟨hAx, hAy, hAz⟩ := hA
  refine ⟨_, _,
    ComputeTransmittanceToTopAtmosphereBoundary_eq Real.sqrt Real.exp atmosphere hr1 hr2 h1
      (le_trans h12 h2),
    ComputeTransmittanceToTopAtmosphereBoundary_eq Real.sqrt Real.exp atmosphere hr1 hr2
      (le_trans h1 h12) h2, ?_, ?_, ?_⟩
  all_goals
    simp only [Vec3.exp, Vec3.neg, Vec3.add, Vec3.mul]
    apply Real.exp_le_exp.mpr
    have := mul_le_mul_of_nonneg_left hLR hRx
    have := mul_le_mul_of_nonneg_left hLR hRy
    have := mul_le_mul_of_nonneg_left hLR hRz
    have := mul_le_mul_of_nonneg_left hLM hMx
    have := mul_le_mul_of_nonneg_left hLM hMy
    have := mul_le_mul_of_nonneg_left hLM hMz
    have := mul_le_mul_of_nonneg_left hLO hAx
    have := mul_le_mul_of_nonneg_left hLO hAy
    have := mul_le_mul_of_nonneg_left hLO hAz
    linarith

/-- C5, witness: the driver's atmosphere with the Mie profile in place of the ozone profile,
at radius 6400, for the horizontal ray and the ray straight up. -/
theorem transmittance_monotone_in_mu_witness :
    ∃ t₁ t₂ : Vec3 ℝ,
      ComputeTransmittanceToTopAtmosphereBoundary Real.sqrt Real.exp
        ({ (ATMOSPHERE : AtmosphereParameters ℝ) with
          absorption_density := (ATMOSPHERE : AtmosphereParameters ℝ).mie_density }) 6400 0
        = some t₁ ∧
      ComputeTransmittanceToTopAtmosphereBoundary Real.sqrt Real.exp
        ({ (ATMOSPHERE : AtmosphereParameters ℝ) with
          absorption_density := (ATMOSPHERE : AtmosphereParameters ℝ).mie_density }) 6400 1
        = some t₂ ∧
      t₁.x ≤ t₂.x ∧ t₁.y ≤ t₂.y ∧ t₁.z ≤ t₂.z :=
  transmittance_monotone_in_mu
    ({ (ATMOSPHERE : AtmosphereParameters ℝ) with
      absorption_density := (ATMOSPHERE : AtmosphereParameters ℝ).mie_density }) 6400 0 1
    (by norm_num [ATMOSPHERE]) (by norm_num [ATMOSPHERE])
    (by norm_num [ATMOSPHERE, Vec3.Nonneg]) (by norm_num [ATMOSPHERE, Vec3.Nonneg])
    (by norm_num [ATMOSPHERE, Vec3.Nonneg])
    (nonincreasingAboveGround_of_decaying _ (by norm_num [ATMOSPHERE])
      (by norm_num [ATMOSPHERE]) (by norm_num [ATMOSPHERE]) (by norm_num [ATMOSPHERE]))
    (nonincreasingAboveGround_of_decaying _ (by norm_num [ATMOSPHERE])
      (by norm_num [ATMOSPHERE]) (by norm_num [ATMOSPHERE]) (by norm_num [ATMOSPHERE]))
    (nonincreasingAboveGround_of_decaying _ (by norm_num [ATMOSPHERE])
      (by norm_num [ATMOSPHERE]) (by norm_num [ATMOSPHERE]) (by norm_num [ATMOSPHERE]))
    (by norm_num [ATMOSPHERE]) (by norm_num [ATMOSPHERE]) (by norm_num) (by norm_num)
    (by norm_num)
    (RayIntersectsGround_of_nonneg _ (by norm_num [ATMOSPHERE]) le_rfl (by norm_num))
    (RayIntersectsGround_of_nonneg _ (by norm_num [ATMOSPHERE]) (by norm_num) le_rfl)

/-- C5, counterexample: in `stepAtmosphere` (ground 3, top 5, density 0 below altitude 1 and
1 above, coefficient 1), from radius 4 the ray with cosine `-2 / 5` and the horizontal ray
both miss the ground, and the ray with the smaller cosine has the larger transmittance: its
501 samples include 319 below altitude 1. -/
theorem transmittance_not_monotone_for_step_profile :
    (stepAtmosphere : AtmosphereParameters ℝ).bottom_radius
        < (stepAtmosphere : AtmosphereParameters ℝ).top_radius ∧
      (stepAtmosphere : AtmosphereParameters ℝ).rayleigh_scattering.Nonneg ∧
      (stepAtmosphere : AtmosphereParameters ℝ).mie_extinction.Nonneg ∧
      (stepAtmosphere : AtmosphereParameters ℝ).absorption_extinction.Nonneg ∧
      (stepAtmosphere : AtmosphereParameters ℝ).bottom_radius ≤ 4 ∧
      (4 : ℝ) ≤ (stepAtmosphere : AtmosphereParameters ℝ).top_radius ∧
      (-1 : ℝ) ≤ -2 / 5 ∧ (-2 / 5 : ℝ) ≤ 0 ∧ (0 : ℝ) ≤ 1 ∧
      RayIntersectsGround (stepAtmosphere : AtmosphereParameters ℝ) 4 (-2 / 5) = some false ∧
      RayIntersectsGround (stepAtmosphere : AtmosphereParameters ℝ) 4 0 = some false ∧
      ∃ t₁ t₂ : Vec3 ℝ,
        ComputeTransmittanceToTopAtmosphereBoundary Real.sqrt Real.exp
          (stepAtmosphere : AtmosphereParameters ℝ) 4 (-2 / 5) = some t₁ ∧
        ComputeTransmittanceToTopAtmosphereBoundary Real.sqrt Real.exp
          (stepAtmosphere : AtmosphereParameters ℝ) 4 0 = some t₂ ∧
        t₂.x < t₁.x := by
  have hb : (stepAtmosphere : AtmosphereParameters ℝ).bottom_radius = 3 := rfl
  have ht : (stepAtmosphere : AtmosphereParameters ℝ).top_radius = 5 := rfl
  have hr1 : (stepAtmosphere : AtmosphereParameters ℝ).bottom_radius ≤ 4 := by
    rw [hb]
    norm_num
  have hr2 : (4 : ℝ) ≤ (stepAtmosphere : AtmosphereParameters ℝ).top_radius := by
    rw [ht]
    norm_num
  have hg : RayIntersectsGround (stepAtmosphere : AtmosphereParameters ℝ) 4 (-2 / 5)
      = some false := by
    rw [RayIntersectsGround_eq stepAtmosphere hr1 (by norm_num) (by norm_num), hb]
    have : ¬ ((4 : ℝ) * 4 * (-2 / 5 * (-2 / 5) - 1) + 3 * 3 ≥ 0) := by norm_num
    rw [decide_eq_false this, Bool.and_false]
  refine ⟨by rw [hb, ht]; norm_num, by norm_num [stepAtmosphere, Vec3.Nonneg],
    by norm_num [stepAtmosphere, Vec3.Nonneg], by norm_num [stepAtmosphere, Vec3.Nonneg],
    hr1, hr2, by norm_num, by norm_num, by norm_num, hg,
    RayIntersectsGround_of_nonneg stepAtmosphere hr1 le_rfl (by norm_num), _, _,
    ComputeTransmittanceToTopAtmosphereBoundary_eq Real.sqrt Real.exp stepAtmosphere hr1 hr2
      (by norm_num) (by norm_num),
    ComputeTransmittanceToTopAtmosphereBoundary_eq Real.sqrt Real.exp stepAtmosphere hr1 hr2
      (by norm_num) (by norm_num), ?_⟩
  have hRx : (stepAtmosphere : AtmosphereParameters ℝ).rayleigh_scattering.x = 1 := rfl
  have hMx : (stepAtmosphere : AtmosphereParameters ℝ).mie_extinction.x = 0 := rfl
  have hAx : (stepAtmosphere : AtmosphereParameters ℝ).absorption_extinction.x = 0 := rfl
  have hup := stepAtmosphere_length_horizontal
  have hdown := stepAtmosphere_length_downward
  simp only [Vec3.exp, Vec3.neg, Vec3.add, Vec3.mul, hRx, hMx, hAx]
  apply Real.exp_lt_exp.mpr
  linarith

/-! ## Round trip of the texture mapping -/

/-- C6: for every atmosphere with `0 < bottom_radius < top_radius`, texture sizes
`W, H ≥ 2` and every `uv` with `uv.x` in `[0.5 / W, 1 - 0.5 / W]` and `uv.y` in
`[0.5 / H, 1 - 0.5 / H]`, the pair `(r, mu)` returned by `GetRMuFromTransmittanceTextureUv`
satisfies `DistanceToTopAtmosphereBoundary atmosphere r mu = d`, where
`d = d_min + x_mu * (d_max - d_min)` is the distance the mapping interpolated
(`d_min = top_radius - r`, `d_max = rho + H`, `rho = H * x_r`,
`H = sqrt (top_radius ^ 2 - bottom_radius ^ 2)`). -/
theorem texture_mapping_round_trip (atmosphere : AtmosphereParameters ℝ) (W H : ℤ)
    (uv : Vec2 ℝ) (hb : 0 < atmosphere.bottom_radius)
    (hbt : atmosphere.bottom_radius < atmosphere.top_radius) (hW : 2 ≤ W) (hH : 2 ≤ H)
    (hx1 : 0.5 / (W : ℝ) ≤ uv.x) (hx2 : uv.x ≤ 1 - 0.5 / (W : ℝ))
    (hy1 : 0.5 / (H : ℝ) ≤ uv.y) (hy2 : uv.y ≤ 1 - 0.5 / (H : ℝ)) :
    ∃ r mu : ℝ,
      GetRMuFromTransmittanceTextureUv Real.sqrt W H atmosphere uv = some (r, mu) ∧
      DistanceToTopAtmosphereBoundary Real.sqrt atmosphere r mu
        = some ((atmosphere.top_radius - r)
            + GetUnitRangeFromTextureCoord uv.x W
              * ((Real.sqrt (atmosphere.top_radius * atmosphere.top_radius
                      - atmosphere.bottom_radius * atmosphere.bottom_radius)
                    * GetUnitRangeFromTextureCoord uv.y H
                  + Real.sqrt (atmosphere.top_radius * atmosphere.top_radius
                      - atmosphere.bottom_radius * atmosphere.bottom_radius))
                - (atmosphere.top_radius - r))) := by
  have hW2 : (2 : ℝ) ≤ (W : ℝ) := by exact_mod_cast hW
  have hH2 : (2 : ℝ) ≤ (H : ℝ) := by exact_mod_cast hH
  have hW5 : (0 : ℝ) < 0.5 / (W : ℝ) := by positivity
  have hH5 : (0 : ℝ) < 0.5 / (H : ℝ) := by positivity
  have hxm0 : 0 ≤ GetUnitRangeFromTextureCoord uv.x W := (unitRange_nonneg_iff hW _).mpr hx1
  have hxm1 : GetUnitRangeFromTextureCoord uv.x W ≤ 1 := (unitRange_le_one_iff hW _).mpr hx2
  have hxr0 : 0 ≤ GetUnitRangeFromTextureCoord uv.y H := (unitRange_nonneg_iff hH _).mpr hy1
  have hxr1 : GetUnitRangeFromTextureCoord uv.y H ≤ 1 := (unitRange_le_one_iff hH _).mpr hy2
  have hHs := textureH_sq atmosphere hbt hb
  have hHp := textureH_pos atmosphere hbt hb
  have hrho0 : 0 ≤ textureRho Real.sqrt H atmosphere uv := mul_nonneg hHp.le hxr0
  have hrs := textureR_sq atmosphere H uv
  have hrb := bottom_le_textureR atmosphere H uv
  have hr0 : 0 < textureR Real.sqrt H atmosphere uv := lt_of_lt_of_le hb hrb
  have hrt : textureR Real.sqrt H atmosphere uv ≤ atmosphere.top_radius := by
    rw [textureR_le_top_iff atmosphere hbt hb]
    nlinarith only [hxr0, hxr1]
  have hgap : atmosphere.top_radius - textureR Real.sqrt H atmosphere uv
      ≤ textureRho Real.sqrt H atmosphere uv + textureH Real.sqrt atmosphere := by
    have := top_le_textureH_add_textureR atmosphere hbt hb H uv
    linarith
  have hdlo : atmosphere.top_radius - textureR Real.sqrt H atmosphere uv
      ≤ textureD Real.sqrt W H atmosphere uv := by
    unfold textureD
    nlinarith only [mul_nonneg hxm0 (sub_nonneg.mpr hgap)]
  have hdhi : textureD Real.sqrt W H atmosphere uv
      ≤ textureRho Real.sqrt H atmosphere uv + textureH Real.sqrt atmosphere := by
    unfold textureD
    nlinarith only [mul_nonneg (sub_nonneg.mpr hxm1) (sub_nonneg.mpr hgap)]
  have hd0 : 0 ≤ textureD Real.sqrt W H atmosphere uv := by linarith
  have hrhor := textureRho_le_textureR atmosphere H uv
  have hHt := textureH_le_top atmosphere hbt hb
  refine ⟨_, _, GetRMuFromTransmittanceTextureUv_eq Real.sqrt W H atmosphere
    (by linarith) (by linarith) (by linarith) (by linarith), ?_⟩
  show DistanceToTopAtmosphereBoundary Real.sqrt atmosphere (textureR Real.sqrt H atmosphere uv)
      (clampValue (textureMu Real.sqrt W H atmosphere uv) (-1) 1)
    = some (textureD Real.sqrt W H atmosphere uv)
  by_cases hd : textureD Real.sqrt W H atmosphere uv = 0
  · have hmu : textureMu Real.sqrt W H atmosphere uv = 1 := by
      unfold textureMu
      rw [if_pos hd]
    rw [hmu, clampValue_of_mem (by norm_num) le_rfl,
      DistanceToTopAtmosphereBoundary_eq Real.sqrt atmosphere hrt (by norm_num) le_rfl]
    congr 1
    apply distanceToTopValue_of_root atmosphere hr0.le hrt
    · have : textureR Real.sqrt H atmosphere uv = atmosphere.top_radius := by linarith
      rw [hd, this]
      ring
    · linarith
  · have hdp : 0 < textureD Real.sqrt W H atmosphere uv := lt_of_le_of_ne hd0 (Ne.symm hd)
    have hnum : textureH Real.sqrt atmosphere * textureH Real.sqrt atmosphere
        - textureRho Real.sqrt H atmosphere uv * textureRho Real.sqrt H atmosphere uv
        - textureD Real.sqrt W H atmosphere uv * textureD Real.sqrt W H atmosphere uv
        = atmosphere.top_radius ^ 2 - textureR Real.sqrt H atmosphere uv ^ 2
            - textureD Real.sqrt W H atmosphere uv ^ 2 := by
      linear_combination hHs + hrs
    have hmu : textureMu Real.sqrt W H atmosphere uv
        = (atmosphere.top_radius ^ 2 - textureR Real.sqrt H atmosphere uv ^ 2
            - textureD Real.sqrt W H atmosphere uv ^ 2)
          / (2 * textureR Real.sqrt H atmosphere uv * textureD Real.sqrt W H atmosphere uv) := by
      unfold textureMu
      rw [if_neg hd, hnum]
    obtain ⟨hlo, hhi, hroot, hpos⟩ :=
      cosine_of_distance hr0 hrt hdp hdlo (by linarith)
    rw [hmu, clampValue_of_mem hlo hhi,
      DistanceToTopAtmosphereBoundary_eq Real.sqrt atmosphere hrt hlo hhi]
    congr 1
    exact distanceToTopValue_of_root atmosphere hr0.le hrt hroot hpos

/-- C6, witness: the centre of a 256 x 64 texture for the driver's atmosphere. -/
theorem texture_mapping_round_trip_witness :
    ∃ r mu : ℝ,
      GetRMuFromTransmittanceTextureUv Real.sqrt 256 64 (ATMOSPHERE : AtmosphereParameters ℝ)
        ⟨0.5, 0.5⟩ = some (r, mu) ∧
      DistanceToTopAtmosphereBoundary Real.sqrt (ATMOSPHERE : AtmosphereParameters ℝ) r mu
        = some (((ATMOSPHERE : AtmosphereParameters ℝ).top_radius - r)
            + GetUnitRangeFromTextureCoord (0.5 : ℝ) 256
              * ((Real.sqrt ((ATMOSPHERE : AtmosphereParameters ℝ).top_radius
                        * (ATMOSPHERE : AtmosphereParameters ℝ).top_radius
                      - (ATMOSPHERE : AtmosphereParameters ℝ).bottom_radius
                        * (ATMOSPHERE : AtmosphereParameters ℝ).bottom_radius)
                    * GetUnitRangeFromTextureCoord (0.5 : ℝ) 64
                  + Real.sqrt ((ATMOSPHERE : AtmosphereParameters ℝ).top_radius
                        * (ATMOSPHERE : AtmosphereParameters ℝ).top_radius
                      - (ATMOSPHERE : AtmosphereParameters ℝ).bottom_radius
                        * (ATMOSPHERE : AtmosphereParameters ℝ).bottom_radius))
                - ((ATMOSPHERE : AtmosphereParameters ℝ).top_radius - r))) :=
  texture_mapping_round_trip ATMOSPHERE 256 64 ⟨0.5, 0.5⟩ (by norm_num [ATMOSPHERE])
    (by norm_num [ATMOSPHERE]) (by norm_num) (by norm_num) (by norm_num) (by norm_num)
    (by norm_num) (by norm_num)

/-! ## Range of the texture mapping -/

/-- C7 (as amended): for every atmosphere with `0 < bottom_radius < top_radius`, texture
sizes `W, H ≥ 2` and every `uv` in the unit square, `GetRMuFromTransmittanceTextureUv`
returns `r` with `bottom_radius ≤ r` and `mu` with `-1 ≤ mu ≤ 1`, and `r ≤ top_radius` holds
exactly when `uv.y ≤ 1 - 0.5 / H`, the centre of the last texel row. -/
theorem texture_mapping_range (atmosphere : AtmosphereParameters ℝ) (W H : ℤ) (uv : Vec2 ℝ)
    (hb : 0 < atmosphere.bottom_radius)
    (hbt : atmosphere.bottom_radius < atmosphere.top_radius) (_hW : 2 ≤ W) (hH : 2 ≤ H)
    (hx1 : 0 ≤ uv.x) (hx2 : uv.x ≤ 1) (hy1 : 0 ≤ uv.y) (hy2 : uv.y ≤ 1) :
    ∃ r mu : ℝ,
      GetRMuFromTransmittanceTextureUv Real.sqrt W H atmosphere uv = some (r, mu) ∧
      atmosphere.bottom_radius ≤ r ∧
      (r ≤ atmosphere.top_radius ↔ uv.y ≤ 1 - 0.5 / (H : ℝ)) ∧
      -1 ≤ mu ∧ mu ≤ 1 := by
  have hc := clampValue_bounds (textureMu Real.sqrt W H atmosphere uv)
    (by norm_num : (-1 : ℝ) ≤ 1)
  exact ⟨_, _, GetRMuFromTransmittanceTextureUv_eq Real.sqrt W H atmosphere hx1 hx2 hy1 hy2,
    bottom_le_textureR atmosphere H uv, textureR_le_top_iff_uv atmosphere hbt hb hH hy1,
    hc.1, hc.2⟩

/-- C7, witness: the corner `uv = (0, 0)` of a 256 x 64 texture for the driver's
atmosphere. -/
theorem texture_mapping_range_witness :
    ∃ r mu : ℝ,
      GetRMuFromTransmittanceTextureUv Real.sqrt 256 64 (ATMOSPHERE : AtmosphereParameters ℝ)
        ⟨0, 0⟩ = some (r, mu) ∧
      (ATMOSPHERE : AtmosphereParameters ℝ).bottom_radius ≤ r ∧
      (r ≤ (ATMOSPHERE : AtmosphereParameters ℝ).top_radius
        ↔ (0 : ℝ) ≤ 1 - 0.5 / ((64 : ℤ) : ℝ)) ∧
      -1 ≤ mu ∧ mu ≤ 1 :=
  texture_mapping_range ATMOSPHERE 256 64 ⟨0, 0⟩ (by norm_num [ATMOSPHERE])
    (by norm_num [ATMOSPHERE]) (by norm_num) (by norm_num) (by norm_num) (by norm_num)
    (by norm_num) (by norm_num)

/-- C7, counterexample: at the corner `uv = (1, 1)` of a 256 x 64 texture the mapping of the
driver's atmosphere returns a radius above `top_radius`. -/
theorem texture_mapping_range_fails_at_corner :
    ∃ r mu : ℝ,
      GetRMuFromTransmittanceTextureUv Real.sqrt 256 64 (ATMOSPHERE : AtmosphereParameters ℝ)
        ⟨1, 1⟩ = some (r, mu) ∧
      (ATMOSPHERE : AtmosphereParameters ℝ).top_radius < r := by
  refine ⟨_, _, GetRMuFromTransmittanceTextureUv_eq Real.sqrt 256 64 ATMOSPHERE
    (by norm_num) (by norm_num) (by norm_num) (by norm_num), ?_⟩
  rw [← not_le, textureR_le_top_iff_uv ATMOSPHERE (by norm_num [ATMOSPHERE])
    (by norm_num [ATMOSPHERE]) (by norm_num) (by norm_num)]
  norm_num

/-! ## The driver's texels -/

/-- C8: every texel of the driver is computed without violating a precondition.  For every
atmosphere with `0 < bottom_radius < top_radius`, texture sizes `W, H ≥ 2`, every row
`0 ≤ i < H` and column `0 ≤ j < W`:
`ComputeTransmittanceToTopAtmosphereBoundaryTexture atmosphere (j, i)` passes
`uv = (j / W, i / H)` inside the unit square to `GetRMuFromTransmittanceTextureUv`, the
resulting `(r, mu)` has `bottom_radius ≤ r ≤ top_radius` and `-1 ≤ mu ≤ 1`, the distance, the
three optical lengths and the transmittance are returned (no assertion fails), and no
divisor is zero: the texture sizes, `1 - 1 / W`, `1 - 1 / H`, `2 * r * d` for `d ≠ 0`, and
`SAMPLE_COUNT`. -/
theorem every_texel_is_computable (atmosphere : AtmosphereParameters ℝ) (W H i j : ℤ)
    (hb : 0 < atmosphere.bottom_radius)
    (hbt : atmosphere.bottom_radius < atmosphere.top_radius) (hW : 2 ≤ W) (hH : 2 ≤ H)
    (hi0 : 0 ≤ i) (hi : i < H) (hj0 : 0 ≤ j) (hj : j < W) :
    (0 ≤ (Vec2.div ⟨(j : ℝ), (i : ℝ)⟩ ⟨(W : ℝ), (H : ℝ)⟩).x
      ∧ (Vec2.div ⟨(j : ℝ), (i : ℝ)⟩ ⟨(W : ℝ), (H : ℝ)⟩).x ≤ 1
      ∧ 0 ≤ (Vec2.div ⟨(j : ℝ), (i : ℝ)⟩ ⟨(W : ℝ), (H : ℝ)⟩).y
      ∧ (Vec2.div ⟨(j : ℝ), (i : ℝ)⟩ ⟨(W : ℝ), (H : ℝ)⟩).y ≤ 1) ∧
    ∃ (r mu d L_R L_M L_O : ℝ) (t : Vec3 ℝ),
      GetRMuFromTransmittanceTextureUv Real.sqrt W H atmosphere
        (Vec2.div ⟨(j : ℝ), (i : ℝ)⟩ ⟨(W : ℝ), (H : ℝ)⟩) = some (r, mu) ∧
      atmosphere.bottom_radius ≤ r ∧ r ≤ atmosphere.top_radius ∧ -1 ≤ mu ∧ mu ≤ 1 ∧
      DistanceToTopAtmosphereBoundary Real.sqrt atmosphere r mu = some d ∧
      ComputeOpticalLengthToTopAtmosphereBoundary Real.sqrt Real.exp atmosphere
        atmosphere.rayleigh_density r mu = some L_R ∧
      ComputeOpticalLengthToTopAtmosphereBoundary Real.sqrt Real.exp atmosphere
        atmosphere.mie_density r mu = some L_M ∧
      ComputeOpticalLengthToTopAtmosphereBoundary Real.sqrt Real.exp atmosphere
        atmosphere.absorption_density r mu = some L_O ∧
      ComputeTransmittanceToTopAtmosphereBoundary Real.sqrt Real.exp atmosphere r mu = some t ∧
      ComputeTransmittanceToTopAtmosphereBoundaryTexture Real.sqrt Real.exp W H atmosphere
        ⟨(j : ℝ), (i : ℝ)⟩ = some t ∧
      (W : ℝ) ≠ 0 ∧ (H : ℝ) ≠ 0 ∧ 1 - 1 / (W : ℝ) ≠ 0 ∧ 1 - 1 / (H : ℝ) ≠ 0 ∧
      (∀ d' : ℝ, d' ≠ 0 → 2 * r * d' ≠ 0) ∧ ((SAMPLE_COUNT : ℕ) : ℝ) ≠ 0 := by
  have hW2 : (2 : ℝ) ≤ (W : ℝ) := by exact_mod_cast hW
  have hH2 : (2 : ℝ) ≤ (H : ℝ) := by exact_mod_cast hH
  have hWp : (0 : ℝ) < (W : ℝ) := by linarith
  have hHp : (0 : ℝ) < (H : ℝ) := by linarith
  have hi0' : (0 : ℝ) ≤ (i : ℝ) := by exact_mod_cast hi0
  have hj0' : (0 : ℝ) ≤ (j : ℝ) := by exact_mod_cast hj0
  have hi' : (i : ℝ) + 1 ≤ (H : ℝ) := by exact_mod_cast hi
  have hj' : (j : ℝ) + 1 ≤ (W : ℝ) := by exact_mod_cast hj
  have hx1 : 0 ≤ (Vec2.div ⟨(j : ℝ), (i : ℝ)⟩ ⟨(W : ℝ), (H : ℝ)⟩).x := by
    show (0 : ℝ) ≤ (j : ℝ) / (W : ℝ)
    positivity
  have hx2 : (Vec2.div ⟨(j : ℝ), (i : ℝ)⟩ ⟨(W : ℝ), (H : ℝ)⟩).x ≤ 1 := by
    show (j : ℝ) / (W : ℝ) ≤ 1
    rw [div_le_one hWp]
    linarith
  have hy1 : 0 ≤ (Vec2.div ⟨(j : ℝ), (i : ℝ)⟩ ⟨(W : ℝ), (H : ℝ)⟩).y := by
    show (0 : ℝ) ≤ (i : ℝ) / (H : ℝ)
    positivity
  have hy3 : (Vec2.div ⟨(j : ℝ), (i : ℝ)⟩ ⟨(W : ℝ), (H : ℝ)⟩).y ≤ 1 - 0.5 / (H : ℝ) := by
    show (i : ℝ) / (H : ℝ) ≤ 1 - 0.5 / (H : ℝ)
    rw [div_le_iff₀ hHp, sub_mul, div_mul_cancel₀ _ hHp.ne']
    linarith
  have hy2 : (Vec2.div ⟨(j : ℝ), (i : ℝ)⟩ ⟨(W : ℝ), (H : ℝ)⟩).y ≤ 1 := by
    have : (0 : ℝ) ≤ 0.5 / (H : ℝ) := by positivity
    linarith
  have hG := GetRMuFromTransmittanceTextureUv_eq Real.sqrt W H atmosphere hx1 hx2 hy1 hy2
  have hrb := bottom_le_textureR atmosphere H (Vec2.div ⟨(j : ℝ), (i : ℝ)⟩ ⟨(W : ℝ), (H : ℝ)⟩)
  have hrt := (textureR_le_top_iff_uv atmosphere hbt hb hH hy1).mpr hy3
  have hc := clampValue_bounds
    (textureMu Real.sqrt W H atmosphere (Vec2.div ⟨(j : ℝ), (i : ℝ)⟩ ⟨(W : ℝ), (H : ℝ)⟩))
    (by norm_num : (-1 : ℝ) ≤ 1)
  have hT := ComputeTransmittanceToTopAtmosphereBoundary_eq Real.sqrt Real.exp atmosphere
    hrb hrt hc.1 hc.2
  refine ⟨⟨hx1, hx2, hy1, hy2⟩, _, _, _, _, _, _, _, hG, hrb, hrt, hc.1, hc.2,
    DistanceToTopAtmosphereBoundary_eq Real.sqrt atmosphere hrt hc.1 hc.2,
    ComputeOpticalLengthToTopAtmosphereBoundary_eq Real.sqrt Real.exp atmosphere _ hrb hrt
      hc.1 hc.2,
    ComputeOpticalLengthToTopAtmosphereBoundary_eq Real.sqrt Real.exp atmosphere _ hrb hrt
      hc.1 hc.2,
    ComputeOpticalLengthToTopAtmosphereBoundary_eq Real.sqrt Real.exp atmosphere _ hrb hrt
      hc.1 hc.2,
    hT, ?_, hWp.ne', hHp.ne', (unitRange_denominator_pos hW).ne',
    (unitRange_denominator_pos hH).ne', ?_, ?_⟩
  · unfold ComputeTransmittanceToTopAtmosphereBoundaryTexture
    simp only [hG, Option.some_bind, Option.bind_eq_bind]
    exact hT
  · intro d' hd'
    have hr0 : (0 : ℝ) < textureR Real.sqrt H atmosphere
        (Vec2.div ⟨(j : ℝ), (i : ℝ)⟩ ⟨(W : ℝ), (H : ℝ)⟩) := lt_of_lt_of_le hb hrb
    exact mul_ne_zero (mul_ne_zero two_ne_zero hr0.ne') hd'
  · norm_num [SAMPLE_COUNT]

/-- C8, witness: the last texel `(j, i) = (255, 63)` of a 256 x 64 texture for the driver's
atmosphere. -/
theorem every_texel_is_computable_witness :
    (0 ≤ (Vec2.div ⟨((255 : ℤ) : ℝ), ((63 : ℤ) : ℝ)⟩ ⟨((256 : ℤ) : ℝ), ((64 : ℤ) : ℝ)⟩).x
      ∧ (Vec2.div ⟨((255 : ℤ) : ℝ), ((63 : ℤ) : ℝ)⟩ ⟨((256 : ℤ) : ℝ), ((64 : ℤ) : ℝ)⟩).x ≤ 1
      ∧ 0 ≤ (Vec2.div ⟨((255 : ℤ) : ℝ), ((63 : ℤ) : ℝ)⟩ ⟨((256 : ℤ) : ℝ), ((64 : ℤ) : ℝ)⟩).y
      ∧ (Vec2.div ⟨((255 : ℤ) : ℝ), ((63 : ℤ) : ℝ)⟩ ⟨((256 : ℤ) : ℝ), ((64 : ℤ) : ℝ)⟩).y ≤ 1) ∧
    ∃ (r mu d L_R L_M L_O : ℝ) (t : Vec3 ℝ),
      GetRMuFromTransmittanceTextureUv Real.sqrt 256 64 (ATMOSPHERE : AtmosphereParameters ℝ)
        (Vec2.div ⟨((255 : ℤ) : ℝ), ((63 : ℤ) : ℝ)⟩ ⟨((256 : ℤ) : ℝ), ((64 : ℤ) : ℝ)⟩)
        = some (r, mu) ∧
      (ATMOSPHERE : AtmosphereParameters ℝ).bottom_radius ≤ r ∧
      r ≤ (ATMOSPHERE : AtmosphereParameters ℝ).top_radius ∧ -1 ≤ mu ∧ mu ≤ 1 ∧
      DistanceToTopAtmosphereBoundary Real.sqrt (ATMOSPHERE : AtmosphereParameters ℝ) r mu
        = some d ∧
      ComputeOpticalLengthToTopAtmosphereBoundary Real.sqrt Real.exp ATMOSPHERE
        (ATMOSPHERE : AtmosphereParameters ℝ).rayleigh_density r mu = some L_R ∧
      ComputeOpticalLengthToTopAtmosphereBoundary Real.sqrt Real.exp ATMOSPHERE
        (ATMOSPHERE : AtmosphereParameters ℝ).mie_density r mu = some L_M ∧
      ComputeOpticalLengthToTopAtmosphereBoundary Real.sqrt Real.exp ATMOSPHERE
        (ATMOSPHERE : AtmosphereParameters ℝ).absorption_density r mu = some L_O ∧
      ComputeTransmittanceToTopAtmosphereBoundary Real.sqrt Real.exp
        (ATMOSPHERE : AtmosphereParameters ℝ) r mu = some t ∧
      ComputeTransmittanceToTopAtmosphereBoundaryTexture Real.sqrt Real.exp 256 64
        (ATMOSPHERE : AtmosphereParameters ℝ) ⟨((255 : ℤ) : ℝ), ((63 : ℤ) : ℝ)⟩ = some t ∧
      (((256 : ℤ) : ℝ)) ≠ 0 ∧ (((64 : ℤ) : ℝ)) ≠ 0 ∧ 1 - 1 / (((256 : ℤ) : ℝ)) ≠ 0 ∧
      1 - 1 / (((64 : ℤ) : ℝ)) ≠ 0 ∧
      (∀ d' : ℝ, d' ≠ 0 → 2 * r * d' ≠ 0) ∧ ((SAMPLE_COUNT : ℕ) : ℝ) ≠ 0 :=
  every_texel_is_computable ATMOSPHERE 256 64 63 255 (by norm_num [ATMOSPHERE])
    (by norm_num [ATMOSPHERE]) (by norm_num) (by norm_num) (by norm_num) (by norm_num)
    (by norm_num) (by norm_num)

/-! ## Distance to the top atmosphere boundary -/

/-- C9: for every atmosphere, every `r` with `0 ≤ r ≤ top_radius` and `mu` in `[-1, 1]`,
`d = DistanceToTopAtmosphereBoundary atmosphere r mu` is returned, is `≥ 0` and is a true
intersection distance with the outer sphere, `d ^ 2 + 2 * r * mu * d + r ^ 2 = top_radius ^ 2`;
it equals `-r * mu + sqrt (r ^ 2 * (mu ^ 2 - 1) + top_radius ^ 2)`, neither the `max` of
`SafeSqrt` nor `ClampDistance` changing the value. -/
theorem distance_to_top_is_intersection (atmosphere : AtmosphereParameters ℝ) (r mu : ℝ)
    (hr0 : 0 ≤ r) (hr : r ≤ atmosphere.top_radius) (h1 : -1 ≤ mu) (h2 : mu ≤ 1) :
    ∃ d : ℝ, DistanceToTopAtmosphereBoundary Real.sqrt atmosphere r mu = some d ∧
      0 ≤ d ∧
      d ^ 2 + 2 * r * mu * d + r ^ 2 = atmosphere.top_radius ^ 2 ∧
      d = -r * mu + Real.sqrt (r ^ 2 * (mu ^ 2 - 1) + atmosphere.top_radius ^ 2) ∧
      Max.max (r * r * (mu * mu - 1) + atmosphere.top_radius * atmosphere.top_radius) 0
        = r * r * (mu * mu - 1) + atmosphere.top_radius * atmosphere.top_radius ∧
      ClampDistance (-r * mu + SafeSqrt Real.sqrt
          (r * r * (mu * mu - 1) + atmosphere.top_radius * atmosphere.top_radius))
        = -r * mu + SafeSqrt Real.sqrt
          (r * r * (mu * mu - 1) + atmosphere.top_radius * atmosphere.top_radius) := by
  have hc : 0 ≤ atmosphere.top_radius ^ 2 - r ^ 2 := by nlinarith
  have hs := le_sqrt_sq_add (r * mu) hc
  have hd : r ^ 2 * (mu ^ 2 - 1) + atmosphere.top_radius ^ 2
      = (r * mu) ^ 2 + (atmosphere.top_radius ^ 2 - r ^ 2) := by ring
  refine ⟨_, DistanceToTopAtmosphereBoundary_eq Real.sqrt atmosphere hr h1 h2,
    distanceToTopValue_nonneg _ _ _ _, distanceToTopValue_sq atmosphere mu hr0 hr, ?_,
    max_eq_left (discriminant_nonneg hr0 hr), ?_⟩
  · rw [distanceToTopValue_eq atmosphere mu hr0 hr, hd]
    ring
  · unfold ClampDistance SafeSqrt
    rw [max_eq_left (discriminant_nonneg hr0 hr), discriminant_eq, max_eq_left]
    linarith

/-- C9, witness: a sphere of radius 5 seen from radius 4 along the horizontal (`mu = 0`). -/
theorem distance_to_top_is_intersection_witness :
    ∃ d : ℝ, DistanceToTopAtmosphereBoundary Real.sqrt
        ({ (ATMOSPHERE : AtmosphereParameters ℝ) with bottom_radius := 3, top_radius := 5 }) 4 0
        = some d ∧
      0 ≤ d ∧
      d ^ 2 + 2 * 4 * 0 * d + 4 ^ 2 = (5 : ℝ) ^ 2 ∧
      d = -4 * 0 + Real.sqrt (4 ^ 2 * (0 ^ 2 - 1) + (5 : ℝ) ^ 2) ∧
      Max.max ((4 : ℝ) * 4 * (0 * 0 - 1) + 5 * 5) 0 = 4 * 4 * (0 * 0 - 1) + 5 * 5 ∧
      ClampDistance (-4 * 0 + SafeSqrt Real.sqrt ((4 : ℝ) * 4 * (0 * 0 - 1) + 5 * 5))
        = -4 * 0 + SafeSqrt Real.sqrt ((4 : ℝ) * 4 * (0 * 0 - 1) + 5 * 5) :=
  distance_to_top_is_intersection
    ({ (ATMOSPHERE : AtmosphereParameters ℝ) with bottom_radius := 3, top_radius := 5 }) 4 0
    (by norm_num) (by norm_num) (by norm_num) (by norm_num)

/-- C10: `d_min` and `d_max` of the texture mapping are the extreme distances to the top
boundary.  For every atmosphere with `0 < bottom_radius < top_radius` and `r` in
`[bottom_radius, top_radius]`, with `H = sqrt (top_radius ^ 2 - bottom_radius ^ 2)` and
`rho = sqrt (r ^ 2 - bottom_radius ^ 2)`: the distance at `mu = 1` is `top_radius - r`, the
distance at `mu = -rho / r` is `rho + H`, and for every `mu` in `[-rho / r, 1]` the distance
lies between these two values. -/
theorem d_min_d_max_are_extreme_distances (atmosphere : AtmosphereParameters ℝ) (r : ℝ)
    (hb : 0 < atmosphere.bottom_radius)
    (_hbt : atmosphere.bottom_radius < atmosphere.top_radius)
    (hr1 : atmosphere.bottom_radius ≤ r) (hr2 : r ≤ atmosphere.top_radius) :
    DistanceToTopAtmosphereBoundary Real.sqrt atmosphere r 1
      = some (atmosphere.top_radius - r) ∧
    DistanceToTopAtmosphereBoundary Real.sqrt atmosphere r
        (-Real.sqrt (r ^ 2 - atmosphere.bottom_radius ^ 2) / r)
      = some (Real.sqrt (r ^ 2 - atmosphere.bottom_radius ^ 2)
          + Real.sqrt (atmosphere.top_radius ^ 2 - atmosphere.bottom_radius ^ 2)) ∧
    ∀ mu : ℝ, -Real.sqrt (r ^ 2 - atmosphere.bottom_radius ^ 2) / r ≤ mu → mu ≤ 1 →
      ∃ d : ℝ, DistanceToTopAtmosphereBoundary Real.sqrt atmosphere r mu = some d ∧
        atmosphere.top_radius - r ≤ d ∧
        d ≤ Real.sqrt (r ^ 2 - atmosphere.bottom_radius ^ 2)
          + Real.sqrt (atmosphere.top_radius ^ 2 - atmosphere.bottom_radius ^ 2) := by
  have hr0 : 0 < r := lt_of_lt_of_le hb hr1
  have ht0 : 0 ≤ atmosphere.top_radius := le_trans hr0.le hr2
  have hrho0 : 0 ≤ Real.sqrt (r ^ 2 - atmosphere.bottom_radius ^ 2) := Real.sqrt_nonneg _
  have hrho : Real.sqrt (r ^ 2 - atmosphere.bottom_radius ^ 2) ≤ r := by
    apply Real.sqrt_le_iff.mpr
    constructor
    · exact hr0.le
    · nlinarith
  have hrho2 : Real.sqrt (r ^ 2 - atmosphere.bottom_radius ^ 2) ^ 2
      = r ^ 2 - atmosphere.bottom_radius ^ 2 := Real.sq_sqrt (by nlinarith)
  have hmu1 : -1 ≤ -Real.sqrt (r ^ 2 - atmosphere.bottom_radius ^ 2) / r := by
    rw [le_div_iff₀ hr0]
    linarith
  have hmu2 : -Real.sqrt (r ^ 2 - atmosphere.bottom_radius ^ 2) / r ≤ 1 := by
    rw [div_le_iff₀ hr0]
    linarith
  have e1 : distanceToTopValue Real.sqrt atmosphere r 1 = atmosphere.top_radius - r := by
    rw [distanceToTopValue_eq atmosphere 1 hr0.le hr2]
    have : (r * 1) ^ 2 + (atmosphere.top_radius ^ 2 - r ^ 2) = atmosphere.top_radius ^ 2 := by
      ring
    rw [this, Real.sqrt_sq ht0]
    ring
  have e2 : distanceToTopValue Real.sqrt atmosphere r
        (-Real.sqrt (r ^ 2 - atmosphere.bottom_radius ^ 2) / r)
      = Real.sqrt (r ^ 2 - atmosphere.bottom_radius ^ 2)
          + Real.sqrt (atmosphere.top_radius ^ 2 - atmosphere.bottom_radius ^ 2) := by
    rw [distanceToTopValue_eq atmosphere _ hr0.le hr2]
    have hm : r * (-Real.sqrt (r ^ 2 - atmosphere.bottom_radius ^ 2) / r)
        = -Real.sqrt (r ^ 2 - atmosphere.bottom_radius ^ 2) := by
      field_simp
      ring
    rw [hm]
    have : (-Real.sqrt (r ^ 2 - atmosphere.bottom_radius ^ 2)) ^ 2
          + (atmosphere.top_radius ^ 2 - r ^ 2)
        = atmosphere.top_radius ^ 2 - atmosphere.bottom_radius ^ 2 := by
      rw [neg_sq, hrho2]
      ring
    rw [this]
    ring
  refine ⟨?_, ?_, ?_⟩
  · rw [DistanceToTopAtmosphereBoundary_eq Real.sqrt atmosphere hr2 (by norm_num) le_rfl, e1]
  · rw [DistanceToTopAtmosphereBoundary_eq Real.sqrt atmosphere hr2 hmu1 hmu2, e2]
  · intro mu hlo hhi
    refine ⟨_, DistanceToTopAtmosphereBoundary_eq Real.sqrt atmosphere hr2
      (le_trans hmu1 hlo) hhi, ?_, ?_⟩
    · rw [← e1]
      exact distanceToTopValue_antitone atmosphere hr0.le hr2 hhi
    · rw [← e2]
      exact distanceToTopValue_antitone atmosphere hr0.le hr2 hlo

/-- C10, witness: a ground of radius 3, a top of radius 5, the view point at radius 4. -/
theorem d_min_d_max_are_extreme_distances_witness :
    DistanceToTopAtmosphereBoundary Real.sqrt
        ({ (ATMOSPHERE : AtmosphereParameters ℝ) with bottom_radius := 3, top_radius := 5 }) 4 1
      = some (5 - 4) ∧
    DistanceToTopAtmosphereBoundary Real.sqrt
        ({ (ATMOSPHERE : AtmosphereParameters ℝ) with bottom_radius := 3, top_radius := 5 }) 4
        (-Real.sqrt (4 ^ 2 - 3 ^ 2) / 4)
      = some (Real.sqrt (4 ^ 2 - 3 ^ 2) + Real.sqrt (5 ^ 2 - 3 ^ 2)) ∧
    ∀ mu : ℝ, -Real.sqrt (4 ^ 2 - 3 ^ 2) / 4 ≤ mu → mu ≤ 1 →
      ∃ d : ℝ, DistanceToTopAtmosphereBoundary Real.sqrt
          ({ (ATMOSPHERE : AtmosphereParameters ℝ) with bottom_radius := 3, top_radius := 5 })
          4 mu = some d ∧
        5 - 4 ≤ d ∧ d ≤ Real.sqrt (4 ^ 2 - 3 ^ 2) + Real.sqrt (5 ^ 2 - 3 ^ 2) :=
  d_min_d_max_are_extreme_distances
    ({ (ATMOSPHERE : AtmosphereParameters ℝ) with bottom_radius := 3, top_radius := 5 }) 4
    (by norm_num) (by norm_num) (by norm_num) (by norm_num)

/-! ## Distance to the ground and the ground test -/

section Ground

theorem DistanceToBottomAtmosphereBoundary_eq {α : Type} [LinearOrderedField α] (sqrt : α → α)
    (atmosphere : AtmosphereParameters α) {r mu : α} (hr1 : atmosphere.bottom_radius ≤ r)
    (h1 : -1 ≤ mu) (h2 : mu ≤ 1) :
    DistanceToBottomAtmosphereBoundary sqrt atmosphere r mu
      = some (ClampDistance (-r * mu - SafeSqrt sqrt
          (r * r * (mu * mu - 1) + atmosphere.bottom_radius * atmosphere.bottom_radius))) := by
  have hr : r ≥ atmosphere.bottom_radius := hr1
  have hm : mu ≥ -1 ∧ mu ≤ 1 := ⟨h1, h2⟩
  unfold DistanceToBottomAtmosphereBoundary
  rw [cassert_pos hr, cassert_pos hm]
  rfl

theorem RayIntersectsGround_eq_true_iff {α : Type} [LinearOrderedField α]
    (atmosphere : AtmosphereParameters α) {r mu : α} (hr1 : atmosphere.bottom_radius ≤ r)
    (h1 : -1 ≤ mu) (h2 : mu ≤ 1) :
    RayIntersectsGround atmosphere r mu = some true
      ↔ mu < 0 ∧ r * r * (mu * mu - 1)
          + atmosphere.bottom_radius * atmosphere.bottom_radius ≥ 0 := by
  rw [RayIntersectsGround_eq atmosphere hr1 h1 h2]
  simp

/-- The root `sqrt disc` of the ground discriminant is at most `-r * mu` on a ray that
points down from above the ground. -/
theorem sqrt_ground_discriminant_le {b r mu : ℝ} (hb : 0 ≤ b) (hr : b ≤ r) (hmu : mu ≤ 0) :
    Real.sqrt (Max.max (r * r * (mu * mu - 1) + b * b) 0) ≤ -r * mu := by
  have hr0 : 0 ≤ r := le_trans hb hr
  have hpos : 0 ≤ -r * mu := by nlinarith
  apply Real.sqrt_le_iff.mpr
  refine ⟨hpos, max_le ?_ (by positivity)⟩
  nlinarith

end Ground

/-- C11: for every atmosphere with `bottom_radius ≥ 0`, every `r ≥ bottom_radius` and `mu`
in `[-1, 1]`, `DistanceToBottomAtmosphereBoundary` returns
`max 0 (-r * mu - sqrt (max 0 (r ^ 2 * (mu ^ 2 - 1) + bottom_radius ^ 2)))`, which is `≥ 0`;
and whenever `RayIntersectsGround atmosphere r mu` is true the returned `d` is the nearer
intersection with the ground sphere: `d ^ 2 + 2 * r * mu * d + r ^ 2 = bottom_radius ^ 2` and
`d` is the smaller root of that quadratic. -/
theorem distance_to_bottom_is_nearer_intersection (atmosphere : AtmosphereParameters ℝ)
    (r mu : ℝ) (hb : 0 ≤ atmosphere.bottom_radius) (hr : atmosphere.bottom_radius ≤ r)
    (h1 : -1 ≤ mu) (h2 : mu ≤ 1) :
    ∃ d : ℝ, DistanceToBottomAtmosphereBoundary Real.sqrt atmosphere r mu = some d ∧
      d = Max.max 0 (-r * mu
        - Real.sqrt (Max.max 0 (r ^ 2 * (mu ^ 2 - 1) + atmosphere.bottom_radius ^ 2))) ∧
      0 ≤ d ∧
      (RayIntersectsGround atmosphere r mu = some true →
        d ^ 2 + 2 * r * mu * d + r ^ 2 = atmosphere.bottom_radius ^ 2 ∧
        ∀ x : ℝ, x ^ 2 + 2 * r * mu * x + r ^ 2 = atmosphere.bottom_radius ^ 2 → d ≤ x) := by
  refine ⟨_, DistanceToBottomAtmosphereBoundary_eq Real.sqrt atmosphere hr h1 h2, ?_,
    le_max_right _ _, ?_⟩
  · unfold ClampDistance SafeSqrt
    rw [max_comm, max_comm (r * r * (mu * mu - 1)
      + atmosphere.bottom_radius * atmosphere.bottom_radius) 0]
    congr 4
    ring
  · intro hg
    obtain ⟨hmu, hdisc⟩ := (RayIntersectsGround_eq_true_iff atmosphere hr h1 h2).mp hg
    have hs := sqrt_ground_discriminant_le hb hr hmu.le
    rw [max_eq_left hdisc] at hs
    have hsq : Real.sqrt (r * r * (mu * mu - 1)
          + atmosphere.bottom_radius * atmosphere.bottom_radius) ^ 2
        = r * r * (mu * mu - 1) + atmosphere.bottom_radius * atmosphere.bottom_radius :=
      Real.sq_sqrt hdisc
    have hs0 : 0 ≤ Real.sqrt (r * r * (mu * mu - 1)
          + atmosphere.bottom_radius * atmosphere.bottom_radius) := Real.sqrt_nonneg _
    unfold ClampDistance SafeSqrt
    rw [max_eq_left hdisc, max_eq_left (by linarith)]
    constructor
    · linear_combination hsq
    · intro x hx
      by_contra hcon
      push_neg at hcon
      nlinarith

/-- C11, witness: the driver's atmosphere at radius 6400, looking straight down. -/
theorem distance_to_bottom_is_nearer_intersection_witness :
    ∃ d : ℝ, DistanceToBottomAtmosphereBoundary Real.sqrt
        (ATMOSPHERE : AtmosphereParameters ℝ) 6400 (-1) = some d ∧
      d = Max.max 0 (-6400 * (-1) - Real.sqrt (Max.max 0 (6400 ^ 2 * ((-1) ^ 2 - 1)
        + (ATMOSPHERE : AtmosphereParameters ℝ).bottom_radius ^ 2))) ∧
      0 ≤ d ∧
      (RayIntersectsGround (ATMOSPHERE : AtmosphereParameters ℝ) 6400 (-1) = some true →
        d ^ 2 + 2 * 6400 * (-1) * d + 6400 ^ 2
          = (ATMOSPHERE : AtmosphereParameters ℝ).bottom_radius ^ 2 ∧
        ∀ x : ℝ, x ^ 2 + 2 * 6400 * (-1) * x + 6400 ^ 2
          = (ATMOSPHERE : AtmosphereParameters ℝ).bottom_radius ^ 2 → d ≤ x) :=
  distance_to_bottom_is_nearer_intersection ATMOSPHERE 6400 (-1) (by norm_num [ATMOSPHERE])
    (by norm_num [ATMOSPHERE]) (by norm_num) (by norm_num)

/-- C12 (as amended): for every atmosphere, every `r ≥ bottom_radius` and `mu` in `[-1, 1]`,
`RayIntersectsGround atmosphere r mu` returns a value, which is true exactly when `mu < 0`
and `r ^ 2 * (mu ^ 2 - 1) + bottom_radius ^ 2 ≥ 0`; in particular it is false whenever
`mu ≥ 0`. -/
theorem ray_intersects_ground_iff (atmosphere : AtmosphereParameters ℝ) (r mu : ℝ)
    (hr : atmosphere.bottom_radius ≤ r) (h1 : -1 ≤ mu) (h2 : mu ≤ 1) :
    (∃ b : Bool, RayIntersectsGround atmosphere r mu = some b) ∧
    (RayIntersectsGround atmosphere r mu = some true
      ↔ mu < 0 ∧ r ^ 2 * (mu ^ 2 - 1) + atmosphere.bottom_radius ^ 2 ≥ 0) ∧
    (0 ≤ mu → RayIntersectsGround atmosphere r mu = some false) := by
  refine ⟨⟨_, RayIntersectsGround_eq atmosphere hr h1 h2⟩, ?_,
    fun h0 => RayIntersectsGround_of_nonneg atmosphere hr h0 h2⟩
  rw [RayIntersectsGround_eq_true_iff atmosphere hr h1 h2]
  have e : r * r * (mu * mu - 1) + atmosphere.bottom_radius * atmosphere.bottom_radius
      = r ^ 2 * (mu ^ 2 - 1) + atmosphere.bottom_radius ^ 2 := by ring
  rw [e]

/-- C12, witness: the driver's atmosphere at the ground, looking along the horizontal. -/
theorem ray_intersects_ground_iff_witness :
    (∃ b : Bool, RayIntersectsGround (ATMOSPHERE : AtmosphereParameters ℝ) 6360 0 = some b) ∧
    (RayIntersectsGround (ATMOSPHERE : AtmosphereParameters ℝ) 6360 0 = some true
      ↔ (0 : ℝ) < 0 ∧ (6360 : ℝ) ^ 2 * (0 ^ 2 - 1)
          + (ATMOSPHERE : AtmosphereParameters ℝ).bottom_radius ^ 2 ≥ 0) ∧
    ((0 : ℝ) ≤ 0 →
      RayIntersectsGround (ATMOSPHERE : AtmosphereParameters ℝ) 6360 0 = some false) :=
  ray_intersects_ground_iff ATMOSPHERE 6360 0 (by norm_num [ATMOSPHERE]) (by norm_num)
    (by norm_num)

/-- C12, counterexample: below the ground (`r = 6000 < 6360 = bottom_radius`) with
`mu = 1 / 2 ≥ 0` the assertion on `r` fails: the function returns neither true nor false. -/
theorem ray_intersects_ground_fails_below_ground :
    (0 : ℝ) ≤ 1 / 2 ∧
      RayIntersectsGround (ATMOSPHERE : AtmosphereParameters ℝ) 6000 (1 / 2) = none := by
  have h : ¬ ((6000 : ℝ) ≥ (ATMOSPHERE : AtmosphereParameters ℝ).bottom_radius) := by
    norm_num [ATMOSPHERE]
  refine ⟨by norm_num, ?_⟩
  unfold RayIntersectsGround
  rw [cassert_neg h]
  rfl

/-! ## Density of a profile -/

theorem clampValue_eq_max_min {α : Type} [LinearOrderedField α] (x : α) {lo hi : α}
    (h : lo ≤ hi) : clampValue x lo hi = Max.max lo (Min.min x hi) := by
  unfold clampValue
  split_ifs with h1 h2
  · rw [min_eq_left (le_trans h1.le h), max_eq_left h1.le]
  · rw [min_eq_right (le_of_lt h2), max_eq_right h]
  · rw [min_eq_left (not_lt.mp h2), max_eq_right (not_lt.mp h1)]

/-- C13: for every density profile and every altitude `h`, `GetProfileDensity profile h` is
the value `exp_term * exp (exp_scale * h) + linear_term * h + constant_term` of the selected
layer clamped to `[0, 1]`, the selected layer being `layers[0]` if `h < layers[0].width` and
`layers[1]` otherwise (so at `h = layers[0].width` the upper layer applies); the result lies
in `[0, 1]`. -/
theorem profile_density_is_clamped_layer_value (profile : DensityProfile ℝ) (h : ℝ) :
    (h < (profile.layers 0).width →
      GetProfileDensity Real.exp profile h
        = some (Max.max 0 (Min.min ((profile.layers 0).exp_term
              * Real.exp ((profile.layers 0).exp_scale * h)
            + (profile.layers 0).linear_term * h + (profile.layers 0).constant_term) 1))) ∧
    ((profile.layers 0).width ≤ h →
      GetProfileDensity Real.exp profile h
        = some (Max.max 0 (Min.min ((profile.layers 1).exp_term
              * Real.exp ((profile.layers 1).exp_scale * h)
            + (profile.layers 1).linear_term * h + (profile.layers 1).constant_term) 1))) ∧
    ∃ y : ℝ, GetProfileDensity Real.exp profile h = some y ∧ 0 ≤ y ∧ y ≤ 1 := by
  refine ⟨fun hlt => ?_, fun hge => ?_, _, GetProfileDensity_eq Real.exp profile h,
    (profileDensityValue_bounds Real.exp profile h).1,
    (profileDensityValue_bounds Real.exp profile h).2⟩
  · rw [GetProfileDensity_eq]
    unfold profileDensityValue layerDensityValue
    rw [if_pos hlt, clampValue_eq_max_min _ zero_le_one]
  · rw [GetProfileDensity_eq]
    unfold profileDensityValue layerDensityValue
    rw [if_neg (not_lt.mpr hge), clampValue_eq_max_min _ zero_le_one]

/-! ## The ray straight up -/

section StraightUp

theorem distanceToTopValue_up (atmosphere : AtmosphereParameters ℝ) {r : ℝ} (hr0 : 0 ≤ r)
    (hr : r ≤ atmosphere.top_radius) :
    distanceToTopValue Real.sqrt atmosphere r 1 = atmosphere.top_radius - r :=
  distanceToTopValue_of_root atmosphere hr0 hr (by ring) (by linarith)

theorem sampleRadius_up {r x : ℝ} (hr0 : 0 ≤ r) (hx : 0 ≤ x) :
    sampleRadius Real.sqrt r 1 x = x + r := by
  unfold sampleRadius
  have e : x * x + 2 * r * 1 * x + r * r = (x + r) ^ 2 := by ring
  rw [e, Real.sqrt_sq (by linarith)]

/-- The trapezoid sum with its two end terms written apart. -/
theorem trapezoidSum_eq_ends (y : ℕ → ℝ) (dx : ℝ) :
    trapezoidSum y dx
      = dx * (0.5 * y 0 + ∑ i in Finset.Ico 1 500, y i + 0.5 * y 500) := by
  have mid : ∑ i in Finset.range 499, trapezoidWeight (i + 1) * y (i + 1) * dx
      = (∑ i in Finset.range 499, y (1 + i)) * dx := by
    rw [Finset.sum_mul]
    apply Finset.sum_congr rfl
    intro i hi
    have hi' := Finset.mem_range.mp hi
    have hw : (trapezoidWeight (i + 1) : ℝ) = 1 := by
      unfold trapezoidWeight
      rw [if_neg]
      omega
    rw [hw, one_mul, add_comm]
  unfold trapezoidSum
  rw [Finset.sum_range_succ _ 500, Finset.sum_range_succ' _ 499, mid,
    Finset.sum_Ico_eq_sum_range]
  have w0 : (trapezoidWeight 0 : ℝ) = 0.5 := by simp [trapezoidWeight]
  have w500 : (trapezoidWeight 500 : ℝ) = 0.5 := by simp [trapezoidWeight]
  rw [w0, w500]
  ring

/-- The optical length of the ray straight up, in closed form. -/
theorem opticalLengthValue_up (atmosphere : AtmosphereParameters ℝ) (profile : DensityProfile ℝ)
    {r : ℝ} (hr0 : 0 ≤ r) (hr : r ≤ atmosphere.top_radius) :
    opticalLengthValue Real.sqrt Real.exp atmosphere profile r 1
      = trapezoidSum (fun i => profileDensityValue Real.exp profile
          ((r - atmosphere.bottom_radius) + (i : ℝ) * ((atmosphere.top_radius - r) / 500)))
        ((atmosphere.top_radius - r) / 500) := by
  unfold opticalLengthValue
  rw [distanceToTopValue_up atmosphere hr0 hr]
  congr 1
  funext i
  have hx : 0 ≤ (i : ℝ) * ((atmosphere.top_radius - r) / 500) :=
    mul_nonneg (Nat.cast_nonneg i) (div_nonneg (by linarith) (by norm_num))
  rw [sampleRadius_up hr0 hx]
  congr 1
  ring

end StraightUp

/-- C14: the straight-up ray.  For every atmosphere with `0 < bottom_radius ≤ r ≤ top_radius`
and every profile, `ComputeOpticalLengthToTopAtmosphereBoundary atmosphere profile r 1` equals
`dx * (0.5 * y_0 + y_1 + ... + y_499 + 0.5 * y_500)` with `dx = (top_radius - r) / 500` and
`y_i = GetProfileDensity profile ((r - bottom_radius) + i * dx)`; and for the driver's
atmosphere (`bottom_radius = 6360`, `top_radius = 6420`, Rayleigh layer `exp (-0.125 * h)`) at
`r = 6360` it equals
`0.12 * (0.5 + sum over i = 1..499 of exp (-0.015 * i) + 0.5 * exp (-7.5))`. -/
theorem straight_up_optical_length :
    (∀ (atmosphere : AtmosphereParameters ℝ) (profile : DensityProfile ℝ) (r : ℝ),
      0 < atmosphere.bottom_radius → atmosphere.bottom_radius ≤ r →
      r ≤ atmosphere.top_radius →
      ∃ y : ℕ → ℝ,
        (∀ i : ℕ, GetProfileDensity Real.exp profile
          ((r - atmosphere.bottom_radius) + (i : ℝ) * ((atmosphere.top_radius - r) / 500))
            = some (y i)) ∧
        ComputeOpticalLengthToTopAtmosphereBoundary Real.sqrt Real.exp atmosphere profile r 1
          = some ((atmosphere.top_radius - r) / 500
              * (0.5 * y 0 + ∑ i in Finset.Ico 1 500, y i + 0.5 * y 500))) ∧
    ComputeOpticalLengthToTopAtmosphereBoundary Real.sqrt Real.exp
        (ATMOSPHERE : AtmosphereParameters ℝ)
        (ATMOSPHERE : AtmosphereParameters ℝ).rayleigh_density 6360 1
      = some (0.12 * (0.5 + ∑ i in Finset.Ico (1 : ℕ) 500, Real.exp (-0.015 * (i : ℝ))
          + 0.5 * Real.exp (-7.5))) := by
  constructor
  · intro atmosphere profile r hb hr1 hr2
    have hr0 : 0 ≤ r := le_trans hb.le hr1
    refine ⟨_, fun i => GetProfileDensity_eq Real.exp profile _, ?_⟩
    rw [ComputeOpticalLengthToTopAtmosphereBoundary_eq Real.sqrt Real.exp atmosphere profile
      hr1 hr2 (by norm_num) le_rfl, opticalLengthValue_up atmosphere profile hr0 hr2,
      trapezoidSum_eq_ends]
  · have hb : (ATMOSPHERE : AtmosphereParameters ℝ).bottom_radius = 6360 := by
      norm_num [ATMOSPHERE]
    have ht : (ATMOSPHERE : AtmosphereParameters ℝ).top_radius = 6420 := by
      norm_num [ATMOSPHERE]
    have hy : ∀ i : ℕ, profileDensityValue Real.exp
        (ATMOSPHERE : AtmosphereParameters ℝ).rayleigh_density
        ((6360 - (ATMOSPHERE : AtmosphereParameters ℝ).bottom_radius)
          + (i : ℝ) * (((ATMOSPHERE : AtmosphereParameters ℝ).top_radius - 6360) / 500))
        = Real.exp (-0.015 * (i : ℝ)) := by
      intro i
      rw [hb, ht, ATMOSPHERE_rayleigh_density (by positivity)]
      congr 1
      ring
    rw [ComputeOpticalLengthToTopAtmosphereBoundary_eq Real.sqrt Real.exp ATMOSPHERE _
      (by rw [hb]) (by rw [ht]; norm_num) (by norm_num) le_rfl,
      opticalLengthValue_up ATMOSPHERE _ (by norm_num) (by rw [ht]; norm_num),
      trapezoidSum_eq_ends]
    simp only [hy]
    rw [ht]
    congr 1
    norm_num

/-! ## The half-texel correction -/

/-- C15: `GetUnitRangeFromTextureCoord` undoes the half-texel bias exactly.  For every
texture size `n ≥ 2` and every texel index `k` with `0 ≤ k < n`,
`GetUnitRangeFromTextureCoord ((k + 0.5) / n) n = k / (n - 1)`; the first texel centre maps
to 0 and the last texel centre maps to 1. -/
theorem unit_range_of_texel_centre (n k : ℤ) (hn : 2 ≤ n) (_hk0 : 0 ≤ k) (_hk : k < n) :
    GetUnitRangeFromTextureCoord (((k : ℝ) + 0.5) / (n : ℝ)) n = (k : ℝ) / ((n : ℝ) - 1) ∧
    GetUnitRangeFromTextureCoord (((0 : ℝ) + 0.5) / (n : ℝ)) n = 0 ∧
    GetUnitRangeFromTextureCoord ((((n : ℝ) - 1) + 0.5) / (n : ℝ)) n = 1 := by
  have h2 : (2 : ℝ) ≤ (n : ℝ) := by exact_mod_cast hn
  have h0 : (n : ℝ) ≠ 0 := by linarith
  have h1 : (n : ℝ) - 1 ≠ 0 := by linarith
  have hden : (1 : ℝ) - 1 / (n : ℝ) ≠ 0 := (unitRange_denominator_pos hn).ne'
  unfold GetUnitRangeFromTextureCoord
  refine ⟨?_, ?_, ?_⟩
  · rw [div_eq_div_iff hden h1]
    field_simp
  · rw [div_eq_zero_iff]
    left
    ring
  · rw [div_eq_one_iff_eq hden]
    field_simp

/-- C15, witness: texel 255 of 256, the last one. -/
theorem unit_range_of_texel_centre_witness :
    GetUnitRangeFromTextureCoord ((((255 : ℤ) : ℝ) + 0.5) / ((256 : ℤ) : ℝ)) 256
      = ((255 : ℤ) : ℝ) / (((256 : ℤ) : ℝ) - 1) ∧
    GetUnitRangeFromTextureCoord (((0 : ℝ) + 0.5) / ((256 : ℤ) : ℝ)) 256 = 0 ∧
    GetUnitRangeFromTextureCoord (((((256 : ℤ) : ℝ)) - 1 + 0.5) / ((256 : ℤ) : ℝ)) 256 = 1 :=
  unit_range_of_texel_centre 256 255 (by norm_num) (by norm_num) (by norm_num)

/-- C16 (as amended): for every texture size `n ≥ 2` and every normalized coordinate `u` in
`[0, 1]`, `GetUnitRangeFromTextureCoord u n = (u - 0.5 / n) / (1 - 1 / n)`; this value lies
in `[-0.5 / (n - 1), 1 + 0.5 / (n - 1)]`, and it lies in `[0, 1]` exactly when `u` lies in
`[0.5 / n, 1 - 0.5 / n]`, between the first and the last texel centre. -/
theorem unit_range_value_and_range (n : ℤ) (u : ℝ) (hn : 2 ≤ n) (hu0 : 0 ≤ u) (hu1 : u ≤ 1) :
    GetUnitRangeFromTextureCoord u n = (u - 0.5 / (n : ℝ)) / (1 - 1 / (n : ℝ)) ∧
    -0.5 / ((n : ℝ) - 1) ≤ GetUnitRangeFromTextureCoord u n ∧
    GetUnitRangeFromTextureCoord u n ≤ 1 + 0.5 / ((n : ℝ) - 1) ∧
    ((0 ≤ GetUnitRangeFromTextureCoord u n ∧ GetUnitRangeFromTextureCoord u n ≤ 1)
      ↔ (0.5 / (n : ℝ) ≤ u ∧ u ≤ 1 - 0.5 / (n : ℝ))) := by
  have h2 : (2 : ℝ) ≤ (n : ℝ) := by exact_mod_cast hn
  have h0 : (0 : ℝ) < (n : ℝ) := by linarith
  have h1 : (0 : ℝ) < (n : ℝ) - 1 := by linarith
  have hden := unitRange_denominator_pos hn
  have e : (1 : ℝ) - 1 / (n : ℝ) = ((n : ℝ) - 1) / (n : ℝ) := by
    field_simp
  have lo : -0.5 / ((n : ℝ) - 1) = (0 - 0.5 / (n : ℝ)) / (1 - 1 / (n : ℝ)) := by
    rw [e]
    field_simp
    ring
  have hi : 1 + 0.5 / ((n : ℝ) - 1) = (1 - 0.5 / (n : ℝ)) / (1 - 1 / (n : ℝ)) := by
    rw [e]
    field_simp
    ring
  refine ⟨rfl, ?_, ?_, ?_⟩
  · rw [lo]
    exact div_le_div_of_nonneg_right (by linarith) hden.le
  · rw [hi]
    exact div_le_div_of_nonneg_right (by linarith) hden.le
  · rw [unitRange_nonneg_iff hn, unitRange_le_one_iff hn]

/-- C16, witness: the centre of a row of 256 texels. -/
theorem unit_range_value_and_range_witness :
    GetUnitRangeFromTextureCoord (0.5 : ℝ) 256
        = (0.5 - 0.5 / ((256 : ℤ) : ℝ)) / (1 - 1 / ((256 : ℤ) : ℝ)) ∧
    -0.5 / (((256 : ℤ) : ℝ) - 1) ≤ GetUnitRangeFromTextureCoord (0.5 : ℝ) 256 ∧
    GetUnitRangeFromTextureCoord (0.5 : ℝ) 256 ≤ 1 + 0.5 / (((256 : ℤ) : ℝ) - 1) ∧
    ((0 ≤ GetUnitRangeFromTextureCoord (0.5 : ℝ) 256
        ∧ GetUnitRangeFromTextureCoord (0.5 : ℝ) 256 ≤ 1)
      ↔ (0.5 / ((256 : ℤ) : ℝ) ≤ (0.5 : ℝ) ∧ (0.5 : ℝ) ≤ 1 - 0.5 / ((256 : ℤ) : ℝ))) :=
  unit_range_value_and_range 256 0.5 (by norm_num) (by norm_num) (by norm_num)

/-- C16, counterexample: for a texture of size 2 the coordinate `u = 0` of the unit interval
is mapped to `-1 / 2`, outside `[0, 1]`. -/
theorem unit_range_negative_at_zero :
    (2 : ℤ) ≤ 2 ∧ (0 : ℝ) ≤ 0 ∧ (0 : ℝ) ≤ 1 ∧
      GetUnitRangeFromTextureCoord (0 : ℝ) 2 = -1 / 2 ∧
      ¬ (0 ≤ GetUnitRangeFromTextureCoord (0 : ℝ) 2 ∧ GetUnitRangeFromTextureCoord (0 : ℝ) 2 ≤ 1)
    := by
  have e : GetUnitRangeFromTextureCoord (0 : ℝ) 2 = -1 / 2 := by
    norm_num [GetUnitRangeFromTextureCoord]
  refine ⟨le_rfl, le_rfl, zero_le_one, e, ?_⟩
  rw [e]
  norm_num

/-! ## The buffer of the driver -/

section Buffer

theorem pixelIndex_lt {W H i j : ℕ} (hi : i < H) (hj : j < W) : pixelIndex W i j < W * H := by
  unfold pixelIndex
  have h1 : (i + 1) * W ≤ H * W := Nat.mul_le_mul_right W hi
  have h2 : (i + 1) * W = i * W + W := Nat.succ_mul i W
  have h3 : H * W = W * H := Nat.mul_comm H W
  omega

theorem pixelIndex_inj {W i j i' j' : ℕ} (hj : j < W) (hj' : j' < W)
    (h : pixelIndex W i j = pixelIndex W i' j') : i = i' ∧ j = j' := by
  unfold pixelIndex at h
  have hW : 0 < W := by omega
  have hi : i = i' := by
    have e1 : (j + i * W) / W = i := by
      rw [Nat.add_mul_div_right _ _ hW, Nat.div_eq_of_lt hj, Nat.zero_add]
    have e2 : (j' + i' * W) / W = i' := by
      rw [Nat.add_mul_div_right _ _ hW, Nat.div_eq_of_lt hj', Nat.zero_add]
    rw [← e1, ← e2, Nat.add_comm j, Nat.add_comm j', h]
  subst hi
  exact ⟨rfl, by omega⟩

/-- The slots written for the texels `b, ..., b + n - 1` are the `3 * n` slots from
`3 * b` on, in order. -/
theorem row_slots (b n : ℕ) :
    ((List.range n).flatMap fun j =>
      [(b + j) * 3 + 0, (b + j) * 3 + 1, (b + j) * 3 + 2]) = List.range' (b * 3) (n * 3) := by
  induction n with
  | zero => simp
  | succ n ih =>
    rw [List.range_succ, List.flatMap_append, ih, List.flatMap_singleton,
      show (n + 1) * 3 = 3 + n * 3 by ring, ← List.range'_append_1]
    congr 1
    have : (b + n) * 3 = b * 3 + n * 3 := by ring
    simp [List.range', this]

theorem rows_slots (W H : ℕ) :
    ((List.range H).flatMap fun i => List.range' (i * W * 3) (W * 3))
      = List.range' 0 (W * H * 3) := by
  induction H with
  | zero => simp
  | succ H ih =>
    rw [List.range_succ, List.flatMap_append, ih, List.flatMap_singleton,
      show W * (H + 1) * 3 = W * 3 + W * H * 3 by ring, ← List.range'_append_1]
    congr 2
    ring

/-- The two nested loops of `main` write the slots `0, ..., W * H * 3 - 1`, each once, in
increasing order. -/
theorem writtenSlots_eq (W H : ℕ) : writtenSlots W H = List.range (W * H * 3) := by
  have inner : ∀ i, ((List.range W).flatMap fun j =>
      [dataIndex W i j 0, dataIndex W i j 1, dataIndex W i j 2])
      = List.range' (i * W * 3) (W * 3) := by
    intro i
    exact row_slots (i * W) W
  unfold writtenSlots
  simp only [inner]
  rw [rows_slots, List.range_eq_range']

end Buffer

/-- C17: the driver's buffer indexing partitions the buffer exactly.  For every width
`W ≥ 1` and height `H ≥ 1` the map `(i, j, c) ↦ (i * W + j) * 3 + c` sends
`{0..H-1} × {0..W-1} × {0, 1, 2}` into `{0, ..., W * H * 3 - 1}` (every write is in bounds),
is injective there (no two writes share a slot) and reaches every slot; the loops of `main`
write the slots `0, ..., W * H * 3 - 1` in this order. -/
theorem data_index_partitions_buffer (W H : ℕ) (hW : 1 ≤ W) (_hH : 1 ≤ H) :
    (∀ i j c : ℕ, i < H → j < W → c < 3 → dataIndex W i j c < W * H * 3) ∧
    (∀ i j c i' j' c' : ℕ, i < H → j < W → c < 3 → i' < H → j' < W → c' < 3 →
      dataIndex W i j c = dataIndex W i' j' c' → i = i' ∧ j = j' ∧ c = c') ∧
    (∀ s : ℕ, s < W * H * 3 →
      ∃ i j c : ℕ, i < H ∧ j < W ∧ c < 3 ∧ dataIndex W i j c = s) ∧
    writtenSlots W H = List.range (W * H * 3) := by
  refine ⟨?_, ?_, ?_, writtenSlots_eq W H⟩
  · intro i j c hi hj hc
    have := pixelIndex_lt hi hj
    unfold dataIndex
    omega
  · intro i j c i' j' c' _ hj hc _ hj' hc' h
    unfold dataIndex at h
    have hp : pixelIndex W i j = pixelIndex W i' j' := by omega
    have hcc : c = c' := by omega
    obtain ⟨h1, h2⟩ := pixelIndex_inj hj hj' hp
    exact ⟨h1, h2, hcc⟩
  · intro s hs
    have hW0 : 0 < W := hW
    have hp : s / 3 < W * H := by
      apply Nat.div_lt_of_lt_mul
      omega
    refine ⟨s / 3 / W, s / 3 % W, s % 3, Nat.div_lt_of_lt_mul hp, Nat.mod_lt _ hW0,
      Nat.mod_lt _ (by norm_num), ?_⟩
    unfold dataIndex pixelIndex
    have e1 := Nat.div_add_mod (s / 3) W
    have e2 := Nat.div_add_mod s 3
    have e3 : s / 3 / W * W = W * (s / 3 / W) := Nat.mul_comm _ _
    omega

/-- C17, witness: a texture of 256 x 64 texels. -/
theorem data_index_partitions_buffer_witness :
    (∀ i j c : ℕ, i < 64 → j < 256 → c < 3 → dataIndex 256 i j c < 256 * 64 * 3) ∧
    (∀ i j c i' j' c' : ℕ, i < 64 → j < 256 → c < 3 → i' < 64 → j' < 256 → c' < 3 →
      dataIndex 256 i j c = dataIndex 256 i' j' c' → i = i' ∧ j = j' ∧ c = c') ∧
    (∀ s : ℕ, s < 256 * 64 * 3 →
      ∃ i j c : ℕ, i < 64 ∧ j < 256 ∧ c < 3 ∧ dataIndex 256 i j c = s) ∧
    writtenSlots 256 64 = List.range (256 * 64 * 3) :=
  data_index_partitions_buffer 256 64 (by norm_num) (by norm_num)

/-! ## The parameter derivation helper -/

section ModelHelper

variable {α : Type} [LinearOrderedField α]

theorem padLayers_of_le {layers : List (DensityProfileLayer α)} (h : 2 ≤ layers.length) :
    padLayers layers = layers := by
  rw [padLayers, if_neg]
  simp only [kLayerCount]
  omega

theorem padLayers_of_lt {layers : List (DensityProfileLayer α)} (h : layers.length < 2) :
    padLayers layers = padLayers (DensityProfileLayer.zero :: layers) := by
  rw [padLayers, if_pos]
  simpa only [kLayerCount] using h

theorem density_profile_of_pair (length_unit_in_meters : α)
    (layers : List (DensityProfileLayer α)) (a b : DensityProfileLayer α)
    (h : padLayers layers = [a, b]) :
    density_profile length_unit_in_meters layers
      = some [density_layer length_unit_in_meters a, density_layer length_unit_in_meters b] := by
  unfold density_profile
  simp only [h]
  rfl

end ModelHelper

/-- C18: the lambda `density_profile` of `Model` always emits exactly 2 layers.  For every
input list of 0, 1 or 2 layers, the layers it formats are the input layers, in their order,
preceded by as many all-zero layers (`width = exp_term = exp_scale = linear_term =
constant_term = 0`) as are missing; there are exactly 2 of them, and the output is
`density_layer` of each. -/
theorem density_profile_emits_two_layers (length_unit_in_meters : ℝ)
    (layers : List (DensityProfileLayer ℝ)) (hlen : layers.length ≤ 2) :
    padLayers layers
      = List.replicate (2 - layers.length) (DensityProfileLayer.zero) ++ layers ∧
    (padLayers layers).length = 2 ∧
    density_profile length_unit_in_meters layers
      = some ((padLayers layers).map (density_layer length_unit_in_meters)) ∧
    (∀ emitted : List (List ℝ),
      density_profile length_unit_in_meters layers = some emitted → emitted.length = 2) ∧
    (DensityProfileLayer.zero : DensityProfileLayer ℝ) = ⟨0, 0, 0, 0, 0⟩ := by
  have key : ∃ a b : DensityProfileLayer ℝ, padLayers layers = [a, b]
      ∧ [a, b] = List.replicate (2 - layers.length) (DensityProfileLayer.zero) ++ layers := by
    match layers, hlen with
    | [], _ =>
      refine ⟨DensityProfileLayer.zero, DensityProfileLayer.zero, ?_, rfl⟩
      rw [padLayers_of_lt (by simp), padLayers_of_lt (by simp), padLayers_of_le (by simp)]
    | [a], _ =>
      refine ⟨DensityProfileLayer.zero, a, ?_, rfl⟩
      rw [padLayers_of_lt (by simp), padLayers_of_le (by simp)]
    | [a, b], _ =>
      exact ⟨a, b, padLayers_of_le (by simp), rfl⟩
    | _ :: _ :: _ :: _, h =>
      simp only [List.length_cons] at h
      omega
  obtain ⟨a, b, hp, hab⟩ := key
  have hd := density_profile_of_pair length_unit_in_meters layers a b hp
  refine ⟨by rw [hp, hab], by rw [hp]; rfl, by rw [hd, hp]; rfl, ?_, rfl⟩
  intro emitted he
  rw [hd, Option.some.injEq] at he
  rw [← he]
  rfl

/-- C18, witness: the single Rayleigh layer that `InitModel` passes. -/
theorem density_profile_emits_two_layers_witness :
    padLayers [(⟨0, 1, -1 / 8000, 0, 0⟩ : DensityProfileLayer ℝ)]
      = List.replicate (2 - [(⟨0, 1, -1 / 8000, 0, 0⟩ : DensityProfileLayer ℝ)].length)
          (DensityProfileLayer.zero) ++ [(⟨0, 1, -1 / 8000, 0, 0⟩ : DensityProfileLayer ℝ)] ∧
    (padLayers [(⟨0, 1, -1 / 8000, 0, 0⟩ : DensityProfileLayer ℝ)]).length = 2 ∧
    density_profile (1000 : ℝ) [(⟨0, 1, -1 / 8000, 0, 0⟩ : DensityProfileLayer ℝ)]
      = some ((padLayers [(⟨0, 1, -1 / 8000, 0, 0⟩ : DensityProfileLayer ℝ)]).map
          (density_layer 1000)) ∧
    (∀ emitted : List (List ℝ),
      density_profile (1000 : ℝ) [(⟨0, 1, -1 / 8000, 0, 0⟩ : DensityProfileLayer ℝ)]
        = some emitted → emitted.length = 2) ∧
    (DensityProfileLayer.zero : DensityProfileLayer ℝ) = ⟨0, 0, 0, 0, 0⟩ :=
  density_profile_emits_two_layers 1000 [⟨0, 1, -1 / 8000, 0, 0⟩] (by simp)

/-! ## Single-layer profiles -/

section SingleLayer

theorem ATMOSPHERE_distance_down :
    distanceToTopValue Real.sqrt (ATMOSPHERE : AtmosphereParameters ℝ) 6360 (-1) = 12780 :=
  distanceToTopValue_of_root ATMOSPHERE (by norm_num) (by norm_num [ATMOSPHERE])
    (by norm_num [ATMOSPHERE]) (by norm_num)

theorem sampleRadius_down {r x : ℝ} (hx : x ≤ r) :
    sampleRadius Real.sqrt r (-1) x = r - x := by
  unfold sampleRadius
  have e : x * x + 2 * r * (-1) * x + r * r = (r - x) ^ 2 := by ring
  rw [e, Real.sqrt_sq (by linarith)]

theorem GetProfileDensity_of_width_le {α : Type} [LinearOrderedField α] (exp : α → α)
    (profile : DensityProfile α) {h : α} (hh : (profile.layers 0).width ≤ h) :
    GetProfileDensity exp profile h = GetLayerDensity exp (profile.layers 1) h := by
  unfold GetProfileDensity
  rw [if_neg (not_lt.mpr hh)]

end SingleLayer

/-- C19, the code at the failing input.  From the width of `layers[0]` up, `GetProfileDensity`
is `GetLayerDensity` of `layers[1]`; below it, it is not.  The Rayleigh profile of the driver
has `layers[0].width = 0`; at altitude `-1` `GetProfileDensity` returns the density 0 of
`layers[0]`, whereas `GetLayerDensity` of `layers[1]` is 1.  Negative altitudes are reached:
the sample `i = 1` of the optical length from `r = 6360` straight down (`mu = -1`) has
altitude `-25.56`. -/
theorem single_layer_profile_below_ground :
    (∀ (profile : DensityProfile ℝ) (h : ℝ), (profile.layers 0).width ≤ h →
      GetProfileDensity Real.exp profile h
        = GetLayerDensity Real.exp (profile.layers 1) h) ∧
    ((ATMOSPHERE : AtmosphereParameters ℝ).rayleigh_density.layers 0).width = 0 ∧
    GetProfileDensity Real.exp (ATMOSPHERE : AtmosphereParameters ℝ).rayleigh_density (-1)
      = some 0 ∧
    GetLayerDensity Real.exp ((ATMOSPHERE : AtmosphereParameters ℝ).rayleigh_density.layers 1)
      (-1) = some 1 ∧
    (∃ d : ℝ, DistanceToTopAtmosphereBoundary Real.sqrt
        (ATMOSPHERE : AtmosphereParameters ℝ) 6360 (-1) = some d ∧
      Real.sqrt (((1 : ℕ) : ℝ) * (d / 500) * (((1 : ℕ) : ℝ) * (d / 500))
          + 2 * 6360 * (-1) * (((1 : ℕ) : ℝ) * (d / 500)) + 6360 * 6360)
        - (ATMOSPHERE : AtmosphereParameters ℝ).bottom_radius = -25.56) := by
  have w0 : ((ATMOSPHERE : AtmosphereParameters ℝ).rayleigh_density.layers 0).width = 0 := by
    norm_num [ATMOSPHERE]
  refine ⟨fun profile h hh => GetProfileDensity_of_width_le Real.exp profile hh, w0, ?_, ?_,
    _, DistanceToTopAtmosphereBoundary_eq Real.sqrt ATMOSPHERE (by norm_num [ATMOSPHERE])
      le_rfl (by norm_num), ?_⟩
  · have hlt : (-1 : ℝ) < 0 := by norm_num
    have h10 : ¬ ((1 : ℝ) < 0) := by norm_num
    rw [GetProfileDensity_eq]
    unfold profileDensityValue
    rw [w0, if_pos hlt]
    norm_num [layerDensityValue, clampValue, ATMOSPHERE, h10]
  · have hgt : (1 : ℝ) < Real.exp (-0.125 * (-1)) := by
      rw [Real.one_lt_exp_iff]
      norm_num
    rw [GetLayerDensity_eq]
    have a1 : ((ATMOSPHERE : AtmosphereParameters ℝ).rayleigh_density.layers 1).exp_term
        = 1 := by
      norm_num [ATMOSPHERE]
    have s1 : ((ATMOSPHERE : AtmosphereParameters ℝ).rayleigh_density.layers 1).exp_scale
        = -0.125 := by
      norm_num [ATMOSPHERE]
    have l1 : ((ATMOSPHERE : AtmosphereParameters ℝ).rayleigh_density.layers 1).linear_term
        = 0 := by
      norm_num [ATMOSPHERE]
    have c1 : ((ATMOSPHERE : AtmosphereParameters ℝ).rayleigh_density.layers 1).constant_term
        = 0 := by
      norm_num [ATMOSPHERE]
    unfold layerDensityValue clampValue
    rw [a1, s1, l1, c1, one_mul, zero_mul, add_zero, add_zero, if_neg (by linarith),
      if_pos hgt]
  · have hb : (ATMOSPHERE : AtmosphereParameters ℝ).bottom_radius = 6360 := by
      norm_num [ATMOSPHERE]
    have hs := sampleRadius_down (r := 6360) (x := ((1 : ℕ) : ℝ) * (12780 / 500))
      (by norm_num)
    unfold sampleRadius at hs
    rw [ATMOSPHERE_distance_down, hs, hb]
    norm_num

/-! ## Interpolation in the spectral tables -/

section Interpolation

variable {α : Type} [LinearOrderedField α]

theorem getElem?_eq_some_getD (l : List α) {i : ℕ} (h : i < l.length) :
    l[i]? = some (l.getD i 0) := by
  rw [List.getElem?_eq_getElem h, List.getD_eq_getElem l 0 h]

theorem loop_found (wl f : List α) (w : α) (hlen : f.length = wl.length) (i : ℕ)
    (hi : i + 1 < wl.length) (hfound : w < wl.getD (i + 1) 0) :
    ∀ (len s : ℕ), s ≤ i → i < s + len →
      (∀ k, s ≤ k → k < i → ¬ w < wl.getD (k + 1) 0) →
      Interpolate.loop wl f w (List.range' s len) = some (segmentValue wl f w i) := by
  intro len
  induction len with
  | zero => intro s h1 h2; omega
  | succ len ih =>
    intro s h1 h2 hskip
    rw [List.range'_succ, Interpolate.loop]
    have hs1 : s + 1 < wl.length := by omega
    rw [getElem?_eq_some_getD wl hs1]
    by_cases hsi : s = i
    · subst hsi
      simp only [Option.some_bind, Option.bind_eq_bind, if_pos hfound]
      rw [getElem?_eq_some_getD wl (by omega), getElem?_eq_some_getD f (by omega),
        getElem?_eq_some_getD f (by omega)]
      rfl
    · have hlt : s < i := by omega
      simp only [Option.some_bind, Option.bind_eq_bind, if_neg (hskip s le_rfl hlt)]
      exact ih (s + 1) (by omega) (by omega) (fun k hk1 hk2 => hskip k (by omega) hk2)

theorem loop_exhausted (wl f : List α) (w : α) :
    ∀ (len s : ℕ), s + len < wl.length →
      (∀ k, s ≤ k → k < s + len → ¬ w < wl.getD (k + 1) 0) →
      Interpolate.loop wl f w (List.range' s len) = f[f.length - 1]? := by
  intro len
  induction len with
  | zero => intro s _ _; rfl
  | succ len ih =>
    intro s h1 hskip
    rw [List.range'_succ, Interpolate.loop, getElem?_eq_some_getD wl (by omega)]
    simp only [Option.some_bind, Option.bind_eq_bind, if_neg (hskip s le_rfl (by omega))]
    exact ih (s + 1) (by omega) (fun k hk1 hk2 => hskip k (by omega) (by omega))

theorem getD_lt_of_pairwise {wl : List α} (hinc : wl.Pairwise (· < ·)) {a b : ℕ}
    (hab : a < b) (hb : b < wl.length) : wl.getD a 0 < wl.getD b 0 := by
  rw [List.getD_eq_getElem wl 0 (by omega), List.getD_eq_getElem wl 0 hb]
  exact List.pairwise_iff_getElem.mp hinc a b (by omega) hb hab

theorem getD_le_of_pairwise {wl : List α} (hinc : wl.Pairwise (· < ·)) {a b : ℕ}
    (hab : a ≤ b) (hb : b < wl.length) : wl.getD a 0 ≤ wl.getD b 0 := by
  rcases Nat.eq_or_lt_of_le hab with h | h
  · rw [h]
  · exact (getD_lt_of_pairwise hinc h hb).le

end Interpolation

/-- C20: `Interpolate` is the end-clamped piecewise-linear interpolant of the table.  For
every non-empty strictly increasing list `wavelengths` of length `n` and every list `f` of the
same length, `Interpolate wavelengths f w` returns `f[0]` when `w < wavelengths[0]`,
`f[n - 1]` when `w ≥ wavelengths[n - 1]`, and `f[i] * (1 - u) + f[i + 1] * u` with
`u = (w - wavelengths[i]) / (wavelengths[i + 1] - wavelengths[i])` when
`wavelengths[i] ≤ w < wavelengths[i + 1]`; in particular
`Interpolate wavelengths f wavelengths[k] = f[k]` for every index `k`. -/
theorem interpolate_is_piecewise_linear (wavelengths f : List ℝ) (w : ℝ)
    (hne : wavelengths ≠ []) (hlen : f.length = wavelengths.length)
    (hinc : wavelengths.Pairwise (· < ·)) :
    (w < wavelengths.getD 0 0 → Interpolate wavelengths f w = some (f.getD 0 0)) ∧
    (wavelengths.getD (wavelengths.length - 1) 0 ≤ w →
      Interpolate wavelengths f w = some (f.getD (wavelengths.length - 1) 0)) ∧
    (∀ i : ℕ, i + 1 < wavelengths.length →
      wavelengths.getD i 0 ≤ w → w < wavelengths.getD (i + 1) 0 →
      Interpolate wavelengths f w
        = some (f.getD i 0
              * (1 - (w - wavelengths.getD i 0)
                  / (wavelengths.getD (i + 1) 0 - wavelengths.getD i 0))
            + f.getD (i + 1) 0
              * ((w - wavelengths.getD i 0)
                  / (wavelengths.getD (i + 1) 0 - wavelengths.getD i 0)))) ∧
    (∀ k : ℕ, k < wavelengths.length →
      Interpolate wavelengths f (wavelengths.getD k 0) = some (f.getD k 0)) := by
  have hpos : 0 < wavelengths.length := List.length_pos.mpr hne
  have hstart : ∀ x : ℝ, Interpolate wavelengths f x
      = if x < wavelengths.getD 0 0 then f[0]?
        else Interpolate.loop wavelengths f x (List.range' 0 (wavelengths.length - 1)) := by
    intro x
    rw [Interpolate, cassert_pos hlen, getElem?_eq_some_getD wavelengths hpos,
      List.range_eq_range']
    rfl
  have part2 : ∀ x : ℝ, wavelengths.getD (wavelengths.length - 1) 0 ≤ x →
      Interpolate wavelengths f x = some (f.getD (wavelengths.length - 1) 0) := by
    intro x hx
    have h0 : wavelengths.getD 0 0 ≤ x :=
      le_trans (getD_le_of_pairwise hinc (Nat.zero_le _) (by omega)) hx
    rw [hstart, if_neg (not_lt.mpr h0),
      loop_exhausted wavelengths f x (wavelengths.length - 1) 0 (by omega)
        (fun k _ hk => not_lt.mpr
          (le_trans (getD_le_of_pairwise hinc (by omega) (by omega)) hx)),
      hlen, getElem?_eq_some_getD f (by omega)]
  have part3 : ∀ (x : ℝ) (i : ℕ), i + 1 < wavelengths.length →
      wavelengths.getD i 0 ≤ x → x < wavelengths.getD (i + 1) 0 →
      Interpolate wavelengths f x = some (segmentValue wavelengths f x i) := by
    intro x i hi hlo hhi
    have h0 : wavelengths.getD 0 0 ≤ x :=
      le_trans (getD_le_of_pairwise hinc (Nat.zero_le _) (by omega)) hlo
    rw [hstart, if_neg (not_lt.mpr h0)]
    exact loop_found wavelengths f x hlen i hi hhi (wavelengths.length - 1) 0 (Nat.zero_le _)
      (by omega) (fun k _ hk => not_lt.mpr
        (le_trans (getD_le_of_pairwise hinc (by omega) (by omega)) hlo))
  refine ⟨fun h => ?_, part2 w, fun i hi hlo hhi => part3 w i hi hlo hhi, fun k hk => ?_⟩
  · rw [hstart, if_pos h, getElem?_eq_some_getD f (by omega)]
  · by_cases hlast : k = wavelengths.length - 1
    · rw [hlast]
      exact part2 _ le_rfl
    · rw [part3 _ k (by omega) le_rfl (getD_lt_of_pairwise hinc (Nat.lt_succ_self k) (by omega))]
      unfold segmentValue
      simp

/-- C20, witness: a table of three wavelengths, read at 365 between the first two. -/
theorem interpolate_is_piecewise_linear_witness :
    ((365 : ℝ) < ([360, 370, 380] : List ℝ).getD 0 0 →
      Interpolate [360, 370, 380] [1, 2, 4] (365 : ℝ) = some (([1, 2, 4] : List ℝ).getD 0 0)) ∧
    (([360, 370, 380] : List ℝ).getD (([360, 370, 380] : List ℝ).length - 1) 0 ≤ 365 →
      Interpolate [360, 370, 380] [1, 2, 4] (365 : ℝ)
        = some (([1, 2, 4] : List ℝ).getD (([360, 370, 380] : List ℝ).length - 1) 0)) ∧
    (∀ i : ℕ, i + 1 < ([360, 370, 380] : List ℝ).length →
      ([360, 370, 380] : List ℝ).getD i 0 ≤ 365 →
      (365 : ℝ) < ([360, 370, 380] : List ℝ).getD (i + 1) 0 →
      Interpolate [360, 370, 380] [1, 2, 4] (365 : ℝ)
        = some (([1, 2, 4] : List ℝ).getD i 0
              * (1 - (365 - ([360, 370, 380] : List ℝ).getD i 0)
                  / (([360, 370, 380] : List ℝ).getD (i + 1) 0
                    - ([360, 370, 380] : List ℝ).getD i 0))
            + ([1, 2, 4] : List ℝ).getD (i + 1) 0
              * ((365 - ([360, 370, 380] : List ℝ).getD i 0)
                  / (([360, 370, 380] : List ℝ).getD (i + 1) 0
                    - ([360, 370, 380] : List ℝ).getD i 0)))) ∧
    (∀ k : ℕ, k < ([360, 370, 380] : List ℝ).length →
      Interpolate [360, 370, 380] [1, 2, 4] (([360, 370, 380] : List ℝ).getD k 0)
        = some (([1, 2, 4] : List ℝ).getD k 0)) :=
  interpolate_is_piecewise_linear [360, 370, 380] [1, 2, 4] 365 (by simp) (by simp)
    (by norm_num [List.pairwise_cons])

/-! ## Subtraction of 2D vectors -/

/-- C21, the code at the failing input.  `Vec2::operator-` subtracts `b.x` from both
components: `(0, 0) - (1, 2)` is `(-1, -1)`, not `(-1, -2)`, and differs from
`(0, 0) + (-(1, 2))`, which the sibling operators compute componentwise.  In general
`(a - b).x = a.x - b.x` and `(a - b).y = a.y - b.x`. -/
theorem vec2_sub_uses_x_twice :
    Vec2.sub (⟨0, 0⟩ : Vec2 ℝ) ⟨1, 2⟩ = ⟨-1, -1⟩ ∧
    (Vec2.sub (⟨0, 0⟩ : Vec2 ℝ) ⟨1, 2⟩).y ≠ 0 - 2 ∧
    Vec2.subAssign (⟨0, 0⟩ : Vec2 ℝ) ⟨1, 2⟩ = ⟨-1, -1⟩ ∧
    Vec2.add (⟨0, 0⟩ : Vec2 ℝ) (Vec2.neg ⟨1, 2⟩) = ⟨-1, -2⟩ ∧
    (∀ a b : Vec2 ℝ, (a.sub b).x = a.x - b.x ∧ (a.sub b).y = a.y - b.x) := by
  refine ⟨?_, ?_, ?_, ?_, fun a b => ⟨rfl, rfl⟩⟩
  · simp [Vec2.sub, Vec2.subAssign]
  · simp only [Vec2.sub, Vec2.subAssign]
    norm_num
  · simp [Vec2.subAssign]
  · simp [Vec2.add, Vec2.addAssign, Vec2.neg]

/-! ## The ozone profile of `InitModel` -/

section Ozone

theorem clampValue_of_le_lo {α : Type} [LinearOrderedField α] {x lo hi : α} (h : x ≤ lo)
    (hlh : lo ≤ hi) : clampValue x lo hi = lo := by
  unfold clampValue
  split_ifs <;> linarith

theorem ozoneProfile_value (h : ℝ) :
    profileDensityValue Real.exp (ozoneProfile : DensityProfile ℝ) h
      = if h < 25000 then clampValue ((h - 10000) / 15000) 0 1
        else clampValue ((40000 - h) / 15000) 0 1 := by
  have e0 : (1.0 / 15000.0 : ℝ) * h + -2.0 / 3.0 = (h - 10000) / 15000 := by
    norm_num
    ring
  have e1 : (-1.0 / 15000.0 : ℝ) * h + 8.0 / 3.0 = (40000 - h) / 15000 := by
    norm_num
    ring
  have w : (25000.0 : ℝ) = 25000 := by norm_num
  have z : (0.0 : ℝ) = 0 := by norm_num
  simp only [profileDensityValue, layerDensityValue, ozoneProfile, Matrix.cons_val_zero,
    Matrix.cons_val_one, Matrix.head_cons, z, zero_mul, zero_add, e0, e1, w]

end Ozone

/-- C22: the ozone profile of `InitModel` is the documented triangle.  With
`layers[0] = {25000, 0, 0, 1 / 15000, -2 / 3}` and `layers[1] = {0, 0, 0, -1 / 15000, 8 / 3}`,
`GetProfileDensity` returns 0 for `h ≤ 10000`, `(h - 10000) / 15000` for
`10000 ≤ h ≤ 25000`, `(40000 - h) / 15000` for `25000 ≤ h ≤ 40000` and 0 for `h ≥ 40000`:
it rises linearly from 0 to 1 between 10 km and 25 km and falls linearly from 1 to 0 between
25 km and 40 km. -/
theorem ozone_profile_is_triangle :
    (ozone_density : List (DensityProfileLayer ℝ))
      = [⟨25000, 0, 0, 1 / 15000, -2 / 3⟩, ⟨0, 0, 0, -1 / 15000, 8 / 3⟩] ∧
    (∀ i : Fin 2, (ozone_density : List (DensityProfileLayer ℝ))[i.val]?
      = some ((ozoneProfile : DensityProfile ℝ).layers i)) ∧
    (∀ h : ℝ, h ≤ 10000 → GetProfileDensity Real.exp ozoneProfile h = some 0) ∧
    (∀ h : ℝ, 10000 ≤ h → h ≤ 25000 →
      GetProfileDensity Real.exp ozoneProfile h = some ((h - 10000) / 15000)) ∧
    (∀ h : ℝ, 25000 ≤ h → h ≤ 40000 →
      GetProfileDensity Real.exp ozoneProfile h = some ((40000 - h) / 15000)) ∧
    (∀ h : ℝ, 40000 ≤ h → GetProfileDensity Real.exp ozoneProfile h = some 0) ∧
    GetProfileDensity Real.exp (ozoneProfile : DensityProfile ℝ) 10000 = some 0 ∧
    GetProfileDensity Real.exp (ozoneProfile : DensityProfile ℝ) 25000 = some 1 ∧
    GetProfileDensity Real.exp (ozoneProfile : DensityProfile ℝ) 40000 = some 0 := by
  have c1 : ∀ h : ℝ, h ≤ 10000 → GetProfileDensity Real.exp ozoneProfile h = some 0 := by
    intro h hh
    rw [GetProfileDensity_eq, ozoneProfile_value, if_pos (by linarith),
      clampValue_of_le_lo (div_nonpos_of_nonpos_of_nonneg (by linarith) (by norm_num))
        zero_le_one]
  have c2 : ∀ h : ℝ, 10000 ≤ h → h ≤ 25000 →
      GetProfileDensity Real.exp ozoneProfile h = some ((h - 10000) / 15000) := by
    intro h h1 h2
    rw [GetProfileDensity_eq, ozoneProfile_value]
    by_cases hlt : h < 25000
    · rw [if_pos hlt, clampValue_of_mem (div_nonneg (by linarith) (by norm_num))
        ((div_le_one (by norm_num)).mpr (by linarith))]
    · have he : h = 25000 := le_antisymm h2 (not_lt.mp hlt)
      rw [if_neg hlt, he]
      norm_num [clampValue]
  have c3 : ∀ h : ℝ, 25000 ≤ h → h ≤ 40000 →
      GetProfileDensity Real.exp ozoneProfile h = some ((40000 - h) / 15000) := by
    intro h h1 h2
    rw [GetProfileDensity_eq, ozoneProfile_value, if_neg (not_lt.mpr h1),
      clampValue_of_mem (div_nonneg (by linarith) (by norm_num))
        ((div_le_one (by norm_num)).mpr (by linarith))]
  have c4 : ∀ h : ℝ, 40000 ≤ h → GetProfileDensity Real.exp ozoneProfile h = some 0 := by
    intro h hh
    rw [GetProfileDensity_eq, ozoneProfile_value, if_neg (not_lt.mpr (by linarith)),
      clampValue_of_le_lo (div_nonpos_of_nonpos_of_nonneg (by linarith) (by norm_num))
        zero_le_one]
  refine ⟨?_, ?_, c1, c2, c3, c4, c1 _ le_rfl, ?_, c4 _ le_rfl⟩
  · norm_num [ozone_density]
  · intro i
    fin_cases i <;> simp [ozone_density, ozoneProfile]
  · rw [c2 25000 (by norm_num) le_rfl]
    norm_num

/-! ## Slant path length and optical length -/

/-- C23: the slant path length does not shrink as the ray tilts down.  For every atmosphere
and `r` with `0 ≤ r ≤ top_radius`, and every `mu₁ ≤ mu₂` in `[-1, 1]`,
`DistanceToTopAtmosphereBoundary atmosphere r mu₁ ≥
DistanceToTopAtmosphereBoundary atmosphere r mu₂`. -/
theorem distance_to_top_antitone_in_mu (atmosphere : AtmosphereParameters ℝ) (r mu₁ mu₂ : ℝ)
    (hr0 : 0 ≤ r) (hr : r ≤ atmosphere.top_radius) (h1 : -1 ≤ mu₁) (h12 : mu₁ ≤ mu₂)
    (h2 : mu₂ ≤ 1) :
    ∃ d₁ d₂ : ℝ,
      DistanceToTopAtmosphereBoundary Real.sqrt atmosphere r mu₁ = some d₁ ∧
      DistanceToTopAtmosphereBoundary Real.sqrt atmosphere r mu₂ = some d₂ ∧
      d₁ ≥ d₂ :=
  ⟨_, _, DistanceToTopAtmosphereBoundary_eq Real.sqrt atmosphere hr h1 (le_trans h12 h2),
    DistanceToTopAtmosphereBoundary_eq Real.sqrt atmosphere hr (le_trans h1 h12) h2,
    distanceToTopValue_antitone atmosphere hr0 hr h12⟩

/-- C23, witness: the driver's atmosphere at the ground, the horizontal ray and the ray
straight up. -/
theorem distance_to_top_antitone_in_mu_witness :
    ∃ d₁ d₂ : ℝ,
      DistanceToTopAtmosphereBoundary Real.sqrt (ATMOSPHERE : AtmosphereParameters ℝ) 6360 0
        = some d₁ ∧
      DistanceToTopAtmosphereBoundary Real.sqrt (ATMOSPHERE : AtmosphereParameters ℝ) 6360 1
        = some d₂ ∧
      d₁ ≥ d₂ :=
  distance_to_top_antitone_in_mu ATMOSPHERE 6360 0 1 (by norm_num) (by norm_num [ATMOSPHERE])
    (by norm_num) (by norm_num) (by norm_num)

theorem opticalLengthValue_le_distance (atmosphere : AtmosphereParameters ℝ)
    (profile : DensityProfile ℝ) (r mu : ℝ) :
    opticalLengthValue Real.sqrt Real.exp atmosphere profile r mu
      ≤ distanceToTopValue Real.sqrt atmosphere r mu := by
  have hd := distanceToTopValue_nonneg Real.sqrt atmosphere r mu
  have hsum : ∑ i in Finset.range 501,
      (trapezoidWeight i : ℝ) * (distanceToTopValue Real.sqrt atmosphere r mu / 500)
      = distanceToTopValue Real.sqrt atmosphere r mu := by
    rw [← Finset.sum_mul, trapezoidWeight_sum]
    ring
  unfold opticalLengthValue trapezoidSum
  calc _ ≤ ∑ i in Finset.range 501,
        (trapezoidWeight i : ℝ) * (distanceToTopValue Real.sqrt atmosphere r mu / 500) := by
        apply Finset.sum_le_sum
        intro i _
        have hw : (0 : ℝ) < trapezoidWeight i := trapezoidWeight_pos i
        have hy := (profileDensityValue_bounds Real.exp profile
          (sampleRadius Real.sqrt r mu
            ((i : ℝ) * (distanceToTopValue Real.sqrt atmosphere r mu / 500))
              - atmosphere.bottom_radius)).2
        have hdx : 0 ≤ distanceToTopValue Real.sqrt atmosphere r mu / 500 :=
          div_nonneg hd (by norm_num)
        exact mul_le_mul_of_nonneg_right
          (mul_le_of_le_one_right hw.le hy) hdx
    _ = distanceToTopValue Real.sqrt atmosphere r mu := hsum

/-- C24 (as amended): the optical length is bounded by the geometric path length.  For every
atmosphere and density profile, every `r` in `[bottom_radius, top_radius]` and `mu` in
`[-1, 1]`, `0 ≤ ComputeOpticalLengthToTopAtmosphereBoundary atmosphere profile r mu ≤
DistanceToTopAtmosphereBoundary atmosphere r mu`; consequently it is 0 whenever the distance
is 0, as at `r = top_radius ≥ 0` with any `mu ≥ 0`. -/
theorem optical_length_le_distance (atmosphere : AtmosphereParameters ℝ)
    (profile : DensityProfile ℝ) (r mu : ℝ) (hr1 : atmosphere.bottom_radius ≤ r)
    (hr2 : r ≤ atmosphere.top_radius) (h1 : -1 ≤ mu) (h2 : mu ≤ 1) :
    ∃ L d : ℝ,
      ComputeOpticalLengthToTopAtmosphereBoundary Real.sqrt Real.exp atmosphere profile r mu
        = some L ∧
      DistanceToTopAtmosphereBoundary Real.sqrt atmosphere r mu = some d ∧
      0 ≤ L ∧ L ≤ d ∧ (d = 0 → L = 0) ∧
      (0 ≤ atmosphere.top_radius → r = atmosphere.top_radius → 0 ≤ mu → L = 0) := by
  refine ⟨_, _, ComputeOpticalLengthToTopAtmosphereBoundary_eq Real.sqrt Real.exp atmosphere
    profile hr1 hr2 h1 h2, DistanceToTopAtmosphereBoundary_eq Real.sqrt atmosphere hr2 h1 h2,
    opticalLengthValue_nonneg _ _ _ _ _ _, opticalLengthValue_le_distance _ _ _ _,
    fun hd => opticalLengthValue_of_distance_zero Real.exp atmosphere profile hd, ?_⟩
  intro ht hrt hmu
  apply opticalLengthValue_of_distance_zero Real.exp atmosphere profile
  rw [hrt]
  exact distanceToTopValue_top atmosphere ht hmu

/-- C24, witness: the Rayleigh profile of the driver's atmosphere at the ground, looking
along the horizontal. -/
theorem optical_length_le_distance_witness :
    ∃ L d : ℝ,
      ComputeOpticalLengthToTopAtmosphereBoundary Real.sqrt Real.exp
        (ATMOSPHERE : AtmosphereParameters ℝ)
        (ATMOSPHERE : AtmosphereParameters ℝ).rayleigh_density 6360 0 = some L ∧
      DistanceToTopAtmosphereBoundary Real.sqrt (ATMOSPHERE : AtmosphereParameters ℝ) 6360 0
        = some d ∧
      0 ≤ L ∧ L ≤ d ∧ (d = 0 → L = 0) ∧
      (0 ≤ (ATMOSPHERE : AtmosphereParameters ℝ).top_radius →
        (6360 : ℝ) = (ATMOSPHERE : AtmosphereParameters ℝ).top_radius → (0 : ℝ) ≤ 0 → L = 0) :=
  optical_length_le_distance ATMOSPHERE _ 6360 0 (by norm_num [ATMOSPHERE])
    (by norm_num [ATMOSPHERE]) (by norm_num) (by norm_num)

/-- C24, counterexample: below the ground (`r = 6000 < 6360 = bottom_radius`, still
`≤ top_radius`) with `mu = 0` the assertion on `r` fails and no optical length is
returned. -/
theorem optical_length_bound_fails_below_ground :
    (6000 : ℝ) ≤ (ATMOSPHERE : AtmosphereParameters ℝ).top_radius ∧
      (-1 : ℝ) ≤ 0 ∧ (0 : ℝ) ≤ 1 ∧
      ComputeOpticalLengthToTopAtmosphereBoundary Real.sqrt Real.exp
        (ATMOSPHERE : AtmosphereParameters ℝ)
        (ATMOSPHERE : AtmosphereParameters ℝ).rayleigh_density 6000 0 = none := by
  have h : ¬ ((6000 : ℝ) ≥ (ATMOSPHERE : AtmosphereParameters ℝ).bottom_radius
      ∧ (6000 : ℝ) ≤ (ATMOSPHERE : AtmosphereParameters ℝ).top_radius) := by
    norm_num [ATMOSPHERE]
  refine ⟨by norm_num [ATMOSPHERE], by norm_num, by norm_num, ?_⟩
  unfold ComputeOpticalLengthToTopAtmosphereBoundary
  rw [cassert_neg h]
  rfl

/-! ## Rays produced by the texture mapping -/

section MappedRays

variable (atmosphere : AtmosphereParameters ℝ)

theorem textureMu_of_ne (hbt : atmosphere.bottom_radius < atmosphere.top_radius)
    (hb : 0 < atmosphere.bottom_radius) (W H : ℤ) (uv : Vec2 ℝ)
    (hd : textureD Real.sqrt W H atmosphere uv ≠ 0) :
    textureMu Real.sqrt W H atmosphere uv
      = (atmosphere.top_radius ^ 2 - textureR Real.sqrt H atmosphere uv ^ 2
          - textureD Real.sqrt W H atmosphere uv ^ 2)
        / (2 * textureR Real.sqrt H atmosphere uv * textureD Real.sqrt W H atmosphere uv) := by
  have hHs := textureH_sq atmosphere hbt hb
  have hrs := textureR_sq atmosphere H uv
  have hnum : textureH Real.sqrt atmosphere * textureH Real.sqrt atmosphere
      - textureRho Real.sqrt H atmosphere uv * textureRho Real.sqrt H atmosphere uv
      - textureD Real.sqrt W H atmosphere uv * textureD Real.sqrt W H atmosphere uv
      = atmosphere.top_radius ^ 2 - textureR Real.sqrt H atmosphere uv ^ 2
          - textureD Real.sqrt W H atmosphere uv ^ 2 := by
    linear_combination hHs + hrs
  unfold textureMu
  rw [if_neg hd, hnum]

/-- The interpolated distance lies between `d_min` and `d_max` when `x_mu` and `x_r` are in
the unit interval. -/
theorem textureD_mem (hbt : atmosphere.bottom_radius < atmosphere.top_radius)
    (hb : 0 < atmosphere.bottom_radius) (W H : ℤ) (uv : Vec2 ℝ)
    (hxm0 : 0 ≤ GetUnitRangeFromTextureCoord uv.x W)
    (hxm1 : GetUnitRangeFromTextureCoord uv.x W ≤ 1)
    (hxr0 : 0 ≤ GetUnitRangeFromTextureCoord uv.y H) :
    atmosphere.top_radius - textureR Real.sqrt H atmosphere uv
        ≤ textureD Real.sqrt W H atmosphere uv ∧
      textureD Real.sqrt W H atmosphere uv
        ≤ textureRho Real.sqrt H atmosphere uv + textureH Real.sqrt atmosphere ∧
      (GetUnitRangeFromTextureCoord uv.x W < 1 →
        textureD Real.sqrt W H atmosphere uv
          < textureRho Real.sqrt H atmosphere uv + textureH Real.sqrt atmosphere) := by
  have hHp := textureH_pos atmosphere hbt hb
  have hrho0 : 0 ≤ textureRho Real.sqrt H atmosphere uv := mul_nonneg hHp.le hxr0
  have hr0 : 0 < textureR Real.sqrt H atmosphere uv :=
    lt_of_lt_of_le hb (bottom_le_textureR atmosphere H uv)
  have hHs := textureH_sq atmosphere hbt hb
  have hrs := textureR_sq atmosphere H uv
  have hgap : 0 < (textureRho Real.sqrt H atmosphere uv + textureH Real.sqrt atmosphere)
      - (atmosphere.top_radius - textureR Real.sqrt H atmosphere uv) := by
    by_contra hcon
    push_neg at hcon
    nlinarith [mul_pos hHp hr0, sq_nonneg (textureRho Real.sqrt H atmosphere uv),
      mul_nonneg hrho0 hHp.le, mul_nonneg hrho0 hr0.le]
  refine ⟨?_, ?_, fun hlt => ?_⟩
  · unfold textureD
    nlinarith only [mul_nonneg hxm0 hgap.le]
  · unfold textureD
    nlinarith only [mul_nonneg (sub_nonneg.mpr hxm1) hgap.le]
  · unfold textureD
    nlinarith only [mul_pos (sub_pos.mpr hlt) hgap]

/-- A ray whose distance to the top is below `rho + H` does not reach the ground. -/
theorem not_ground_of_distance_lt {b top r rho Hh d m : ℝ} (hrho0 : 0 ≤ rho)
    (hHp : 0 < Hh) (hrs : r ^ 2 = rho ^ 2 + b ^ 2) (hHs : Hh ^ 2 = top ^ 2 - b ^ 2)
    (hroot : d ^ 2 + 2 * r * m * d + r ^ 2 = top ^ 2) (hpos : 0 ≤ r * m + d)
    (hd : d < rho + Hh) (hm : r * m < 0) : r * r * (m * m - 1) + b * b < 0 := by
  by_contra hcon
  push_neg at hcon
  have ha : r * m ≤ -rho := by
    by_contra h
    push_neg at h
    nlinarith [mul_pos (by linarith : 0 < r * m + rho) (by linarith : 0 < -(r * m))]
  have hH : Hh ≤ r * m + d := by
    by_contra h
    push_neg at h
    nlinarith [mul_pos (sub_pos.mpr h) (by linarith : 0 < Hh + (r * m + d))]
  linarith

end MappedRays

/-- C25: the texture mapping only produces rays that miss the ground.  For every atmosphere
with `0 < bottom_radius < top_radius`, texture sizes `W, H ≥ 2` and every `uv` whose
unit-range values satisfy `0 ≤ x_mu < 1` and `0 ≤ x_r ≤ 1`, the `(r, mu)` returned by
`GetRMuFromTransmittanceTextureUv` has `RayIntersectsGround atmosphere r mu = false`, and the
final `ClampCosine` leaves `mu` unchanged. -/
theorem texture_mapping_misses_ground (atmosphere : AtmosphereParameters ℝ) (W H : ℤ)
    (uv : Vec2 ℝ) (hb : 0 < atmosphere.bottom_radius)
    (hbt : atmosphere.bottom_radius < atmosphere.top_radius) (hW : 2 ≤ W) (hH : 2 ≤ H)
    (hxm0 : 0 ≤ GetUnitRangeFromTextureCoord uv.x W)
    (hxm1 : GetUnitRangeFromTextureCoord uv.x W < 1)
    (hxr0 : 0 ≤ GetUnitRangeFromTextureCoord uv.y H)
    (hxr1 : GetUnitRangeFromTextureCoord uv.y H ≤ 1) :
    ∃ r mu : ℝ,
      GetRMuFromTransmittanceTextureUv Real.sqrt W H atmosphere uv = some (r, mu) ∧
      RayIntersectsGround atmosphere r mu = some false ∧
      mu = textureMu Real.sqrt W H atmosphere uv ∧
      ClampCosine (textureMu Real.sqrt W H atmosphere uv)
        = some (textureMu Real.sqrt W H atmosphere uv) := by
  have hW2 : (2 : ℝ) ≤ (W : ℝ) := by exact_mod_cast hW
  have hH2 : (2 : ℝ) ≤ (H : ℝ) := by exact_mod_cast hH
  have hW5 : (0 : ℝ) < 0.5 / (W : ℝ) := by positivity
  have hH5 : (0 : ℝ) < 0.5 / (H : ℝ) := by positivity
  have hx1 := (unitRange_nonneg_iff hW _).mp hxm0
  have hx2 := (unitRange_le_one_iff hW _).mp hxm1.le
  have hy1 := (unitRange_nonneg_iff hH _).mp hxr0
  have hy2 := (unitRange_le_one_iff hH _).mp hxr1
  have hHs := textureH_sq atmosphere hbt hb
  have hHp := textureH_pos atmosphere hbt hb
  have hrho0 : 0 ≤ textureRho Real.sqrt H atmosphere uv := mul_nonneg hHp.le hxr0
  have hrs := textureR_sq atmosphere H uv
  have hrb := bottom_le_textureR atmosphere H uv
  have hr0 : 0 < textureR Real.sqrt H atmosphere uv := lt_of_lt_of_le hb hrb
  have hrt : textureR Real.sqrt H atmosphere uv ≤ atmosphere.top_radius := by
    rw [textureR_le_top_iff atmosphere hbt hb]
    nlinarith only [hxr0, hxr1]
  obtain ⟨hdlo, hdhi, hdlt⟩ := textureD_mem atmosphere hbt hb W H uv hxm0 hxm1.le hxr0
  have hd0 : 0 ≤ textureD Real.sqrt W H atmosphere uv := by linarith
  have hrhor := textureRho_le_textureR atmosphere H uv
  have hHt := textureH_le_top atmosphere hbt hb
  have key : (-1 ≤ textureMu Real.sqrt W H atmosphere uv
        ∧ textureMu Real.sqrt W H atmosphere uv ≤ 1)
      ∧ (textureMu Real.sqrt W H atmosphere uv < 0 →
        textureR Real.sqrt H atmosphere uv * textureR Real.sqrt H atmosphere uv
            * (textureMu Real.sqrt W H atmosphere uv * textureMu Real.sqrt W H atmosphere uv
              - 1)
          + atmosphere.bottom_radius * atmosphere.bottom_radius < 0) := by
    by_cases hd : textureD Real.sqrt W H atmosphere uv = 0
    · have hmu : textureMu Real.sqrt W H atmosphere uv = 1 := by
        unfold textureMu
        rw [if_pos hd]
      rw [hmu]
      exact ⟨⟨by norm_num, le_rfl⟩, fun h => absurd h (by norm_num)⟩
    · have hdp : 0 < textureD Real.sqrt W H atmosphere uv := lt_of_le_of_ne hd0 (Ne.symm hd)
      obtain ⟨hlo, hhi, hroot, hpos⟩ := cosine_of_distance hr0 hrt hdp hdlo (by linarith)
      rw [textureMu_of_ne atmosphere hbt hb W H uv hd]
      refine ⟨⟨hlo, hhi⟩, fun hneg => ?_⟩
      exact not_ground_of_distance_lt hrho0 hHp hrs hHs hroot hpos (hdlt hxm1)
        (mul_neg_of_pos_of_neg hr0 hneg)
  obtain ⟨⟨hlo, hhi⟩, hground⟩ := key
  have hclamp : clampValue (textureMu Real.sqrt W H atmosphere uv) (-1) 1
      = textureMu Real.sqrt W H atmosphere uv := clampValue_of_mem hlo hhi
  refine ⟨_, _, GetRMuFromTransmittanceTextureUv_eq Real.sqrt W H atmosphere
    (by linarith) (by linarith) (by linarith) (by linarith), ?_, hclamp, ?_⟩
  · rw [hclamp, RayIntersectsGround_eq atmosphere hrb hlo hhi]
    by_cases hneg : textureMu Real.sqrt W H atmosphere uv < 0
    · rw [decide_eq_false (not_le.mpr (hground hneg)), Bool.and_false]
    · rw [decide_eq_false hneg, Bool.false_and]
  · rw [ClampCosine_eq, hclamp]

/-- C25, witness: the centre of a 256 x 64 texture for the driver's atmosphere. -/
theorem texture_mapping_misses_ground_witness :
    ∃ r mu : ℝ,
      GetRMuFromTransmittanceTextureUv Real.sqrt 256 64 (ATMOSPHERE : AtmosphereParameters ℝ)
        ⟨0.5, 0.5⟩ = some (r, mu) ∧
      RayIntersectsGround (ATMOSPHERE : AtmosphereParameters ℝ) r mu = some false ∧
      mu = textureMu Real.sqrt 256 64 (ATMOSPHERE : AtmosphereParameters ℝ) ⟨0.5, 0.5⟩ ∧
      ClampCosine (textureMu Real.sqrt 256 64 (ATMOSPHERE : AtmosphereParameters ℝ) ⟨0.5, 0.5⟩)
        = some (textureMu Real.sqrt 256 64 (ATMOSPHERE : AtmosphereParameters ℝ) ⟨0.5, 0.5⟩) :=
  texture_mapping_misses_ground ATMOSPHERE 256 64 ⟨0.5, 0.5⟩ (by norm_num [ATMOSPHERE])
    (by norm_num [ATMOSPHERE]) (by norm_num) (by norm_num)
    (by norm_num [GetUnitRangeFromTextureCoord]) (by norm_num [GetUnitRangeFromTextureCoord])
    (by norm_num [GetUnitRangeFromTextureCoord]) (by norm_num [GetUnitRangeFromTextureCoord])

/-! ## The view cosine along a texture row -/

section TextureRow

/-- The quotient `(c - d * d) / (2 * r * d)` does not increase with `d > 0` when `c ≥ 0`. -/
theorem cosine_quotient_antitone {c r d1 d2 : ℝ} (hc : 0 ≤ c) (hr : 0 < r) (hd1 : 0 < d1)
    (h12 : d1 ≤ d2) : (c - d2 * d2) / (2 * r * d2) ≤ (c - d1 * d1) / (2 * r * d1) := by
  have hd2 : 0 < d2 := lt_of_lt_of_le hd1 h12
  have e : (c - d1 * d1) / (2 * r * d1) - (c - d2 * d2) / (2 * r * d2)
      = (d2 - d1) * (c + d1 * d2) / (2 * r * d1 * d2) := by
    field_simp
    ring
  have h : 0 ≤ (d2 - d1) * (c + d1 * d2) / (2 * r * d1 * d2) :=
    div_nonneg (mul_nonneg (sub_nonneg.mpr h12) (add_nonneg hc (mul_pos hd1 hd2).le))
      (mul_pos (mul_pos (mul_pos (by norm_num) hr) hd1) hd2).le
  linarith

variable (atmosphere : AtmosphereParameters ℝ)

/-- For `x_r` in `[-1, 1]` the interval `[d_min, d_max]` of the mapping is not reversed,
`d_min` is not negative and `H * H - rho * rho` is not negative. -/
theorem texture_interval (hbt : atmosphere.bottom_radius < atmosphere.top_radius)
    (hb : 0 < atmosphere.bottom_radius) (H : ℤ) (uv : Vec2 ℝ)
    (hlo : -1 ≤ GetUnitRangeFromTextureCoord uv.y H)
    (hhi : GetUnitRangeFromTextureCoord uv.y H ≤ 1) :
    0 ≤ textureH Real.sqrt atmosphere * textureH Real.sqrt atmosphere
        - textureRho Real.sqrt H atmosphere uv * textureRho Real.sqrt H atmosphere uv ∧
      0 ≤ atmosphere.top_radius - textureR Real.sqrt H atmosphere uv ∧
      0 ≤ (textureRho Real.sqrt H atmosphere uv + textureH Real.sqrt atmosphere)
        - (atmosphere.top_radius - textureR Real.sqrt H atmosphere uv) := by
  have hHp := textureH_pos atmosphere hbt hb
  have hHs := textureH_sq atmosphere hbt hb
  have hrs := textureR_sq atmosphere H uv
  have hHt := textureH_le_top atmosphere hbt hb
  have hr0 : 0 < textureR Real.sqrt H atmosphere uv :=
    lt_of_lt_of_le hb (bottom_le_textureR atmosphere H uv)
  have hrho1 : textureRho Real.sqrt H atmosphere uv ≤ textureH Real.sqrt atmosphere := by
    unfold textureRho
    nlinarith only [mul_nonneg hHp.le (sub_nonneg.mpr hhi)]
  have hrho2 : -textureH Real.sqrt atmosphere ≤ textureRho Real.sqrt H atmosphere uv := by
    unfold textureRho
    nlinarith only [mul_nonneg hHp.le (sub_nonneg.mpr hlo)]
  have hc : 0 ≤ textureH Real.sqrt atmosphere * textureH Real.sqrt atmosphere
      - textureRho Real.sqrt H atmosphere uv * textureRho Real.sqrt H atmosphere uv := by
    nlinarith only [mul_nonneg (sub_nonneg.mpr hrho1) (sub_nonneg.mpr hrho2)]
  have hrt : textureR Real.sqrt H atmosphere uv ≤ atmosphere.top_radius := by
    by_contra h
    push_neg at h
    nlinarith only [h, hc, hHs, hrs, hr0, hb, hbt, mul_pos (sub_pos.mpr h) hr0,
      mul_pos (sub_pos.mpr h) (lt_trans hb hbt)]
  have hdiff : 0 < textureR Real.sqrt H atmosphere uv
      - textureRho Real.sqrt H atmosphere uv := by
    by_contra h
    push_neg at h
    nlinarith only [h, hrs, hr0, hb, mul_pos hb hb,
      mul_nonneg (sub_nonneg.mpr (sub_nonpos.mp h)) hr0.le,
      mul_nonneg (sub_nonneg.mpr (sub_nonpos.mp h))
        (le_trans hr0.le (sub_nonpos.mp h))]
  refine ⟨hc, sub_nonneg.mpr hrt, ?_⟩
  by_contra h
  push_neg at h
  have h1 : 0 < atmosphere.top_radius - textureH Real.sqrt atmosphere
      - (textureR Real.sqrt H atmosphere uv + textureRho Real.sqrt H atmosphere uv) := by
    linarith
  have h2 : 0 ≤ atmosphere.top_radius + textureH Real.sqrt atmosphere
      - (textureR Real.sqrt H atmosphere uv - textureRho Real.sqrt H atmosphere uv) := by
    linarith
  nlinarith only [mul_pos h1 hdiff, mul_nonneg (sub_nonneg.mpr hHt) h2, hHs, hrs]

/-- The clamped cosine of the mapping does not increase with `x_mu ≥ 0` when `x_r` is in
`[-1, 1]`. -/
theorem textureMu_antitone (hbt : atmosphere.bottom_radius < atmosphere.top_radius)
    (hb : 0 < atmosphere.bottom_radius) (W H : ℤ) (y x1 x2 : ℝ)
    (hlo : -1 ≤ GetUnitRangeFromTextureCoord y H)
    (hhi : GetUnitRangeFromTextureCoord y H ≤ 1)
    (hm0 : 0 ≤ GetUnitRangeFromTextureCoord x1 W)
    (hm12 : GetUnitRangeFromTextureCoord x1 W ≤ GetUnitRangeFromTextureCoord x2 W) :
    clampValue (textureMu Real.sqrt W H atmosphere ⟨x2, y⟩) (-1) 1
      ≤ clampValue (textureMu Real.sqrt W H atmosphere ⟨x1, y⟩) (-1) 1 := by
  obtain ⟨hc, hdmin, hgap⟩ := texture_interval atmosphere hbt hb H ⟨x1, y⟩ hlo hhi
  have hr0 : 0 < textureR Real.sqrt H atmosphere ⟨x1, y⟩ :=
    lt_of_lt_of_le hb (bottom_le_textureR atmosphere H _)
  have hd1 : 0 ≤ textureD Real.sqrt W H atmosphere ⟨x1, y⟩ := by
    unfold textureD
    exact add_nonneg hdmin (mul_nonneg hm0 hgap)
  have hd12 : textureD Real.sqrt W H atmosphere ⟨x1, y⟩
      ≤ textureD Real.sqrt W H atmosphere ⟨x2, y⟩ := by
    unfold textureD
    exact add_le_add_left (mul_le_mul_of_nonneg_right hm12 hgap) _
  by_cases hz : textureD Real.sqrt W H atmosphere ⟨x1, y⟩ = 0
  · have hmu : textureMu Real.sqrt W H atmosphere ⟨x1, y⟩ = 1 := by
      unfold textureMu
      rw [if_pos hz]
    rw [hmu, clampValue_of_mem (by norm_num) le_rfl]
    exact (clampValue_bounds _ (by norm_num)).2
  · have hp1 : 0 < textureD Real.sqrt W H atmosphere ⟨x1, y⟩ :=
      lt_of_le_of_ne hd1 (Ne.symm hz)
    have hz2 : textureD Real.sqrt W H atmosphere ⟨x2, y⟩ ≠ 0 :=
      (lt_of_lt_of_le hp1 hd12).ne.symm
    apply clampValue_mono _ (by norm_num)
    unfold textureMu
    rw [if_neg hz, if_neg hz2]
    exact cosine_quotient_antitone hc hr0 hp1 hd12

end TextureRow

/-- C26, counterexample: in a 2 x 2 texture for the atmosphere with radii 3 and 5, the row
`uv.y = 0.75` maps `uv.x = 0` to `mu = 2/5` and `uv.x = 0.25` to `mu = 1`, so the cosine
increases along the row. -/
theorem texture_mu_not_antitone_at_row_start :
    (0 : ℝ) < (stepAtmosphere : AtmosphereParameters ℝ).bottom_radius ∧
      (stepAtmosphere : AtmosphereParameters ℝ).bottom_radius
        < (stepAtmosphere : AtmosphereParameters ℝ).top_radius ∧
      GetRMuFromTransmittanceTextureUv Real.sqrt 2 2 (stepAtmosphere : AtmosphereParameters ℝ)
        ⟨0, 0.75⟩ = some (5, 2 / 5) ∧
      GetRMuFromTransmittanceTextureUv Real.sqrt 2 2 (stepAtmosphere : AtmosphereParameters ℝ)
        ⟨0.25, 0.75⟩ = some (5, 1) ∧
      ¬ ((2 / 5 : ℝ) ≥ 1) := by
  have hH : textureH Real.sqrt (stepAtmosphere : AtmosphereParameters ℝ) = 4 := by
    unfold textureH
    rw [show (stepAtmosphere : AtmosphereParameters ℝ).top_radius
        * (stepAtmosphere : AtmosphereParameters ℝ).top_radius
        - (stepAtmosphere : AtmosphereParameters ℝ).bottom_radius
        * (stepAtmosphere : AtmosphereParameters ℝ).bottom_radius = 4 ^ 2 by
      norm_num [stepAtmosphere]]
    exact Real.sqrt_sq (by norm_num)
  have hrho : ∀ x : ℝ, textureRho Real.sqrt 2 (stepAtmosphere : AtmosphereParameters ℝ)
      ⟨x, 0.75⟩ = 4 := by
    intro x
    unfold textureRho
    rw [hH]
    norm_num [GetUnitRangeFromTextureCoord]
  have hr : ∀ x : ℝ, textureR Real.sqrt 2 (stepAtmosphere : AtmosphereParameters ℝ)
      ⟨x, 0.75⟩ = 5 := by
    intro x
    unfold textureR
    rw [hrho, show (4 : ℝ) * 4 + (stepAtmosphere : AtmosphereParameters ℝ).bottom_radius
        * (stepAtmosphere : AtmosphereParameters ℝ).bottom_radius = 5 ^ 2 by
      norm_num [stepAtmosphere]]
    exact Real.sqrt_sq (by norm_num)
  have hd1 : textureD Real.sqrt 2 2 (stepAtmosphere : AtmosphereParameters ℝ) ⟨0, 0.75⟩
      = -4 := by
    unfold textureD
    rw [hrho, hr, hH]
    norm_num [GetUnitRangeFromTextureCoord, stepAtmosphere]
  have hd2 : textureD Real.sqrt 2 2 (stepAtmosphere : AtmosphereParameters ℝ) ⟨0.25, 0.75⟩
      = 0 := by
    unfold textureD
    rw [hrho, hr, hH]
    norm_num [GetUnitRangeFromTextureCoord, stepAtmosphere]
  have hmu1 : textureMu Real.sqrt 2 2 (stepAtmosphere : AtmosphereParameters ℝ) ⟨0, 0.75⟩
      = 2 / 5 := by
    unfold textureMu
    rw [hd1, hrho, hr, hH]
    norm_num
  have hmu2 : textureMu Real.sqrt 2 2 (stepAtmosphere : AtmosphereParameters ℝ)
      ⟨0.25, 0.75⟩ = 1 := by
    unfold textureMu
    rw [if_pos hd2]
  refine ⟨by norm_num [stepAtmosphere], by norm_num [stepAtmosphere], ?_, ?_, by norm_num⟩
  · rw [GetRMuFromTransmittanceTextureUv_eq Real.sqrt 2 2 stepAtmosphere
      (by norm_num) (by norm_num) (by norm_num) (by norm_num), hr, hmu1,
      clampValue_of_mem (by norm_num) (by norm_num)]
  · rw [GetRMuFromTransmittanceTextureUv_eq Real.sqrt 2 2 stepAtmosphere
      (by norm_num) (by norm_num) (by norm_num) (by norm_num), hr, hmu2,
      clampValue_of_mem (by norm_num) (by norm_num)]

/-- C26, amended: the mapped view cosine does not increase along a texture row from the first
texel centre on.  For every atmosphere with `0 < bottom_radius < top_radius`, texture sizes
`W, H ≥ 2`, every `uv.y` in `[0, 1 - 0.5 / H]` and every `0.5 / W ≤ uv.x1 ≤ uv.x2 ≤ 1`,
`GetRMuFromTransmittanceTextureUv` returns at `(uv.x1, uv.y)` and `(uv.x2, uv.y)` the same
`r` and cosines `mu1 ≥ mu2`. -/
theorem texture_mu_antitone_in_row (atmosphere : AtmosphereParameters ℝ) (W H : ℤ)
    (y x1 x2 : ℝ) (hb : 0 < atmosphere.bottom_radius)
    (hbt : atmosphere.bottom_radius < atmosphere.top_radius) (hW : 2 ≤ W) (hH : 2 ≤ H)
    (hy0 : 0 ≤ y) (hy1 : y ≤ 1 - 0.5 / (H : ℝ)) (hx0 : 0.5 / (W : ℝ) ≤ x1) (h12 : x1 ≤ x2)
    (hx2 : x2 ≤ 1) :
    ∃ r mu1 mu2 : ℝ,
      GetRMuFromTransmittanceTextureUv Real.sqrt W H atmosphere ⟨x1, y⟩ = some (r, mu1) ∧
      GetRMuFromTransmittanceTextureUv Real.sqrt W H atmosphere ⟨x2, y⟩ = some (r, mu2) ∧
      mu1 ≥ mu2 := by
  have hW2 : (2 : ℝ) ≤ (W : ℝ) := by exact_mod_cast hW
  have hH2 : (2 : ℝ) ≤ (H : ℝ) := by exact_mod_cast hH
  have hW5 : (0 : ℝ) < 0.5 / (W : ℝ) := by positivity
  have hH5 : (0 : ℝ) < 0.5 / (H : ℝ) := by positivity
  have hlo := unitRange_neg_one_le hH hy0
  have hhi := (unitRange_le_one_iff hH y).mpr hy1
  have hm0 := (unitRange_nonneg_iff hW x1).mpr hx0
  have hm12 : GetUnitRangeFromTextureCoord x1 W ≤ GetUnitRangeFromTextureCoord x2 W := by
    unfold GetUnitRangeFromTextureCoord
    exact div_le_div_of_nonneg_right (sub_le_sub_right h12 _)
      (unitRange_denominator_pos hW).le
  refine ⟨textureR Real.sqrt H atmosphere ⟨x1, y⟩, _, _,
    GetRMuFromTransmittanceTextureUv_eq Real.sqrt W H atmosphere
      (by show (0 : ℝ) ≤ x1; linarith) (by show x1 ≤ 1; linarith) hy0
      (by show y ≤ 1; linarith),
    GetRMuFromTransmittanceTextureUv_eq Real.sqrt W H atmosphere
      (by show (0 : ℝ) ≤ x2; linarith) hx2 hy0 (by show y ≤ 1; linarith),
    textureMu_antitone atmosphere hbt hb W H y x1 x2 hlo hhi hm0 hm12⟩

/-- C26, witness: the row `uv.y = 0.5` of a 256 x 64 texture for the driver's atmosphere,
between `uv.x = 0.25` and `uv.x = 0.75`. -/
theorem texture_mu_antitone_in_row_witness :
    ∃ r mu1 mu2 : ℝ,
      GetRMuFromTransmittanceTextureUv Real.sqrt 256 64
        (ATMOSPHERE : AtmosphereParameters ℝ) ⟨0.25, 0.5⟩ = some (r, mu1) ∧
      GetRMuFromTransmittanceTextureUv Real.sqrt 256 64
        (ATMOSPHERE : AtmosphereParameters ℝ) ⟨0.75, 0.5⟩ = some (r, mu2) ∧
      mu1 ≥ mu2 :=
  texture_mu_antitone_in_row ATMOSPHERE 256 64 0.5 0.25 0.75 (by norm_num [ATMOSPHERE])
    (by norm_num [ATMOSPHERE]) (by norm_num) (by norm_num) (by norm_num) (by norm_num)
    (by norm_num) (by norm_num) (by norm_num)

end PrecomputedAtmosphere
